import Mathlib

/-!
Ledger transaction engine of the MZL payment application.

A shallow embedding of `internals/repository/wallet_repo.go` and of the code around it:
the services of `internals/service/wallet_service.go`, the event processing of
`internals/service/payment_service.go`, the key/value service and the work queue of
`internals/pkg/redis.go`, the webhook handler of `internals/server/paystack_handler.go` and
the rate limiter of `internals/middlewares/rate_limit.go`.

* The relational store is a record of four tables (lists of rows, in insertion order).
* Every Go function that talks to the store is a function from the store to the returned
  `error` (an `Option GoError`, `none` being `nil`) paired with the store it leaves behind.
* `float64` amounts are modelled in exact rational arithmetic; where a statement gives the value
  of a sum or a difference, it does so for results that a `float64` holds without rounding.
* The key/value service is a record of its keys, counters and lists; a command returns an error
  when the service does not answer. Bodies and queue elements are given with what the JSON
  decoder makes of them.
* The loop of the queue worker is run for a given number of passes.
-/

namespace MZL

/-! ## Data model -/

/-- Monetary amounts and balances (`float64` in the Go code), in exact arithmetic. Comparisons
and signs of `float64` values are those of the rationals they stand for. A sum, a difference or
a quotient is the one that the code computes when it is itself a value of a `float64`
(`isFloat64`); otherwise the code rounds it, which is not modelled. -/
abbrev Amount := Rat

/-- Modelled from the spec: the enum `db.TransactionType` of the generated client, of which
the repository uses `Deposit`, `Withdrawal`, `Transfer` and `Swap`. -/
inductive TransactionType where
  | Deposit
  | Withdrawal
  | Transfer
  | Swap
  | Refund
  deriving DecidableEq, Repr

/-- Modelled from the spec: the enum `db.TransactionStatus` of the generated client. -/
inductive TransactionStatus where
  | Pending
  | Success
  | Failed
  deriving DecidableEq, Repr

/-- Row of the `User` table (`db.UserModel`). -/
structure UserModel where
  ID : String
  Email : String
  Password : String
  Name : String
  TransactionPin : Option String
  deriving DecidableEq, Repr

/-- Row of the `Wallet` table (`db.WalletModel`). -/
structure WalletModel where
  ID : String
  UserID : String
  AccountNumber : String
  deriving DecidableEq, Repr

/-- Row of the `WalletAsset` table (`db.WalletAssetModel`). -/
structure WalletAssetModel where
  ID : String
  WalletID : String
  Currency : String
  Balance : Amount
  deriving DecidableEq, Repr

/-- Row of the `Transaction` table (`db.TransactionModel`). -/
structure TransactionModel where
  ID : String
  WalletID : String
  Amount : Amount
  Currency : String
  TxType : TransactionType
  Status : TransactionStatus
  Reference : String
  GatewayRef : Option String
  Provider : Option String
  Description : Option String
  deriving DecidableEq, Repr

/-- The ledger store: the four tables, rows in insertion order, and the counter from which
the store draws the identifier of the next row it creates. -/
structure DB where
  users : List UserModel
  wallets : List WalletModel
  assets : List WalletAssetModel
  transactions : List TransactionModel
  nextID : Nat
  deriving DecidableEq, Repr

/-! ## Errors -/

/-- Go `error` values that the ledger code creates or receives from the store. -/
inductive GoError where
  /-- Value of `fmt.Errorf(msg)` or `errors.New(msg)`. -/
  | Errorf (msg : String)
  /-- The client's `db.ErrNotFound`, returned by `FindFirst` and `FindUnique` without a row. -/
  | ErrNotFound
  /-- The sentinel `service.ErrTransactionAlreadyProcessed`. -/
  | ErrTransactionAlreadyProcessed
  /-- The sentinel `service.ErrWalletNotFound`. -/
  | ErrWalletNotFound
  /-- Raw store error: a unique constraint on the named field was violated. -/
  | UniqueConstraint (field : String)
  /-- Raw store error: the named check constraint was violated. -/
  | CheckConstraint (name : String)
  /-- Raw store error: a record that an update or a relation link depends on is missing. -/
  | RecordNotFound
  /-- Run-time panic of a nil pointer dereference. -/
  | NilDereference
  /-- Value of `fmt.Errorf(msg + "%w", err)`: the error `err` wrapped behind a text. -/
  | Wrapf (msg : String) (err : GoError)
  deriving DecidableEq, Repr

/-- Modelled from the spec: the text of `err.Error()`. The texts of the raw store errors come
from the store, which is not part of the sources; they carry the marks the repository looks
for (`Unique constraint failed`, `non_negative_balance`). -/
def GoError.Error : GoError → String
  | .Errorf msg => msg
  | .ErrNotFound => "ErrNotFound"
  | .ErrTransactionAlreadyProcessed => "transaction with this reference already exists"
  | .ErrWalletNotFound => "wallet not found for this currency"
  | .UniqueConstraint field => "Unique constraint failed on the fields: (" ++ field ++ ")"
  | .CheckConstraint name => "violates check constraint " ++ name
  | .RecordNotFound => "An operation failed because it depends on one or more records that were required but not found."
  | .NilDereference => "runtime error: invalid memory address or nil pointer dereference"
  | .Wrapf msg err => msg ++ err.Error

/-- Go's `strings.Contains(s, substr)`. -/
def stringsContains (s substr : String) : Bool :=
  s.data.tails.any (fun t => substr.data.isPrefixOf t)

/-- Go's `strings.ToLower` on the characters of the string. -/
def stringsToLower (s : String) : String :=
  String.mk (s.data.map Char.toLower)

/-- The helper `isUniqueConstraintError` of `wallet_repo.go`. -/
def isUniqueConstraintError (err : Option GoError) : Bool :=
  match err with
  | none => false
  | some e => stringsContains e.Error "Unique constraint failed" || stringsContains e.Error "P2002"

/-! ## The store: statements and atomic batches -/

/-- Modelled from the spec: the identifier that the store gives to the row it creates when its
counter stands at `n` (the default of the `id` columns is part of the schema, which is not
among the sources). -/
def genID (n : Nat) : String := toString n

/-- A statement prepared with `.Tx()`: it either fails with a store error or yields the
store after the statement. -/
abbrev TxOp := DB → Except GoError DB

/-- Modelled from the spec: the check constraint `non_negative_balance` of the store's schema
(not part of the sources), evaluated on a balance that a statement is about to write. -/
def violatesNonNegativeBalance (balance : Amount) : Bool := decide (balance < 0)

/-- Update of the balance of the `WalletAsset` rows selected by a unique key: the statement
fails when no row is selected or when a written balance violates the check constraint. -/
def WalletAsset.Update (sel : WalletAssetModel → Bool) (f : Amount → Amount) : TxOp := fun db =>
  if !db.assets.any sel then .error .RecordNotFound
  else if db.assets.any (fun a => sel a && violatesNonNegativeBalance (f a.Balance)) then
    .error (.CheckConstraint "non_negative_balance")
  else .ok { db with assets := db.assets.map (fun a => if sel a then { a with Balance := f a.Balance } else a) }

/-- Statement `WalletAsset.FindUnique(ID.Equals(id)).Update(Balance.Decrement(amount))`. -/
def WalletAsset.DecrementByID (id : String) (amount : Amount) : TxOp :=
  WalletAsset.Update (fun a => a.ID == id) (fun b => b - amount)

/-- Statement
`WalletAsset.FindUnique(WalletIDCurrency(walletID, currency)).Update(Balance.Increment(amount))`. -/
def WalletAsset.IncrementByWalletIDCurrency (walletID currency : String) (amount : Amount) : TxOp :=
  WalletAsset.Update (fun a => a.WalletID == walletID && a.Currency == currency) (fun b => b + amount)

/-- Statement `WalletAsset.UpsertOne(WalletIDCurrency(walletID, currency))
.Create(Wallet.Link(walletID), Currency.Set(currency), Balance.Set(amount))
.Update(Balance.Increment(amount))`. -/
def WalletAsset.UpsertOne (walletID currency : String) (amount : Amount) : TxOp := fun db =>
  if db.assets.any (fun a => a.WalletID == walletID && a.Currency == currency) then
    WalletAsset.IncrementByWalletIDCurrency walletID currency amount db
  else if !db.wallets.any (fun w => w.ID == walletID) then .error .RecordNotFound
  else if violatesNonNegativeBalance amount then .error (.CheckConstraint "non_negative_balance")
  else .ok { db with
    assets := db.assets ++ [
      { ID := genID db.nextID
        WalletID := walletID
        Currency := currency
        Balance := amount }]
    nextID := db.nextID + 1 }

/-- Modelled from the spec: the unique constraint of the store's schema (not part of the
sources) on `Transaction.reference`, evaluated on a reference that a statement is about to
insert. -/
def violatesUniqueReference (db : DB) (reference : String) : Bool :=
  db.transactions.any (fun t => t.Reference == reference)

/-- Statement `Transaction.CreateOne(Wallet.Link(walletID), Amount.Set, Currency.Set, Type.Set,
Reference.Set, Status.Set, ...)`: the linked wallet must exist and the reference must be new. -/
def Transaction.CreateOne (walletID : String) (amount : Amount) (currency : String)
    (txType : TransactionType) (reference : String) (status : TransactionStatus)
    (gatewayRef provider description : Option String) : TxOp := fun db =>
  if !db.wallets.any (fun w => w.ID == walletID) then .error .RecordNotFound
  else if violatesUniqueReference db reference then .error (.UniqueConstraint "reference")
  else .ok { db with
    transactions := db.transactions ++ [
      { ID := genID db.nextID
        WalletID := walletID
        Amount := amount
        Currency := currency
        TxType := txType
        Status := status
        Reference := reference
        GatewayRef := gatewayRef
        Provider := provider
        Description := description }]
    nextID := db.nextID + 1 }

/-- Statement `Transaction.FindUnique(ID.Equals(id)).Update(Status.Set(status))`. -/
def Transaction.SetStatusByID (id : String) (status : TransactionStatus) : TxOp := fun db =>
  if !db.transactions.any (fun t => t.ID == id) then .error .RecordNotFound
  else .ok { db with
    transactions := db.transactions.map (fun t => if t.ID == id then { t with Status := status } else t) }

/-- Runs the statements in order, stopping at the first one that fails. -/
def execOps : List TxOp → DB → Except GoError DB
  | [], db => .ok db
  | op :: rest, db =>
    match op db with
    | .ok db' => execOps rest db'
    | .error e => .error e

/-- The batch `client.Prisma.Transaction(ops...).Exec(ctx)`: all statements take effect, or
the first error is returned and the store is left as it was. -/
def Prisma.Transaction (ops : List TxOp) (db : DB) : Option GoError × DB :=
  match execOps ops db with
  | .ok db' => (none, db')
  | .error e => (some e, db)

/-! ## `wallet_repo.go` -/

/-- `GetAssetByCurrency`: `WalletAsset.FindFirst(Currency.Equals(currency),
Wallet.Where(Wallet.UserID.Equals(userID)))`, the first asset in the currency whose wallet
belongs to the user; without such a row the client returns `db.ErrNotFound`. -/
def GetAssetByCurrency (db : DB) (userID currency : String) : Option WalletAssetModel × Option GoError :=
  match db.assets.find? (fun a => a.Currency == currency &&
      db.wallets.any (fun w => w.ID == a.WalletID && w.UserID == userID)) with
  | some a => (some a, none)
  | none => (none, some .ErrNotFound)

/-- `GetWalletByAccountNumber`: `Wallet.FindUnique(AccountNumber.Equals(accountNumber))`;
without such a row the client returns `db.ErrNotFound`. -/
def GetWalletByAccountNumber (db : DB) (accountNumber : String) : Option WalletModel × Option GoError :=
  match db.wallets.find? (fun w => w.AccountNumber == accountNumber) with
  | some w => (some w, none)
  | none => (none, some .ErrNotFound)

/-- `CreditWallet`. -/
def CreditWallet (db : DB) (walletID currency : String) (amount : Amount)
    (reference description : String) (txType : TransactionType) : Option GoError × DB :=
  let opTx := Transaction.CreateOne walletID amount currency txType reference .Success
    none none (some description)
  let opAsset := WalletAsset.UpsertOne walletID currency amount
  Prisma.Transaction [opTx, opAsset] db

/-- `SwapFunds`. -/
def SwapFunds (db : DB) (userID fromCurrency toCurrency : String) (sourceAmount amountOut : Amount)
    (reference description : String) : Option GoError × DB :=
  match GetAssetByCurrency db userID fromCurrency with
  | (some sourceAsset, none) =>
    if sourceAsset.Balance < sourceAmount then (some (.Errorf "insufficient balance"), db)
    else
      let opDebit := WalletAsset.DecrementByID sourceAsset.ID sourceAmount
      let opCredit := WalletAsset.UpsertOne sourceAsset.WalletID toCurrency amountOut
      let opLogOut := Transaction.CreateOne sourceAsset.WalletID sourceAmount fromCurrency .Swap
        (reference ++ "-OUT") .Success none none (some description)
      let opLogIn := Transaction.CreateOne sourceAsset.WalletID amountOut toCurrency .Swap
        (reference ++ "-IN") .Success none none (some description)
      match Prisma.Transaction [opDebit, opCredit, opLogOut, opLogIn] db with
      | (some err, db') =>
        if stringsContains err.Error "non_negative_balance" then
          (some (.Errorf "insufficient funds (race condition)"), db')
        else (some err, db')
      | (none, db') => (none, db')
  | _ => (some (.Errorf "insufficient funds: source wallet not found"), db)

/-- `TransferFunds`. -/
def TransferFunds (db : DB) (fromUserID toAccountNumber currency : String) (amount : Amount)
    (reference descSender descReceiver : String) : Option GoError × DB :=
  match GetAssetByCurrency db fromUserID currency with
  | (some senderAsset, none) =>
    match GetWalletByAccountNumber db toAccountNumber with
    | (some receiverWallet, none) =>
      if receiverWallet.UserID == fromUserID then (some (.Errorf "cannot transfer to self"), db)
      else
        let opDebit := WalletAsset.DecrementByID senderAsset.ID amount
        let opCredit := WalletAsset.UpsertOne receiverWallet.ID currency amount
        let opLogS := Transaction.CreateOne senderAsset.WalletID amount currency .Transfer
          (reference ++ "-DEBIT") .Success none none (some descSender)
        let opLogR := Transaction.CreateOne receiverWallet.ID amount currency .Transfer
          (reference ++ "-CREDIT") .Success none none (some descReceiver)
        match Prisma.Transaction [opDebit, opCredit, opLogS, opLogR] db with
        | (some err, db') =>
          if stringsContains err.Error "non_negative_balance" then
            (some (.Errorf "insufficient funds (race condition)"), db')
          else (some err, db')
        | (none, db') => (none, db')
    | _ => (some (.Errorf "recipient not found"), db)
  | _ => (some (.Errorf "insufficient funds"), db)

/-- The part of `DebitForWithdrawal` that follows its read of the asset: `seen` is what
`GetAssetByCurrency` returned to the call, `db` the store on which its batch is executed. -/
def DebitForWithdrawal.afterRead (seen : Option WalletAssetModel × Option GoError) (db : DB)
    (currency : String) (amount : Amount) (reference transferCode description : String) :
    Option GoError × DB :=
  match seen with
  | (some asset, none) =>
    if asset.Balance < amount then (some (.Errorf "insufficient funds"), db)
    else
      let opDebit := WalletAsset.DecrementByID asset.ID amount
      let opLog := Transaction.CreateOne asset.WalletID amount currency .Withdrawal reference .Pending
        (some transferCode) (some "PAYSTACK") (some description)
      match Prisma.Transaction [opDebit, opLog] db with
      | (some err, db') =>
        if stringsContains err.Error "non_negative_balance" then
          (some (.Errorf "insufficient funds (race condition)"), db')
        else (some err, db')
      | (none, db') => (none, db')
  | _ => (some (.Errorf "insufficient funds"), db)

/-- `DebitForWithdrawal`. -/
def DebitForWithdrawal (db : DB) (userID currency : String) (amount : Amount)
    (reference transferCode description : String) : Option GoError × DB :=
  DebitForWithdrawal.afterRead (GetAssetByCurrency db userID currency) db currency amount
    reference transferCode description

/-- `CreditWalletByEmail`. -/
def CreditWalletByEmail (db : DB) (email currency : String) (amount : Amount)
    (reference description provider : String) : Option GoError × DB :=
  match db.users.find? (fun u => u.Email == email) with
  | none => (some (.Errorf "user not found"), db)
  | some user =>
    match db.wallets.find? (fun w => w.UserID == user.ID) with
    | none => (some (.Errorf "wallet not initialized"), db)
    | some wallet =>
      let opAsset := WalletAsset.UpsertOne wallet.ID currency amount
      let opLog := Transaction.CreateOne wallet.ID amount currency .Deposit reference .Success
        none (some provider) (some description)
      match Prisma.Transaction [opAsset, opLog] db with
      | (err, db') => if isUniqueConstraintError err then (none, db') else (err, db')

/-- The query `Transaction.FindFirst(GatewayRef.Equals(transferCode),
Type.Equals(TransactionTypeWithdrawal))` of `RefundWithdrawal`: the first such row, if any. -/
def FindWithdrawalByGatewayRef (db : DB) (transferCode : String) : Option TransactionModel :=
  db.transactions.find? (fun t => t.GatewayRef == some transferCode && t.TxType == .Withdrawal)

/-- `RefundWithdrawal`. -/
def RefundWithdrawal (db : DB) (transferCode : String) : Option GoError × DB :=
  match FindWithdrawalByGatewayRef db transferCode with
  | none => (none, db)
  | some txn =>
    if txn.Status == .Failed then (none, db)
    else
      let opRefund := WalletAsset.IncrementByWalletIDCurrency txn.WalletID txn.Currency txn.Amount
      let opStatus := Transaction.SetStatusByID txn.ID .Failed
      Prisma.Transaction [opRefund, opStatus] db

/-- `UpdateTransactionStatus`:
`Transaction.FindMany(GatewayRef.Equals(reference)).Update(Status.Set(status))`. -/
def UpdateTransactionStatus (db : DB) (reference : String) (status : TransactionStatus) :
    Option GoError × DB :=
  (none, { db with
    transactions := db.transactions.map
      (fun t => if t.GatewayRef == some reference then { t with Status := status } else t) })

/-! ## `redis.go`: the key/value service -/

/-- A key of the key/value service with its value and its time to live in seconds. -/
structure RedisEntry where
  key : String
  value : String
  ttl : Nat
  deriving DecidableEq, Repr

/-- The fields that `ProcessPaystackEvent` decodes from the body of a provider event
(`event`, `data.reference`, `data.transfer_code`, `data.amount`, `data.currency`, `data.status`,
`data.customer.email`); a field missing from the body has the zero value of its type. -/
structure PaystackEvent where
  Event : String
  Reference : String
  TransferCode : String
  Amount : Amount
  Currency : String
  Status : String
  Email : String
  deriving DecidableEq, Repr

/-- The body of a webhook request (`[]byte`), given with what `json.Unmarshal` makes of it.
The handler decodes only `data.reference`, the worker decodes the whole event, so a body is of
one of three kinds. -/
inductive WebhookBody where
  /-- Bytes on which both the handler and the worker get an error from the decoder;
  `reference` is what the failed decoding leaves in the handler's `data.reference` (the empty
  string, unless the body is well-formed and has a mistyped duplicate of a field). -/
  | Invalid (raw : String) (reference : String)
  /-- Bytes in which the handler finds `data.reference` while the worker fails on another
  field (a text where a number is expected, for instance). -/
  | ReferenceOnly (raw : String) (reference : String)
  /-- Bytes that decode to the given event. -/
  | Event (e : PaystackEvent)
  deriving DecidableEq, Repr

/-- The struct `job` of `redis.go`: a payload and the number of failed attempts. -/
structure job where
  Payload : WebhookBody
  Retries : Int
  deriving DecidableEq, Repr

/-- An element of a work queue (a string), given with what `json.Unmarshal` into a `job` makes
of it: `Job j` is `json.Marshal(j)`, `Corrupt raw` a string that does not decode. -/
inductive QueueItem where
  | Corrupt (raw : String)
  | Job (j : job)
  deriving DecidableEq, Repr

/-- A key that holds a counter, with its time to live in seconds (`none`: no expiry). -/
structure RedisCounter where
  key : String
  count : Int
  ttl : Option Nat
  deriving DecidableEq, Repr

/-- A key that holds a list, the head of the list first. -/
structure RedisList where
  key : String
  items : List QueueItem
  deriving DecidableEq, Repr

/-- State of the key/value service: the live keys, and whether the service answers at all
(when it does not, every command returns an error). Counters and lists are kept in tables of
their own: the prefixes of the keys (`idemp:`, `wallet:`, `tx_history:`, `ratelimit:`) and the
queue names keep the three kinds of keys apart. `pushesRefused` says that the service, although
it answers, refuses to append to a list. No command changes `available`: a service that stops
answering between two commands of a caller is a change of the state between them, as in
`PaystackWebhookHandler.interleaved`. -/
structure RedisStore where
  entries : List RedisEntry
  available : Bool
  counters : List RedisCounter := []
  queues : List RedisList := []
  pushesRefused : Bool := false
  deriving DecidableEq, Repr

/-- The error of a command sent to a key/value service that does not answer. -/
def redisUnavailable : GoError := .Errorf "redis: connection refused"

/-- Go's `json.Marshal` of a string without special characters. -/
def jsonMarshalString (s : String) : String := "\"" ++ s ++ "\""

/-- `client.SetNX(key, value, ttl).Result()`: sets the key if it is absent and reports whether
it did. -/
def RedisStore.SetNX (r : RedisStore) (key value : String) (ttl : Nat) :
    (Bool × Option GoError) × RedisStore :=
  if !r.available then ((false, some redisUnavailable), r)
  else if r.entries.any (fun e => e.key == key) then ((false, none), r)
  else ((true, none), { r with entries := r.entries ++ [{ key := key, value := value, ttl := ttl }] })

/-- `client.Set(key, value, ttl).Err()`: sets the key, replacing a former value. -/
def RedisStore.Set (r : RedisStore) (key value : String) (ttl : Nat) : Option GoError × RedisStore :=
  if !r.available then (some redisUnavailable, r)
  else (none, { r with
    entries := r.entries.filter (fun e => !(e.key == key)) ++ [{ key := key, value := value, ttl := ttl }] })

/-- `client.Del(key).Err()`: removes the key. -/
def RedisStore.Del (r : RedisStore) (key : String) : Option GoError × RedisStore :=
  if !r.available then (some redisUnavailable, r)
  else (none, { r with entries := r.entries.filter (fun e => !(e.key == key)) })

/-- `RedisQueue.TryLockIdempotencyKey`: `SetNX("idemp:" + key, "processing", ttl)`. -/
def TryLockIdempotencyKey (r : RedisStore) (key : String) (ttl : Nat) :
    (Bool × Option GoError) × RedisStore :=
  r.SetNX ("idemp:" ++ key) "processing" ttl

/-- `RedisQueue.Set` with a string value: the value is stored in its JSON encoding. -/
def RedisQueue.Set (r : RedisStore) (key value : String) (ttl : Nat) : Option GoError × RedisStore :=
  r.Set key (jsonMarshalString value) ttl

/-- `RedisQueue.Delete`. -/
def RedisQueue.Delete (r : RedisStore) (key : String) : Option GoError × RedisStore :=
  r.Del key

/-! ## `wallet_service.go` -/

/-- Modelled from the spec: `db.IsErrUniqueConstraint` of the generated client, which recognises
the store's unique-constraint error. -/
def IsErrUniqueConstraint : GoError → Bool
  | .UniqueConstraint _ => true
  | .Wrapf _ err => IsErrUniqueConstraint err
  | _ => false

/-- `walletService.FundWallet`: the returned error, the ledger store and the key/value store it
leaves behind. Times to live are in seconds (`5*time.Minute`, `24*time.Hour`). -/
def FundWallet (db : DB) (redis : RedisStore) (userID currency : String) (amount : Amount)
    (reference description : String) : Option GoError × DB × RedisStore :=
  match TryLockIdempotencyKey redis reference 300 with
  | ((locked, _), redis1) =>
    if !locked then (some .ErrTransactionAlreadyProcessed, db, redis1)
    else
      match GetAssetByCurrency db userID currency with
      | (_, some err) => (some err, db, (RedisQueue.Delete redis1 ("idemp:" ++ reference)).2)
      | (none, none) => (some .NilDereference, db, redis1)
      | (some asset, none) =>
        match CreditWallet db asset.WalletID currency amount reference description .Deposit with
        | (some err, db') =>
          if IsErrUniqueConstraint err then (some .ErrTransactionAlreadyProcessed, db', redis1)
          else (some err, db', (RedisQueue.Delete redis1 ("idemp:" ++ reference)).2)
        | (none, db') =>
          let redis2 := (RedisQueue.Set redis1 ("idemp:" ++ reference) "completed" 86400).2
          let redis3 := (RedisQueue.Delete redis2 ("wallet:" ++ userID)).2
          (none, db', redis3)

/-! ## Constraints and invariants of the store -/

/-- Every `WalletAsset` balance of the store is non-negative. -/
def NonNegativeBalances (db : DB) : Prop := ∀ a ∈ db.assets, 0 ≤ a.Balance

instance (db : DB) : Decidable (NonNegativeBalances db) :=
  inferInstanceAs (Decidable (∀ a ∈ db.assets, 0 ≤ a.Balance))

/-- Modelled from the spec: the primary key of the `WalletAsset` table (its schema is not part
of the sources): no two rows share an `ID`. -/
def UniqueAssetIDs (db : DB) : Prop := (db.assets.map (fun a => a.ID)).Nodup

instance (db : DB) : Decidable (UniqueAssetIDs db) :=
  inferInstanceAs (Decidable (List.Nodup (db.assets.map (fun a : WalletAssetModel => a.ID))))

/-- The unique key `WalletIDCurrency` of the `WalletAsset` table: no two rows share wallet and
currency. -/
def UniqueWalletIDCurrency (db : DB) : Prop :=
  (db.assets.map (fun a => (a.WalletID, a.Currency))).Nodup

instance (db : DB) : Decidable (UniqueWalletIDCurrency db) :=
  inferInstanceAs (Decidable (List.Nodup (db.assets.map
    (fun a : WalletAssetModel => (a.WalletID, a.Currency)))))

/-- Modelled from the spec: the primary key of the `Wallet` table (its schema is not part of the
sources): no two rows share an `ID`. -/
def UniqueWalletIDs (db : DB) : Prop := (db.wallets.map (fun w => w.ID)).Nodup

instance (db : DB) : Decidable (UniqueWalletIDs db) :=
  inferInstanceAs (Decidable (List.Nodup (db.wallets.map (fun w : WalletModel => w.ID))))

/-- Every `WalletAsset` row carries an identifier that the store's counter has issued. -/
def AssetIDsIssued (db : DB) : Prop := ∀ a ∈ db.assets, ∃ k < db.nextID, a.ID = genID k

instance (db : DB) : Decidable (AssetIDsIssued db) :=
  inferInstanceAs (Decidable (∀ a ∈ db.assets, ∃ k < db.nextID, a.ID = genID k))

/-- The constraints of the store that the theorems on single operations assume, together with
the discipline of the identifier counter that maintains the primary key. -/
def StoreConstraints (db : DB) : Prop :=
  NonNegativeBalances db ∧ UniqueAssetIDs db ∧ UniqueWalletIDCurrency db ∧ UniqueWalletIDs db ∧
    AssetIDsIssued db

instance (db : DB) : Decidable (StoreConstraints db) :=
  inferInstanceAs (Decidable (NonNegativeBalances db ∧ UniqueAssetIDs db ∧
    UniqueWalletIDCurrency db ∧ UniqueWalletIDs db ∧ AssetIDsIssued db))

/-- A statement keeps the property `P` of the store whenever it succeeds. -/
def TxOp.Keeps (P : DB → Prop) (op : TxOp) : Prop := ∀ db db', P db → op db = .ok db' → P db'

/-- Every statement that the repository issues keeps the property `P` of the store. -/
def StatementsKeep (P : DB → Prop) : Prop :=
  (∀ sel f, TxOp.Keeps P (WalletAsset.Update sel f)) ∧
    (∀ walletID currency amount, TxOp.Keeps P (WalletAsset.UpsertOne walletID currency amount)) ∧
    (∀ walletID amount currency txType reference status gatewayRef provider description,
      TxOp.Keeps P (Transaction.CreateOne walletID amount currency txType reference status
        gatewayRef provider description)) ∧
    (∀ id status, TxOp.Keeps P (Transaction.SetStatusByID id status))

/-- The sum of all `WalletAsset` balances of the store in one currency. -/
def totalBalance (db : DB) (currency : String) : Amount :=
  (db.assets.map (fun a => if a.Currency = currency then a.Balance else 0)).sum

/-- The asset row `a` replaced by `a'`, every other row kept. -/
def replaceAsset (a a' : WalletAssetModel) (assets : List WalletAssetModel) : List WalletAssetModel :=
  assets.map (fun x => if x = a then a' else x)

/-! ## Sequences of calls -/

/-- A call of one of the six money-movement operations of `WalletRepository`, with its
arguments. -/
inductive LedgerCall where
  | CreditWallet (walletID currency : String) (amount : Amount) (reference description : String)
      (txType : TransactionType)
  | CreditWalletByEmail (email currency : String) (amount : Amount)
      (reference description provider : String)
  | DebitForWithdrawal (userID currency : String) (amount : Amount)
      (reference transferCode description : String)
  | TransferFunds (fromUserID toAccountNumber currency : String) (amount : Amount)
      (reference descSender descReceiver : String)
  | SwapFunds (userID fromCurrency toCurrency : String) (sourceAmount amountOut : Amount)
      (reference description : String)
  | RefundWithdrawal (transferCode : String)

/-- Executes one call on the store. -/
def LedgerCall.exec (db : DB) : LedgerCall → Option GoError × DB
  | .CreditWallet walletID currency amount reference description txType =>
    MZL.CreditWallet db walletID currency amount reference description txType
  | .CreditWalletByEmail email currency amount reference description provider =>
    MZL.CreditWalletByEmail db email currency amount reference description provider
  | .DebitForWithdrawal userID currency amount reference transferCode description =>
    MZL.DebitForWithdrawal db userID currency amount reference transferCode description
  | .TransferFunds fromUserID toAccountNumber currency amount reference descSender descReceiver =>
    MZL.TransferFunds db fromUserID toAccountNumber currency amount reference descSender descReceiver
  | .SwapFunds userID fromCurrency toCurrency sourceAmount amountOut reference description =>
    MZL.SwapFunds db userID fromCurrency toCurrency sourceAmount amountOut reference description
  | .RefundWithdrawal transferCode => MZL.RefundWithdrawal db transferCode

/-- The store reached from `db` by executing the calls one after the other. -/
def execCalls (db : DB) : List LedgerCall → DB
  | [] => db
  | c :: cs => execCalls (c.exec db).2 cs

/-- A `DebitForWithdrawal` call against the asset of one user and currency. `staleBalance` is
`none` when the call reads the asset from the store on which its batch then runs; it is
`some b` when batches of concurrent calls were committed between the call's read and its own
batch, the read having returned the asset with balance `b`. -/
structure DebitCall where
  amount : Amount
  reference : String
  transferCode : String
  description : String
  staleBalance : Option Amount

/-- Executes one debit of a serial order of batches on the store. -/
def DebitCall.exec (db : DB) (userID currency : String) (c : DebitCall) : Option GoError × DB :=
  match c.staleBalance with
  | none => DebitForWithdrawal db userID currency c.amount c.reference c.transferCode c.description
  | some b =>
    let seen := GetAssetByCurrency db userID currency
    DebitForWithdrawal.afterRead (seen.1.map (fun a => { a with Balance := b }), seen.2) db currency
      c.amount c.reference c.transferCode c.description

/-- Executes the debits in the order of their batches: the returned errors and the final
store. -/
def execDebits (db : DB) (userID currency : String) : List DebitCall → List (Option GoError) × DB
  | [] => ([], db)
  | c :: cs =>
    let r := c.exec db userID currency
    let rest := execDebits r.2 userID currency cs
    (r.1 :: rest.1, rest.2)

/-- The amounts of the calls that returned success (`nil`). -/
def acceptedAmounts : List DebitCall → List (Option GoError) → List Amount
  | c :: cs, r :: rs => if r.isNone then c.amount :: acceptedAmounts cs rs else acceptedAmounts cs rs
  | _, _ => []

/-! ## Example stores -/

/-- The store of `TestWalletSafetyConstraint` before the wallet is seeded: one user with a
wallet that holds no asset. -/
def testStore : DB :=
  { users := [
      { ID := "u1", Email := "safety_test@mzl.com", Password := "hashed_pass", Name := "Safety Test",
        TransactionPin := none }]
    wallets := [{ ID := "w1", UserID := "u1", AccountNumber := "TEST-ACC-123" }]
    assets := []
    transactions := []
    nextID := 0 }

/-- Example store: users `u1` and `u2`, each with a wallet; `u1` holds 10 USD (the balance
seeded by `TestWalletSafetyConstraint`) and 0 NGN, `u2` holds 0 NGN. -/
def exampleStore : DB :=
  { users := [
      { ID := "u1", Email := "safety_test@mzl.com", Password := "hashed_pass", Name := "Safety Test",
        TransactionPin := none },
      { ID := "u2", Email := "other@mzl.com", Password := "hashed_pass", Name := "Other",
        TransactionPin := none }]
    wallets := [
      { ID := "w1", UserID := "u1", AccountNumber := "1000000001" },
      { ID := "w2", UserID := "u2", AccountNumber := "1000000002" }]
    assets := [
      { ID := "0", WalletID := "w1", Currency := "NGN", Balance := 0 },
      { ID := "1", WalletID := "w2", Currency := "NGN", Balance := 0 },
      { ID := "3", WalletID := "w1", Currency := "USD", Balance := 10 }]
    transactions := [
      { ID := "2", WalletID := "w1", Amount := 10, Currency := "USD", TxType := .Deposit,
        Status := .Success, Reference := "SEED_123", GatewayRef := none, Provider := none,
        Description := some "Initial Deposit" }]
    nextID := 4 }

/-- The USD asset of `u1` in the example store. -/
def exampleUSD : WalletAssetModel :=
  { ID := "3", WalletID := "w1", Currency := "USD", Balance := 10 }

/-- A key/value service that answers and holds no key. -/
def emptyRedis : RedisStore := { entries := [], available := true }

/-- The calls of the example run: a transfer and a withdrawal of more than the balance, a
credit of a negative amount, a regular credit, a withdrawal, a swap and the refund of the
withdrawal. -/
def exampleCalls : List LedgerCall :=
  [ .TransferFunds "u1" "1000000002" "USD" 50 "T1" "to B" "from A",
    .DebitForWithdrawal "u1" "USD" 50 "FAIL_REF_001" "CODE_RED" "Illegal Withdrawal Attempt",
    .CreditWallet "w1" "USD" (-20) "C1" "negative credit" .Deposit,
    .CreditWalletByEmail "other@mzl.com" "USD" 7 "C2" "Deposit via Paystack (USD)" "PAYSTACK",
    .DebitForWithdrawal "u1" "USD" 4 "W1" "TRF_1" "withdrawal",
    .SwapFunds "u1" "USD" "NGN" 3 4500 "S1" "Swap USD to NGN",
    .RefundWithdrawal "TRF_1" ]

/-- Example debits against the 10 USD of `u1`: 4 is accepted; 10, whose read raced and still
saw the balance 10, is rejected by the store; 6 is accepted; 0.01 is rejected by the
pre-check. -/
def exampleDebits : List DebitCall :=
  [ { amount := 4, reference := "W1", transferCode := "TRF_1", description := "rent",
      staleBalance := none },
    { amount := 10, reference := "W2", transferCode := "TRF_2", description := "car",
      staleBalance := some 10 },
    { amount := 6, reference := "W3", transferCode := "TRF_3", description := "food",
      staleBalance := none },
    { amount := 1 / 100, reference := "W4", transferCode := "TRF_4", description := "tip",
      staleBalance := none } ]

/-- The example store after `u1` swapped 3 USD for 4500 NGN under the reference `S1`. -/
def swappedStore : DB :=
  (SwapFunds exampleStore "u1" "USD" "NGN" 3 4500 "S1" "Swap USD to NGN @ 1500.000000").2

/-- The example store after a withdrawal of 4 USD of `u1` with gateway reference `TRF_1`. -/
def withdrawnStore : DB :=
  (DebitForWithdrawal exampleStore "u1" "USD" 4 "WDR-1" "TRF_1" "withdrawal").2

/-- The pending withdrawal row of `withdrawnStore`. -/
def exampleWithdrawal : TransactionModel :=
  { ID := "4", WalletID := "w1", Amount := 4, Currency := "USD", TxType := .Withdrawal,
    Status := .Pending, Reference := "WDR-1", GatewayRef := some "TRF_1",
    Provider := some "PAYSTACK", Description := some "withdrawal" }

/-- The example store after two withdrawals of `u1`: one of -5 USD with gateway reference
`TRF_NEG`, which raises the balance from 10 to 15, and one of 15 USD, which empties it. -/
def drainedStore : DB :=
  execCalls exampleStore
    [ .DebitForWithdrawal "u1" "USD" (-5) "WDR-1" "TRF_NEG" "negative withdrawal",
      .DebitForWithdrawal "u1" "USD" 15 "WDR-2" "TRF_2" "withdrawal" ]

/-! ## `redis.go`: counters and work queues -/

/-- What `json.Unmarshal` of the body into the event struct of `ProcessPaystackEvent` gives
(`none`: an error). -/
def WebhookBody.event? : WebhookBody → Option PaystackEvent
  | .Event e => some e
  | _ => none

/-- What `json.Unmarshal` of the body into the struct of `PaystackWebhookHandler` gives: the
value of `data.reference` afterwards, and whether the returned error is `nil`. -/
def WebhookBody.reference? : WebhookBody → String × Bool
  | .Invalid _ reference => (reference, false)
  | .ReferenceOnly _ reference => (reference, true)
  | .Event e => (e.Reference, true)

/-- The error of a push that the key/value service refuses. -/
def redisRefused : GoError := .Errorf "redis: command refused"

/-- The error that `encoding/json` returns for bytes it cannot decode. -/
def jsonError : GoError := .Errorf "json: cannot unmarshal"

/-- `client.Incr(key).Result()`: adds one to the counter at the key, an absent key counting as
zero, and returns the new value. -/
def RedisStore.Incr (r : RedisStore) (key : String) : (Int × Option GoError) × RedisStore :=
  if !r.available then ((0, some redisUnavailable), r)
  else
    match r.counters.find? (fun c => c.key == key) with
    | none =>
      ((1, none), { r with counters := r.counters ++ [{ key := key, count := 1, ttl := none }] })
    | some c =>
      let counters1 := r.counters.map
        (fun x => if x.key == key then { x with count := x.count + 1 } else x)
      ((c.count + 1, none), { r with counters := counters1 })

/-- `client.Expire(key, ttl)` on the key of a counter, the one kind of key on which the code
calls it: gives the counter the time to live. -/
def RedisStore.Expire (r : RedisStore) (key : String) (ttl : Nat) : Option GoError × RedisStore :=
  if !r.available then (some redisUnavailable, r)
  else
    let counters1 := r.counters.map (fun x => if x.key == key then { x with ttl := some ttl } else x)
    (none, { r with counters := counters1 })

/-- The elements of the list at the key, the head first (none for an absent key). -/
def RedisStore.list (r : RedisStore) (key : String) : List QueueItem :=
  match r.queues.find? (fun l => l.key == key) with
  | some l => l.items
  | none => []

/-- The store in which the list at the key has the given elements; a list without elements is
not kept. -/
def RedisStore.setList (r : RedisStore) (key : String) (items : List QueueItem) : RedisStore :=
  if items.isEmpty then { r with queues := r.queues.filter (fun l => !(l.key == key)) }
  else if r.queues.any (fun l => l.key == key) then
    let queues1 := r.queues.map (fun l => if l.key == key then { l with items := items } else l)
    { r with queues := queues1 }
  else { r with queues := r.queues ++ [{ key := key, items := items }] }

/-- `client.RPush(key, item).Err()`: appends the element to the list at the key. -/
def RedisStore.RPush (r : RedisStore) (key : String) (item : QueueItem) : Option GoError × RedisStore :=
  if !r.available then (some redisUnavailable, r)
  else if r.pushesRefused then (some redisRefused, r)
  else (none, r.setList key (r.list key ++ [item]))

/-- `client.BLPop(0, key).Result()`: takes the head of the list at the key. With an empty list
the command waits: the result is `ok none` and the store is unchanged. -/
def RedisStore.BLPop (r : RedisStore) (key : String) : Except GoError (Option QueueItem) × RedisStore :=
  if !r.available then (.error redisUnavailable, r)
  else
    match r.list key with
    | [] => (.ok none, r)
    | item :: rest => (.ok (some item), r.setList key rest)

/-- `RedisQueue.IsRateLimited`; the window is in seconds. -/
def IsRateLimited (r : RedisStore) (key : String) (limit : Int) (window : Nat) :
    (Bool × Option GoError) × RedisStore :=
  match r.Incr ("ratelimit:" ++ key) with
  | ((_, some err), r1) => ((false, some err), r1)
  | ((count, none), r1) =>
    let r2 := if count == 1 then (r1.Expire ("ratelimit:" ++ key) window).2 else r1
    if count > limit then ((true, none), r2) else ((false, none), r2)

/-- What a middleware does with a request: it calls the next handler, or it answers itself. -/
inductive MiddlewareResult where
  | Next
  | Respond (status : Nat) (message : String)
  deriving DecidableEq, Repr

/-- `AuthMiddleware.RateLimitHandler`; `userID` is the principal of the request context, `none`
when the context holds no string under `UserIDKey`. -/
def RateLimitHandler (r : RedisStore) (userID : Option String) (limit : Int) (window : Nat) :
    MiddlewareResult × RedisStore :=
  match userID with
  | none => (.Next, r)
  | some userID =>
    match IsRateLimited r userID limit window with
    | ((_, some _), r1) => (.Next, r1)
    | ((limited, none), r1) =>
      if limited then (.Respond 429 "rate limit exceeded. please try again later", r1)
      else (.Next, r1)

/-- The constant `maxRetries`. -/
def maxRetries : Int := 3

/-- `RedisQueue.Enqueue`: pushes the job with the payload and no retries to the queue. -/
def Enqueue (r : RedisStore) (queueName : String) (payload : WebhookBody) : Option GoError × RedisStore :=
  r.RPush queueName (.Job { Payload := payload, Retries := 0 })

/-- `RedisQueue.handleFailure`: the errors of the pushes are dropped. -/
def handleFailure (r : RedisStore) (queueName : String) (j : job) : RedisStore :=
  let j1 : job := { j with Retries := j.Retries + 1 }
  if j1.Retries < maxRetries then (r.RPush queueName (.Job j1)).2
  else (r.RPush (queueName ++ ":dead_letter") (.Job j1)).2

/-- The method `ProcessPaystackEvent` of the interface `service.PaymentService`, by which the
worker processes a payload. -/
abbrev Processor := WebhookBody → DB → RedisStore → Option GoError × DB × RedisStore

/-- One pass through the loop of `RedisQueue.StartWorker`: the result of the processing if a
job was processed in the pass, and the stores after the pass. -/
def StartWorker.iteration (process : Processor) (queueName : String) (db : DB) (redis : RedisStore) :
    Option (Option GoError) × DB × RedisStore :=
  match redis.BLPop queueName with
  | (.error _, r1) => (none, db, r1)
  | (.ok none, r1) => (none, db, r1)
  | (.ok (some (.Corrupt _)), r1) => (none, db, r1)
  | (.ok (some (.Job j)), r1) =>
    match process j.Payload db r1 with
    | (some err, db1, r2) => (some (some err), db1, handleFailure r2 queueName j)
    | (none, db1, r2) => (some none, db1, r2)

/-- `RedisQueue.StartWorker` for a number of passes through its loop: the results of the
processings in order, and the stores at the end. -/
def StartWorker (process : Processor) (queueName : String) :
    Nat → DB → RedisStore → List (Option GoError) × DB × RedisStore
  | 0, db, redis => ([], db, redis)
  | n + 1, db, redis =>
    match StartWorker.iteration process queueName db redis with
    | (o, db1, r1) =>
      match StartWorker process queueName n db1 r1 with
      | (os, db2, r2) => (o.toList ++ os, db2, r2)

/-! ## `payment_service.go`: provider events -/

/-- `userRepo.FindUserByEmail`: `User.FindUnique(Email.Equals(email))`. -/
def FindUserByEmail (db : DB) (email : String) : Option UserModel × Option GoError :=
  match db.users.find? (fun u => u.Email == email) with
  | some u => (some u, none)
  | none => (none, some .ErrNotFound)

/-- `walletRepository.GetUserByID`: `User.FindUnique(ID.Equals(userID))`. -/
def GetUserByID (db : DB) (userID : String) : Option UserModel × Option GoError :=
  match db.users.find? (fun u => u.ID == userID) with
  | some u => (some u, none)
  | none => (none, some .ErrNotFound)

/-- `paymentService.ProcessPaystackEvent`: the returned error, the ledger store and the
key/value store it leaves behind. -/
def ProcessPaystackEvent (payload : WebhookBody) (db : DB) (redis : RedisStore) :
    Option GoError × DB × RedisStore :=
  match payload.event? with
  | none => (some (.Wrapf "failed to parse webhook body: " jsonError), db, redis)
  | some event =>
    if event.Event == "charge.success" && event.Status == "success" then
      let redis2 :=
        match FindUserByEmail db event.Email with
        | (some user, none) =>
          let redis1 := (RedisQueue.Delete redis ("wallet:" ++ user.ID)).2
          (RedisQueue.Delete redis1 ("tx_history:" ++ user.ID)).2
        | _ => redis
      let actualAmount := event.Amount / 100
      let description := "Deposit via Paystack (" ++ event.Currency ++ ")"
      match CreditWalletByEmail db event.Email event.Currency actualAmount event.Reference
        description "PAYSTACK" with
      | (err, db1) => (err, db1, redis2)
    else if event.Event == "transfer.success" then
      match UpdateTransactionStatus db event.TransferCode .Success with
      | (err, db1) => (err, db1, redis)
    else if event.Event == "transfer.failed" || event.Event == "transfer.reversed" then
      match RefundWithdrawal db event.TransferCode with
      | (err, db1) => (err, db1, redis)
    else (none, db, redis)

/-- The stores after `ProcessPaystackEvent` has processed the payloads one after the other,
whatever each call returned. -/
def processEvents : List WebhookBody → DB → RedisStore → DB × RedisStore
  | [], db, redis => (db, redis)
  | payload :: rest, db, redis =>
    processEvents rest (ProcessPaystackEvent payload db redis).2.1
      (ProcessPaystackEvent payload db redis).2.2

/-! ## `paystack_handler.go` -/

/-- `Server.PaystackWebhookHandler`: the status of the response and the key/value store it
leaves behind. `body` is `none` when the body cannot be read; `signatureValid` is the result of
`VerifyPaystackSignature(body, signature)`. The time to live of the lock is `24*time.Hour`. -/
def PaystackWebhookHandler (redis : RedisStore) (body : Option WebhookBody) (signature : String)
    (signatureValid : Bool) : Nat × RedisStore :=
  match body with
  | none => (400, redis)
  | some body =>
    if signature == "" then (401, redis)
    else if !signatureValid then (401, redis)
    else
      let reference := body.reference?.1
      let proceed : Bool × RedisStore :=
        if body.reference?.2 && reference != "" then
          match TryLockIdempotencyKey redis reference 86400 with
          | ((locked, _), redis1) => (locked, redis1)
        else (true, redis)
      if !proceed.1 then (200, proceed.2)
      else
        match Enqueue proceed.2 "payment_webhooks" body with
        | (some _, redis2) =>
          if reference != "" then (500, (RedisQueue.Delete redis2 ("idemp:" ++ reference)).2)
          else (500, redis2)
        | (none, redis2) => (200, redis2)

/-! ## `wallet_service.go`: swaps and transfers -/

/-- What the exchange-rate service answers to the request for the rates of a currency. -/
inductive RateResponse where
  | Unreachable
  | Unparsable
  | Rates (rates : List (String × Amount))
  deriving DecidableEq, Repr

/-- Go's `%f` verb: the number with six decimals, the last one rounded to the nearest and a tie
to the even digit. -/
def fmtF (x : Amount) : String :=
  let shifted : Amount := (if x < 0 then -x else x) * 1000000
  let lower : Nat := (Rat.floor shifted).toNat
  let scaled : Nat :=
    if shifted - lower < 1 / 2 then lower
    else if 1 / 2 < shifted - lower then lower + 1
    else if lower % 2 == 0 then lower
    else lower + 1
  let digits := toString (scaled % 1000000)
  (if x < 0 then "-" else "") ++ toString (scaled / 1000000) ++ "." ++
    String.mk (List.replicate (6 - digits.length) '0') ++ digits

/-- `walletService.fetchExchangeRate`; `api` is the exchange-rate service. -/
def fetchExchangeRate (api : String → RateResponse) (fromCurrency toCurrency : String) :
    Amount × Option GoError :=
  if fromCurrency == toCurrency then (1, none)
  else
    match api fromCurrency with
    | .Unreachable => (0, some (.Errorf "failed to fetch exchange rates"))
    | .Unparsable => (0, some (.Errorf "failed to parse exchange rates"))
    | .Rates rates =>
      match rates.lookup toCurrency with
      | some rate => (rate, none)
      | none => (0, some (.Errorf "currency pair not supported"))

/-- The map that `walletService.SwapFunds` returns. -/
structure SwapResult where
  source_currency : String
  source_amount : Amount
  dest_currency : String
  dest_amount : Amount
  rate : Amount
  deriving DecidableEq, Repr

/-- `walletService.SwapFunds`: the returned map and error, the ledger store and the key/value
store it leaves behind. -/
def walletService.SwapFunds (api : String → RateResponse) (db : DB) (redis : RedisStore)
    (userID fromCurrency toCurrency : String) (amountIn : Amount) (reference : String) :
    (Option SwapResult × Option GoError) × DB × RedisStore :=
  match TryLockIdempotencyKey redis reference 300 with
  | ((locked, _), redis1) =>
    if !locked then ((none, some .ErrTransactionAlreadyProcessed), db, redis1)
    else
      match fetchExchangeRate api fromCurrency toCurrency with
      | (_, some err) =>
        ((none, some err), db, (RedisQueue.Delete redis1 ("idemp:" ++ reference)).2)
      | (rate, none) =>
        let amountOut := amountIn * rate
        let description := "Swap " ++ fromCurrency ++ " to " ++ toCurrency ++ " @ " ++ fmtF rate
        match MZL.SwapFunds db userID fromCurrency toCurrency amountIn amountOut reference
          description with
        | (some err, db1) =>
          if IsErrUniqueConstraint err then
            ((none, some .ErrTransactionAlreadyProcessed), db1, redis1)
          else ((none, some err), db1, (RedisQueue.Delete redis1 ("idemp:" ++ reference)).2)
        | (none, db1) =>
          let redis2 := (RedisQueue.Set redis1 ("idemp:" ++ reference) "completed" 86400).2
          let redis3 := (RedisQueue.Delete redis2 ("wallet:" ++ userID)).2
          let redis4 := (RedisQueue.Delete redis3 ("tx_history:" ++ userID)).2
          let result : SwapResult := ⟨fromCurrency, amountIn, toCurrency, amountOut, rate⟩
          ((some result, none), db1, redis4)

/-- `walletService.TransferFunds`: the returned name of the receiver and error, the ledger
store and the key/value store it leaves behind. -/
def walletService.TransferFunds (db : DB) (redis : RedisStore)
    (userID toAccount currency : String) (amount : Amount) (userDesc reference : String) :
    (String × Option GoError) × DB × RedisStore :=
  match TryLockIdempotencyKey redis reference 300 with
  | ((locked, _), redis1) =>
    if !locked then (("", some .ErrTransactionAlreadyProcessed), db, redis1)
    else
      let unlocked := (RedisQueue.Delete redis1 ("idemp:" ++ reference)).2
      match GetUserByID db userID with
      | (_, some err) => (("", some (.Wrapf "failed to fetch sender details: " err)), db, unlocked)
      | (sender, none) =>
        let senderName := match sender with
          | some u => u.Name
          | none => "Unknown User"
        match GetWalletByAccountNumber db toAccount with
        | (_, some err) => (("", some err), db, unlocked)
        | (none, none) => (("", some (.Errorf "recipient account number not found")), db, unlocked)
        | (some receiverWallet, none) =>
          if receiverWallet.UserID == userID then
            (("", some (.Errorf "cannot transfer money to yourself")), db, unlocked)
          else
            let receiverName := match db.users.find? (fun u => u.ID == receiverWallet.UserID) with
              | some u => u.Name
              | none => "Unknown"
            let descSender := "Transfer to " ++ receiverName ++
              (if userDesc != "" then " / " ++ userDesc else "")
            let descReceiver := "Received from " ++ senderName ++
              (if userDesc != "" then " /DESCRIPTION: " ++ userDesc else "")
            match MZL.TransferFunds db userID toAccount currency amount reference descSender
              descReceiver with
            | (some err, db1) =>
              if IsErrUniqueConstraint err then
                (("", some .ErrTransactionAlreadyProcessed), db1, redis1)
              else (("", some err), db1, (RedisQueue.Delete redis1 ("idemp:" ++ reference)).2)
            | (none, db1) =>
              let redis2 := (RedisQueue.Set redis1 ("idemp:" ++ reference) "completed" 86400).2
              let redis3 := (RedisQueue.Delete redis2 ("wallet:" ++ userID)).2
              let redis4 := (RedisQueue.Delete redis3 ("wallet:" ++ receiverWallet.UserID)).2
              let redis5 := (RedisQueue.Delete redis4 ("tx_history:" ++ userID)).2
              ((receiverName, none), db1, redis5)

/-- A call of one of the three services that take an idempotency lock, without its
reference. -/
inductive ServiceCall where
  | FundWallet (userID currency : String) (amount : Amount) (description : String)
  | SwapFunds (userID fromCurrency toCurrency : String) (amountIn : Amount)
  | TransferFunds (userID toAccount currency : String) (amount : Amount) (userDesc : String)
  deriving DecidableEq, Repr

/-- The error that the call returns with the reference, and the stores it leaves behind. -/
def ServiceCall.exec (api : String → RateResponse) (reference : String) (db : DB)
    (redis : RedisStore) : ServiceCall → Option GoError × DB × RedisStore
  | .FundWallet userID currency amount description =>
    MZL.FundWallet db redis userID currency amount reference description
  | .SwapFunds userID fromCurrency toCurrency amountIn =>
    match walletService.SwapFunds api db redis userID fromCurrency toCurrency amountIn reference with
    | ((_, err), db1, redis1) => (err, db1, redis1)
  | .TransferFunds userID toAccount currency amount userDesc =>
    match walletService.TransferFunds db redis userID toAccount currency amount userDesc reference with
    | ((_, err), db1, redis1) => (err, db1, redis1)

/-! ## Example key/value stores, events and queues -/

/-- The exchange-rate service of the examples: one dollar is 1500 naira. -/
def exampleRates : String → RateResponse
  | "USD" => .Rates [("NGN", 1500), ("USD", 1)]
  | _ => .Unreachable

/-- The provider reports that the transfer `TRF_1` failed. -/
def transferFailed : WebhookBody :=
  .Event ⟨"transfer.failed", "WD_1", "TRF_1", 400, "USD", "failed", "safety_test@mzl.com"⟩

/-- The provider reports that the transfer `TRF_1` succeeded. -/
def transferSuccess : WebhookBody :=
  .Event ⟨"transfer.success", "WD_1", "TRF_1", 400, "USD", "success", "safety_test@mzl.com"⟩

/-- The provider reports a charge of 2500 cents for the first user. -/
def chargeSuccess : WebhookBody :=
  .Event ⟨"charge.success", "PAY_1", "", 2500, "USD", "success", "safety_test@mzl.com"⟩

/-- A body that is not an event. -/
def garbageBody : WebhookBody := .Invalid "not json" ""

/-- A key/value store whose webhook queue holds one job, with the given payload. -/
def queueOf (payload : WebhookBody) : RedisStore :=
  { entries := []
    available := true
    queues := [{ key := "payment_webhooks", items := [.Job { Payload := payload, Retries := 0 }] }] }

/-! ## Properties of the transaction log -/

/-- What a row of the log may become: every field but the status is kept, and a status that is
not pending does not become pending. -/
def StatusStep (t t1 : TransactionModel) : Prop :=
  t1 = { t with Status := t1.Status } ∧ (t1.Status = .Pending → t.Status = .Pending)

instance (t t1 : TransactionModel) : Decidable (StatusStep t t1) := by
  unfold StatusStep
  exact inferInstance

/-- The log `new` continues the log `old`: it starts with the rows of `old`, in their order,
each of them changed by a `StatusStep` at most. -/
def LogContinues (old new : List TransactionModel) : Prop :=
  List.Forall₂ StatusStep old (new.take old.length)

instance (old new : List TransactionModel) : Decidable (LogContinues old new) := by
  unfold LogContinues
  exact inferInstance

/-! ## Properties of the idempotency locks -/

/-- Whether the key/value store holds the key. -/
def RedisStore.holds (r : RedisStore) (key : String) : Bool :=
  r.entries.any (fun e => e.key == key)

/-- The marker that a successful call leaves under the key of its reference, for 24 hours. -/
def completedMarker (reference : String) : RedisEntry :=
  { key := "idemp:" ++ reference, value := jsonMarshalString "completed", ttl := 86400 }

/-- The three ways in which a call that takes the lock of a reference ends: it reports the
reference as already processed; or it succeeds and the key/value store, which answers, holds
the marker of the reference; or it fails with the lock released, the key/value store being as
it was before the call, when it answered and did not hold the key. -/
def LockOutcome (reference : String) (redis : RedisStore)
    (res : Option GoError × DB × RedisStore) : Prop :=
  res.1 = some .ErrTransactionAlreadyProcessed ∨
    (res.1 = none ∧ res.2.2.available = true ∧ completedMarker reference ∈ res.2.2.entries) ∨
    (res.1 ≠ none ∧ res.2.2 = redis ∧ redis.available = true ∧
      redis.holds ("idemp:" ++ reference) = false)

instance (reference : String) (redis : RedisStore) (res : Option GoError × DB × RedisStore) :
    Decidable (LockOutcome reference redis res) := by
  unfold LockOutcome
  exact inferInstance

/-! ## Sequences of rate-limited requests -/

/-- What `RateLimitHandler` does with a request whose increment returned the count. -/
def rateLimitVerdict (limit count : Int) : MiddlewareResult :=
  if count > limit then .Respond 429 "rate limit exceeded. please try again later" else .Next

/-- Requests of one principal, one after the other, through `RateLimitHandler`: what the
middleware does with each of them, and the key/value store at the end. -/
def rateLimitedRequests (userID : String) (limit : Int) (window : Nat) :
    Nat → RedisStore → List MiddlewareResult × RedisStore
  | 0, r => ([], r)
  | n + 1, r =>
    match RateLimitHandler r (some userID) limit window with
    | (res, r1) =>
      match rateLimitedRequests userID limit window n r1 with
      | (rest, r2) => (res :: rest, r2)

/-- The store in which the counter of the principal, absent from `r`, stands at `count` and
expires after the window. -/
def withCounter (r : RedisStore) (userID : String) (count : Int) (window : Nat) : RedisStore :=
  { r with counters := r.counters ++ [{ key := "ratelimit:" ++ userID, count := count, ttl := some window }] }

/-! ## Properties of the work queue -/

/-- The name of the dead-letter queue of a queue. -/
def deadLetter (queueName : String) : String := queueName ++ ":dead_letter"

/-- The key/value store answers, accepts pushes, and its queue and the dead-letter queue of
that queue hold the given elements. -/
def QueueState (r : RedisStore) (queueName : String) (items dead : List QueueItem) : Prop :=
  r.available = true ∧ r.pushesRefused = false ∧ r.list queueName = items ∧
    r.list (deadLetter queueName) = dead

instance (r : RedisStore) (queueName : String) (items dead : List QueueItem) :
    Decidable (QueueState r queueName items dead) := by
  unfold QueueState
  exact inferInstance

/-- The processing leaves the queues of the key/value store alone, and does not change whether
the store answers and accepts pushes. -/
def KeepsQueues (process : Processor) : Prop :=
  ∀ payload db r, (process payload db r).2.2.queues = r.queues ∧
    (process payload db r).2.2.available = r.available ∧
    (process payload db r).2.2.pushesRefused = r.pushesRefused

/-- A processing that fails until the counter of the ledger store has reached 6, and that
advances the counter when it fails. -/
def flakyProcessor : Processor := fun _ db r =>
  if db.nextID < 6 then (some (.Errorf "temporary failure"), { db with nextID := db.nextID + 1 }, r)
  else (none, db, r)

/-! ## Properties of the webhook handler -/

/-- Modelled from the spec: the unique constraint of the store's schema on
`Transaction.reference`, as a property of the log. -/
def UniqueReferences (db : DB) : Prop :=
  (db.transactions.map (fun t => t.Reference)).Nodup

instance (db : DB) : Decidable (UniqueReferences db) :=
  inferInstanceAs (Decidable (List.Nodup (db.transactions.map (fun t : TransactionModel => t.Reference))))

/-- A key/value store that answers, holds no key and refuses pushes. -/
def refusingRedis : RedisStore := { entries := [], available := true, pushesRefused := true }

/-- The lock that `PaystackWebhookHandler` takes for a reference, for 24 hours. -/
def webhookLock (reference : String) : RedisEntry :=
  { key := "idemp:" ++ reference, value := "processing", ttl := 86400 }

/-! ## `random.go` and `user_repository.go`: registration -/

/-- The value of a `big.Int` as an `int64` (`Int64()`), and of an `int64` as an `int` on a
64-bit platform. -/
def wrapInt64 (x : Int) : Int := (x + 2 ^ 63) % 2 ^ 64 - 2 ^ 63

/-- `utils.GenerateAccountNumber`; `randInt r` is what `rand.Int(rand.Reader, r)` returns: a
number from 0 to `r - 1`, or an error. -/
def GenerateAccountNumber (randInt : Int → Except GoError Int) : Int × Option GoError :=
  let min : Int := 1000000000
  let max : Int := 9999999999
  let r := max - min + 1
  match randInt r with
  | .error err => (0, some (.Wrapf "failed to generate secure random number: " err))
  | .ok n => (wrapInt64 (n + min), none)

/-- Go's `strconv.Itoa`. -/
def strconvItoa (n : Int) : String := toString n

/-- The account number that `CreateUserWithWallet` makes of the generated number:
`strconv.Itoa(int(accountNumber))`. -/
def accountNumberString (accountNumber : Int) : String := strconvItoa (wrapInt64 accountNumber)

/-- Modelled from the spec: the statement `User.CreateOne(Email.Set, Password.Set, Name.Set)`
under the constraint of the store's schema (not part of the sources) that the email of a user
is unique; the created row and the store with it. -/
def User.CreateOne (email password name : String) (db : DB) : Except GoError (UserModel × DB) :=
  if db.users.any (fun u => u.Email == email) then .error (.UniqueConstraint "email")
  else
    let user : UserModel :=
      { ID := genID db.nextID, Email := email, Password := password, Name := name,
        TransactionPin := none }
    .ok (user, { db with users := db.users ++ [user], nextID := db.nextID + 1 })

/-- Modelled from the spec: the statement `Wallet.CreateOne(AccountNumber.Set, User.Link)` under
the constraints of the store's schema (not part of the sources): the linked user exists, a user
owns one wallet, account numbers are unique. -/
def Wallet.CreateOne (accountNumber userID : String) (db : DB) : Except GoError (WalletModel × DB) :=
  if !db.users.any (fun u => u.ID == userID) then .error .RecordNotFound
  else if db.wallets.any (fun w => w.UserID == userID) then .error (.UniqueConstraint "userId")
  else if db.wallets.any (fun w => w.AccountNumber == accountNumber) then
    .error (.UniqueConstraint "accountNumber")
  else
    let wallet : WalletModel :=
      { ID := genID db.nextID, UserID := userID, AccountNumber := accountNumber }
    .ok (wallet, { db with wallets := db.wallets ++ [wallet], nextID := db.nextID + 1 })

/-- Modelled from the spec: the statement `WalletAsset.CreateOne(Wallet.Link, Currency.Set)`
under the constraints of the store's schema (not part of the sources): the linked wallet
exists, a wallet holds one asset per currency, a balance that is not set starts at zero. -/
def WalletAsset.CreateOne (walletID currency : String) (db : DB) :
    Except GoError (WalletAssetModel × DB) :=
  if !db.wallets.any (fun w => w.ID == walletID) then .error .RecordNotFound
  else if db.assets.any (fun a => a.WalletID == walletID && a.Currency == currency) then
    .error (.UniqueConstraint "walletId,currency")
  else
    let asset : WalletAssetModel :=
      { ID := genID db.nextID, WalletID := walletID, Currency := currency, Balance := 0 }
    .ok (asset, { db with assets := db.assets ++ [asset], nextID := db.nextID + 1 })

/-- `userRepo.CreateUserWithWallet`: the returned user and error, and the store it leaves
behind. Each of the three rows is created by a statement of its own. -/
def CreateUserWithWallet (randInt : Int → Except GoError Int) (db : DB)
    (email password name : String) : (Option UserModel × Option GoError) × DB :=
  match User.CreateOne email password name db with
  | .error err => ((none, some (.Wrapf "failed to create user: " err)), db)
  | .ok (user, db1) =>
    match GenerateAccountNumber randInt with
    | (_, some _) => ((none, some (.Errorf "failed to create account number")), db1)
    | (accountNumber, none) =>
      match Wallet.CreateOne (accountNumberString accountNumber) user.ID db1 with
      | .error err => ((none, some (.Wrapf "failed to create wallet: " err)), db1)
      | .ok (wallet, db2) =>
        match WalletAsset.CreateOne wallet.ID "NGN" db2 with
        | .error err => ((none, some (.Wrapf "failed to create default asset: " err)), db2)
        | .ok (_, db3) => ((some user, none), db3)

/-- Go's `errors.Is(err, target)` for the sentinel errors of the services. -/
def errorsIs (err target : GoError) : Bool :=
  if err == target then true
  else
    match err with
    | .Wrapf _ inner => errorsIs inner target
    | _ => false

/-! ## `payment_service.go`: the payment gateway -/

/-- The body of a request to the transfer endpoint of the gateway; the amount is in subunits. -/
structure TransferOrder where
  amount : Amount
  recipient : String
  reference : String
  reason : String
  deriving DecidableEq, Repr

/-- The field `Data` of `PaystackTransferResponse`. -/
structure TransferData where
  TransferCode : String
  Reference : String
  Status : String
  deriving DecidableEq, Repr

/-- The field `Data` of `VerifyResponse`, with the email of the customer. -/
structure VerifyData where
  Status : String
  Reference : String
  Amount : Amount
  Currency : String
  Email : String
  deriving DecidableEq, Repr

/-- What comes back from a request to the gateway: no answer that can be decoded, an answer
whose field `status` is false, or the data of an answer whose field `status` is true. -/
inductive GatewayReply (α : Type) where
  | Failed (err : GoError)
  | Refused (message : String)
  | Accepted (data : α)

/-- The payment gateway, an external service: what it answers to the requests of the code.
`recipient` takes the type of the recipient, the name, the account number, the bank code and
the currency. -/
structure PaystackAPI where
  recipient : String → String → String → String → String → GatewayReply String
  transfer : TransferOrder → GatewayReply TransferData
  verify : String → Except GoError VerifyData

/-- `paymentService.CreateTransferRecipient`. -/
def CreateTransferRecipient (api : PaystackAPI) (name accountNum bankCode currency : String) :
    Except GoError String :=
  let recipientType :=
    if currency == "NGN" then "nuban"
    else if currency == "GHS" then "mobile_money"
    else if currency == "ZAR" then "basa"
    else "nuban"
  match api.recipient recipientType name accountNum bankCode currency with
  | .Failed err => .error err
  | .Refused message => .error (.Errorf ("paystack recipient error: " ++ message))
  | .Accepted recipientCode => .ok recipientCode

/-- `paymentService.InitiateTransfer`: the response or the error, and the orders that have been
sent to the gateway, to which every call adds its own. -/
def InitiateTransfer (api : PaystackAPI) (sent : List TransferOrder) (amount : Amount)
    (recipientCode reference reason : String) :
    Except GoError TransferData × List TransferOrder :=
  let order : TransferOrder :=
    { amount := amount * 100, recipient := recipientCode, reference := reference, reason := reason }
  match api.transfer order with
  | .Failed err => (.error err, sent ++ [order])
  | .Refused message => (.error (.Errorf ("transfer error: " ++ message)), sent ++ [order])
  | .Accepted data => (.ok data, sent ++ [order])

/-- The struct `service.WithdrawalRequest`. -/
structure WithdrawalRequest where
  Amount : Amount
  AccountNumber : String
  AccountName : String
  BankCode : String
  Currency : String
  Pin : String
  Reason : String
  deriving DecidableEq, Repr

/-- `walletService.WithdrawFunds`: the returned error, the stores and the orders sent to the
gateway afterwards; `now` is `time.Now().UnixNano()`. -/
def walletService.WithdrawFunds (api : PaystackAPI) (now : Int) (db : DB) (redis : RedisStore)
    (sent : List TransferOrder) (userID : String) (req : WithdrawalRequest) :
    Option GoError × DB × RedisStore × List TransferOrder :=
  let reference := "WDR-" ++ toString now
  match CreateTransferRecipient api req.AccountName req.AccountNumber req.BankCode req.Currency with
  | .error err => (some (.Wrapf "failed to create paystack recipient: " err), db, redis, sent)
  | .ok recipientCode =>
    match InitiateTransfer api sent req.Amount recipientCode reference req.Reason with
    | (.error err, sent1) =>
      (some (.Wrapf "failed to initiate paystack transfer: " err), db, redis, sent1)
    | (.ok transferResp, sent1) =>
      match DebitForWithdrawal db userID req.Currency req.Amount reference
        transferResp.TransferCode req.Reason with
      | (some err, db1) =>
        (some (.Wrapf "withdrawal successful but db update failed: " err), db1, redis, sent1)
      | (none, db1) =>
        let redis1 := (RedisQueue.Delete redis ("wallet:" ++ userID)).2
        let redis2 := (RedisQueue.Delete redis1 ("tx_history:" ++ userID)).2
        (none, db1, redis2, sent1)

/-- `walletRepository.GetTransactionByReference`:
`Transaction.FindUnique(Reference.Equals(reference))`. -/
def GetTransactionByReference (db : DB) (reference : String) :
    Option TransactionModel × Option GoError :=
  match db.transactions.find? (fun t => t.Reference == reference) with
  | some t => (some t, none)
  | none => (none, some .ErrNotFound)

/-- `paymentService.VerifyAndCredit`. -/
def VerifyAndCredit (api : PaystackAPI) (db : DB) (redis : RedisStore) (reference : String) :
    (Option TransactionModel × Option GoError) × DB × RedisStore :=
  match api.verify reference with
  | .error err => ((none, some (.Wrapf "paystack verification failed: " err)), db, redis)
  | .ok paystackData =>
    if paystackData.Status != "success" then
      ((none, some (.Errorf "payment failed or abandoned")), db, redis)
    else
      let actualAmount := paystackData.Amount / 100
      let description := "Deposit via Paystack (" ++ paystackData.Currency ++ ")"
      match CreditWalletByEmail db paystackData.Email paystackData.Currency actualAmount reference
        description "PAYSTACK" with
      | (some err, db1) => ((none, some err), db1, redis)
      | (none, db1) =>
        let redis1 :=
          match FindUserByEmail db1 paystackData.Email with
          | (some user, none) => (RedisQueue.Delete redis ("wallet:" ++ user.ID)).2
          | _ => redis
        (GetTransactionByReference db1 reference, db1, redis1)

/-! ## `auth_service.go`, `transfer_handler.go`, `payment_handler.go` -/

/-- `authService.VerifyTransactionPin`; `bcryptMatches hash plain` says whether
`bcrypt.CompareHashAndPassword(hash, plain)` returns `nil`. -/
def VerifyTransactionPin (bcryptMatches : String → String → Bool) (db : DB)
    (userID plainPin : String) : Option GoError :=
  match db.users.find? (fun u => u.ID == userID) with
  | none => some .ErrNotFound
  | some user =>
    let hashedPin := user.TransactionPin.getD ""
    if hashedPin == "" then some (.Errorf "transaction pin not set")
    else if !bcryptMatches hashedPin plainPin then some (.Errorf "invalid transaction pin")
    else none

/-- The response of a handler: the status, the text of the field `error` (for
`utils.ErrorJSON`) or `message`, and the transfer data that a withdrawal returns. -/
structure HTTPResponse where
  status : Nat
  message : String
  transfer : Option TransferData := none
  deriving DecidableEq, Repr

/-- The struct `TransferRequest`. -/
structure TransferRequest where
  AccountNumber : String
  Currency : String
  Amount : Amount
  Pin : String
  Description : String
  deriving DecidableEq, Repr

/-- `Server.TransferFundsHandlerV1`: the response and the stores afterwards. `idempotencyKey` is
the header `Idempotency-Key`, `body` the decoded request (`none` when it does not decode),
`userID` the principal of the request context. -/
def TransferFundsHandlerV1 (bcryptMatches : String → String → Bool) (db : DB)
    (redis : RedisStore) (idempotencyKey : String) (body : Option TransferRequest)
    (userID : Option String) : HTTPResponse × DB × RedisStore :=
  if idempotencyKey == "" then ({ status := 400, message := "missing Idempotency-Key header" }, db, redis)
  else
    match body with
    | none => ({ status := 400, message := "invalid request body" }, db, redis)
    | some req =>
      if req.Amount ≤ 0 then
        ({ status := 400, message := "amount must be greater than zero" }, db, redis)
      else if req.AccountNumber == "" || req.Currency == "" then
        ({ status := 400, message := "account number and currency are required" }, db, redis)
      else
        match userID with
        | none => ({ status := 401, message := "unauthorized" }, db, redis)
        | some userID =>
          if req.Pin == "" then
            ({ status := 400, message := "transaction pin is required" }, db, redis)
          else
            match VerifyTransactionPin bcryptMatches db userID req.Pin with
            | some _ => ({ status := 401, message := "incorrect transaction pin" }, db, redis)
            | none =>
              match walletService.TransferFunds db redis userID req.AccountNumber req.Currency
                req.Amount req.Description idempotencyKey with
              | ((_, some err), db1, redis1) =>
                if errorsIs err .ErrTransactionAlreadyProcessed then
                  ({ status := 200, message := "transfer already processed" }, db1, redis1)
                else if err.Error == "insufficient balance" ||
                    err.Error == "recipient account number not found" then
                  ({ status := 400, message := err.Error }, db1, redis1)
                else ({ status := 500, message := "transfer processing failed" }, db1, redis1)
              | ((_, none), db1, redis1) =>
                ({ status := 200, message := "transfer successful" }, db1, redis1)

/-- `Server.WithdrawalHandler`: the response, the stores and the orders sent to the gateway
afterwards. `now1` is the time at which the handler makes its reference, `now2` the time at
which `WithdrawFunds` makes its own. -/
def WithdrawalHandler (api : PaystackAPI) (bcryptMatches : String → String → Bool)
    (now1 now2 : Int) (db : DB) (redis : RedisStore) (sent : List TransferOrder)
    (body : Option WithdrawalRequest) (userID : String) :
    HTTPResponse × DB × RedisStore × List TransferOrder :=
  match body with
  | none => ({ status := 400, message := "invalid request" }, db, redis, sent)
  | some req =>
    match VerifyTransactionPin bcryptMatches db userID req.Pin with
    | some _ => ({ status := 401, message := "incorrect transaction pin" }, db, redis, sent)
    | none =>
      match CreateTransferRecipient api req.AccountName req.AccountNumber req.BankCode
        req.Currency with
      | .error err =>
        ({ status := 502, message := (GoError.Wrapf "recipient creation failed: " err).Error },
          db, redis, sent)
      | .ok recipientCode =>
        let reference := "WDR-" ++ toString now1
        match InitiateTransfer api sent req.Amount recipientCode reference req.Reason with
        | (.error err, sent1) =>
          ({ status := 502, message := (GoError.Wrapf "transfer failed: " err).Error },
            db, redis, sent1)
        | (.ok paystackResp, sent1) =>
          match walletService.WithdrawFunds api now2 db redis sent1 userID req with
          | (some _, db1, redis1, sent2) =>
            ({ status := 500, message := "system error processing withdrawal" }, db1, redis1, sent2)
          | (none, db1, redis1, sent2) =>
            ({ status := 200, message := "Withdrawal processing", transfer := some paystackResp },
              db1, redis1, sent2)

/-! ## Example gateway, pins and cache -/

/-- A gateway that accepts every request; the transfer code that it returns for an order
carries the reference of the order. -/
def acceptingGateway : PaystackAPI where
  recipient := fun _ _ accountNum _ _ => .Accepted ("RCP_" ++ accountNum)
  transfer := fun order => .Accepted ⟨"TRF_" ++ order.reference, order.reference, "pending"⟩
  verify := fun reference =>
    .ok ⟨"success", reference, 2500, "USD", "safety_test@mzl.com"⟩

/-- A stand-in for `bcrypt`: the hash of a pin is the pin behind the text `hashed_`. -/
def exampleBcrypt (hash plain : String) : Bool := hash == "hashed_" ++ plain

/-- The example store in which the first user has set the transaction pin `1234`. -/
def pinStore : DB :=
  { exampleStore with
    users := exampleStore.users.map
      (fun u => if u.ID == "u1" then { u with TransactionPin := some "hashed_1234" } else u) }

/-- A key/value store that answers and holds the cached wallet and the cached history of both
users of the example store. -/
def cachedRedis : RedisStore :=
  { entries := [
      { key := "wallet:u1", value := "cached", ttl := 300 },
      { key := "tx_history:u1", value := "cached", ttl := 600 },
      { key := "wallet:u2", value := "cached", ttl := 300 },
      { key := "tx_history:u2", value := "cached", ttl := 600 }]
    available := true }

/-- A withdrawal of 4 USD of the first user. -/
def exampleWithdrawalRequest : WithdrawalRequest :=
  { Amount := 4, AccountNumber := "0123456789", AccountName := "Safety Test", BankCode := "058",
    Currency := "USD", Pin := "1234", Reason := "rent" }

/-! ## Properties of the reported duplicates -/

/-- The references of the rows that the call writes to the log when it is made with the
reference: `FundWallet` writes the reference itself, `SwapFunds` and `TransferFunds` write it
with their two suffixes. -/
def ServiceCall.references (reference : String) : ServiceCall → List String
  | .FundWallet _ _ _ _ => [reference]
  | .SwapFunds _ _ _ _ => [reference ++ "-OUT", reference ++ "-IN"]
  | .TransferFunds _ _ _ _ _ => [reference ++ "-DEBIT", reference ++ "-CREDIT"]

/-- The error is not the sentinel `ErrTransactionAlreadyProcessed`, and when it is the error of
a unique constraint, the log of the store holds a row with one of the references. -/
def DuplicateExplained (db : DB) (refs : List String) (e : GoError) : Prop :=
  e ≠ .ErrTransactionAlreadyProcessed ∧
    (IsErrUniqueConstraint e = true → ∃ t ∈ db.transactions, t.Reference ∈ refs)


/-! ## The values of a `float64` -/

/-- The odd part of a number: what is left of `n` after at most `fuel` divisions by 2. -/
def oddPart : Nat → Nat → Nat
  | 0, n => n
  | fuel + 1, n => if n != 0 && n % 2 == 0 then oddPart fuel (n / 2) else n

/-- Whether the number is a value of Go's `float64`, the type of every amount and balance in
the sources (a finite IEEE 754 binary64 number): it is `m * 2 ^ e` for integers `m` and `e`
with `|m| < 2 ^ 53` and `-1074 ≤ e ≤ 971`. A sum or a difference of two such values that is
again such a value is computed without rounding. -/
def isFloat64 (x : Rat) : Bool :=
  decide (2 ^ 1074 % x.den = 0) && decide (x.num.natAbs < 2 ^ 1024 * x.den) &&
    decide (oddPart 1024 x.num.natAbs < 2 ^ 53)


/-! ## `paystack_handler.go` while the key/value service changes -/

/-- `Server.PaystackWebhookHandler` served while the key/value service changes: the handler
sends up to three commands (`SetNX`, `RPush`, `Del`), and between them the service may stop
or start answering, or other clients may write to it. `afterLock` is what has become of the
store between the handler's `TryLockIdempotencyKey` and its `Enqueue`, `afterPush` what has
become of it between a failed `Enqueue` and the `Delete`. A cancelled request context, which
makes every later command of the request fail, is a service that has stopped answering. With
the identity for both, this is `PaystackWebhookHandler`. -/
def PaystackWebhookHandler.interleaved (afterLock afterPush : RedisStore → RedisStore)
    (redis : RedisStore) (body : Option WebhookBody) (signature : String)
    (signatureValid : Bool) : Nat × RedisStore :=
  match body with
  | none => (400, redis)
  | some body =>
    if signature == "" then (401, redis)
    else if !signatureValid then (401, redis)
    else
      let reference := body.reference?.1
      let proceed : Bool × RedisStore :=
        if body.reference?.2 && reference != "" then
          match TryLockIdempotencyKey redis reference 86400 with
          | ((locked, _), redis1) => (locked, afterLock redis1)
        else (true, redis)
      if !proceed.1 then (200, proceed.2)
      else
        match Enqueue proceed.2 "payment_webhooks" body with
        | (some _, redis2) =>
          if reference != "" then
            (500, (RedisQueue.Delete (afterPush redis2) ("idemp:" ++ reference)).2)
          else (500, redis2)
        | (none, redis2) => (200, redis2)

/-- The key/value service stops answering; its keys stay as they are. -/
def serviceOutage (r : RedisStore) : RedisStore := { r with available := false }

/-- The key/value service answers again; its keys stay as they are. -/
def serviceRecovery (r : RedisStore) : RedisStore := { r with available := true }

/-! # Theorems -/

/-! ## Properties that every operation keeps -/

theorem execOps_keeps (P : DB → Prop) (ops : List TxOp) (hops : ∀ op ∈ ops, TxOp.Keeps P op) :
    ∀ db db', P db → execOps ops db = .ok db' → P db' := by
  induction ops with
  | nil =>
    intro db db' h e
    simp only [execOps, Except.ok.injEq] at e
    exact e ▸ h
  | cons op rest ih =>
    intro db db' h e
    simp only [execOps] at e
    split at e
    · next db1 h1 =>
      exact ih (fun o ho => hops o (List.mem_cons_of_mem _ ho)) db1 db'
        (hops op (List.mem_cons_self _ _) db db1 h h1) e
    · exact absurd e (by simp)

theorem Prisma.Transaction_keeps (P : DB → Prop) (ops : List TxOp)
    (hops : ∀ op ∈ ops, TxOp.Keeps P op) (db : DB) (h : P db) : P (Prisma.Transaction ops db).2 := by
  unfold Prisma.Transaction
  split
  · next db' e => exact execOps_keeps P ops hops db db' h e
  · exact h

theorem CreditWallet_keeps (P : DB → Prop) (hP : StatementsKeep P) (db : DB) (walletID currency : String) (amount : Amount)
    (reference description : String) (txType : TransactionType) (h : P db) :
    P (CreditWallet db walletID currency amount reference description txType).2 := by
  unfold CreditWallet
  apply Prisma.Transaction_keeps _ _ _ db h
  intro op hop
  simp only [List.mem_cons, List.mem_singleton, List.not_mem_nil, or_false] at hop
  rcases hop with rfl | rfl
  · exact hP.2.2.1 _ _ _ _ _ _ _ _ _
  · exact hP.2.1 _ _ _

theorem SwapFunds_keeps (P : DB → Prop) (hP : StatementsKeep P) (db : DB) (userID fromCurrency toCurrency : String)
    (sourceAmount amountOut : Amount) (reference description : String) (h : P db) :
    P (SwapFunds db userID fromCurrency toCurrency sourceAmount amountOut reference description).2 := by
  unfold SwapFunds
  split
  · next sourceAsset _ =>
    split
    · exact h
    · have key : P (Prisma.Transaction
          [WalletAsset.DecrementByID sourceAsset.ID sourceAmount,
           WalletAsset.UpsertOne sourceAsset.WalletID toCurrency amountOut,
           Transaction.CreateOne sourceAsset.WalletID sourceAmount fromCurrency .Swap
            (reference ++ "-OUT") .Success none none (some description),
           Transaction.CreateOne sourceAsset.WalletID amountOut toCurrency .Swap
            (reference ++ "-IN") .Success none none (some description)] db).2 := by
        apply Prisma.Transaction_keeps _ _ _ db h
        intro op hop
        simp only [List.mem_cons, List.mem_singleton, List.not_mem_nil, or_false] at hop
        rcases hop with rfl | rfl | rfl | rfl
        · exact hP.1 _ _
        · exact hP.2.1 _ _ _
        · exact hP.2.2.1 _ _ _ _ _ _ _ _ _
        · exact hP.2.2.1 _ _ _ _ _ _ _ _ _
      simp only
      split
      · next err db' he =>
        rw [he] at key
        split <;> exact key
      · next db' he =>
        rw [he] at key
        exact key
  · exact h

theorem TransferFunds_keeps (P : DB → Prop) (hP : StatementsKeep P) (db : DB) (fromUserID toAccountNumber currency : String)
    (amount : Amount) (reference descSender descReceiver : String) (h : P db) :
    P (TransferFunds db fromUserID toAccountNumber currency amount reference descSender descReceiver).2 := by
  unfold TransferFunds
  split
  · next senderAsset _ =>
    split
    · next receiverWallet _ =>
      split
      · exact h
      · have key : P (Prisma.Transaction
            [WalletAsset.DecrementByID senderAsset.ID amount,
             WalletAsset.UpsertOne receiverWallet.ID currency amount,
             Transaction.CreateOne senderAsset.WalletID amount currency .Transfer
              (reference ++ "-DEBIT") .Success none none (some descSender),
             Transaction.CreateOne receiverWallet.ID amount currency .Transfer
              (reference ++ "-CREDIT") .Success none none (some descReceiver)] db).2 := by
          apply Prisma.Transaction_keeps _ _ _ db h
          intro op hop
          simp only [List.mem_cons, List.mem_singleton, List.not_mem_nil, or_false] at hop
          rcases hop with rfl | rfl | rfl | rfl
          · exact hP.1 _ _
          · exact hP.2.1 _ _ _
          · exact hP.2.2.1 _ _ _ _ _ _ _ _ _
          · exact hP.2.2.1 _ _ _ _ _ _ _ _ _
        simp only
        split
        · next err db' he =>
          rw [he] at key
          split <;> exact key
        · next db' he =>
          rw [he] at key
          exact key
    · exact h
  · exact h

theorem DebitForWithdrawal.afterRead_keeps (P : DB → Prop) (hP : StatementsKeep P) (seen : Option WalletAssetModel × Option GoError)
    (db : DB) (currency : String) (amount : Amount) (reference transferCode description : String)
    (h : P db) :
    P (DebitForWithdrawal.afterRead seen db currency amount reference transferCode description).2 := by
  unfold DebitForWithdrawal.afterRead
  split
  · next asset =>
    split
    · exact h
    · have key : P (Prisma.Transaction
          [WalletAsset.DecrementByID asset.ID amount,
           Transaction.CreateOne asset.WalletID amount currency .Withdrawal reference .Pending
            (some transferCode) (some "PAYSTACK") (some description)] db).2 := by
        apply Prisma.Transaction_keeps _ _ _ db h
        intro op hop
        simp only [List.mem_cons, List.mem_singleton, List.not_mem_nil, or_false] at hop
        rcases hop with rfl | rfl
        · exact hP.1 _ _
        · exact hP.2.2.1 _ _ _ _ _ _ _ _ _
      simp only
      split
      · next err db' he =>
        rw [he] at key
        split <;> exact key
      · next db' he =>
        rw [he] at key
        exact key
  · exact h

theorem CreditWalletByEmail_keeps (P : DB → Prop) (hP : StatementsKeep P) (db : DB) (email currency : String) (amount : Amount)
    (reference description provider : String) (h : P db) :
    P (CreditWalletByEmail db email currency amount reference description provider).2 := by
  unfold CreditWalletByEmail
  split
  · exact h
  · next user _ =>
    split
    · exact h
    · next wallet _ =>
      have key : P (Prisma.Transaction
          [WalletAsset.UpsertOne wallet.ID currency amount,
           Transaction.CreateOne wallet.ID amount currency .Deposit reference .Success
            none (some provider) (some description)] db).2 := by
        apply Prisma.Transaction_keeps _ _ _ db h
        intro op hop
        simp only [List.mem_cons, List.mem_singleton, List.not_mem_nil, or_false] at hop
        rcases hop with rfl | rfl
        · exact hP.2.1 _ _ _
        · exact hP.2.2.1 _ _ _ _ _ _ _ _ _
      simp only
      split <;> exact key

theorem RefundWithdrawal_keeps (P : DB → Prop) (hP : StatementsKeep P) (db : DB) (transferCode : String) (h : P db) :
    P (RefundWithdrawal db transferCode).2 := by
  unfold RefundWithdrawal
  split
  · exact h
  · next txn _ =>
    split
    · exact h
    · apply Prisma.Transaction_keeps _ _ _ db h
      intro op hop
      simp only [List.mem_cons, List.mem_singleton, List.not_mem_nil, or_false] at hop
      rcases hop with rfl | rfl
      · exact hP.1 _ _
      · exact hP.2.2.2 _ _

theorem LedgerCall.exec_keeps (P : DB → Prop) (hP : StatementsKeep P) (db : DB) (c : LedgerCall) (h : P db) :
    P (c.exec db).2 := by
  cases c with
  | CreditWallet => exact CreditWallet_keeps P hP _ _ _ _ _ _ _ h
  | CreditWalletByEmail => exact CreditWalletByEmail_keeps P hP _ _ _ _ _ _ _ h
  | DebitForWithdrawal => exact DebitForWithdrawal.afterRead_keeps P hP _ _ _ _ _ _ _ h
  | TransferFunds => exact TransferFunds_keeps P hP _ _ _ _ _ _ _ _ h
  | SwapFunds => exact SwapFunds_keeps P hP _ _ _ _ _ _ _ _ h
  | RefundWithdrawal => exact RefundWithdrawal_keeps P hP _ _ h

theorem execCalls_keeps (P : DB → Prop) (hP : StatementsKeep P) (db : DB) (calls : List LedgerCall)
    (h : P db) : P (execCalls db calls) := by
  induction calls generalizing db with
  | nil => exact h
  | cons c cs ih => exact ih _ (LedgerCall.exec_keeps P hP db c h)

/-! ## The non-negative balance invariant -/

theorem WalletAsset.Update_keeps_nonneg (sel : WalletAssetModel → Bool) (f : Amount → Amount) :
    TxOp.Keeps NonNegativeBalances (WalletAsset.Update sel f) := by
  intro db db' h e
  unfold WalletAsset.Update at e
  split at e
  · exact absurd e (by simp)
  · split at e
    · exact absurd e (by simp)
    · next hany hcheck =>
      simp only [Except.ok.injEq] at e
      subst e
      intro a ha
      simp only [List.mem_map] at ha
      obtain ⟨b, hb, rfl⟩ := ha
      by_cases hs : sel b = true
      · simp only [hs, if_true]
        simp only [List.any_eq_true, Bool.and_eq_true, not_exists, not_and, violatesNonNegativeBalance,
          decide_eq_true_eq, Bool.not_eq_true] at hcheck
        have := hcheck b hb hs
        simpa using this
      · simp only [hs]
        exact h b hb

theorem WalletAsset.UpsertOne_keeps_nonneg (walletID currency : String) (amount : Amount) :
    TxOp.Keeps NonNegativeBalances (WalletAsset.UpsertOne walletID currency amount) := by
  intro db db' h e
  unfold WalletAsset.UpsertOne at e
  split at e
  · exact WalletAsset.Update_keeps_nonneg _ _ db db' h e
  · split at e
    · exact absurd e (by simp)
    · split at e
      · exact absurd e (by simp)
      · next hcheck =>
        simp only [Except.ok.injEq] at e
        subst e
        intro a ha
        simp only [List.mem_append, List.mem_singleton] at ha
        rcases ha with ha | rfl
        · exact h a ha
        · simpa [violatesNonNegativeBalance] using hcheck

theorem Transaction.CreateOne_keeps_nonneg (walletID : String) (amount : Amount) (currency : String)
    (txType : TransactionType) (reference : String) (status : TransactionStatus)
    (gatewayRef provider description : Option String) :
    TxOp.Keeps NonNegativeBalances (Transaction.CreateOne walletID amount currency txType reference
      status gatewayRef provider description) := by
  intro db db' h e
  unfold Transaction.CreateOne at e
  split at e
  · exact absurd e (by simp)
  · split at e
    · exact absurd e (by simp)
    · simp only [Except.ok.injEq] at e
      subst e
      exact h

theorem Transaction.SetStatusByID_keeps_nonneg (id : String) (status : TransactionStatus) :
    TxOp.Keeps NonNegativeBalances (Transaction.SetStatusByID id status) := by
  intro db db' h e
  unfold Transaction.SetStatusByID at e
  split at e
  · exact absurd e (by simp)
  · simp only [Except.ok.injEq] at e
    subst e
    exact h

theorem statementsKeep_nonneg : StatementsKeep NonNegativeBalances :=
  ⟨WalletAsset.Update_keeps_nonneg, WalletAsset.UpsertOne_keeps_nonneg,
    Transaction.CreateOne_keeps_nonneg, Transaction.SetStatusByID_keeps_nonneg⟩

/-- C1: in every store reached from a store whose balances are all non-negative by any
sequence of `CreditWallet`, `CreditWalletByEmail`, `DebitForWithdrawal`, `TransferFunds`,
`SwapFunds` and `RefundWithdrawal` calls with arbitrary arguments, every `WalletAsset` balance
is non-negative. -/
theorem nonNegativeBalances_invariant (db : DB) (calls : List LedgerCall)
    (h : NonNegativeBalances db) : NonNegativeBalances (execCalls db calls) := by
  induction calls generalizing db with
  | nil => exact h
  | cons c cs ih =>
    exact ih _ (LedgerCall.exec_keeps NonNegativeBalances statementsKeep_nonneg db c h)

/-- C1 at the example store and the example run, which ends with 7 USD and 4500 NGN for `u1`
and 7 USD for `u2`. -/
theorem nonNegativeBalances_invariant_witness :
    NonNegativeBalances exampleStore ∧ NonNegativeBalances (execCalls exampleStore exampleCalls) ∧
      (execCalls exampleStore exampleCalls).assets.map (fun a => (a.WalletID, a.Currency, a.Balance))
        = [("w1", "NGN", 4500), ("w2", "NGN", 0), ("w1", "USD", 7), ("w2", "USD", 7)] :=
  ⟨by decide!, nonNegativeBalances_invariant exampleStore exampleCalls (by decide!), by decide!⟩

/-! ## `DebitForWithdrawal` -/

theorem GetAssetByCurrency_cases (db : DB) (userID currency : String) :
    (∃ a, GetAssetByCurrency db userID currency = (some a, none)) ∨
      GetAssetByCurrency db userID currency = (none, some .ErrNotFound) := by
  unfold GetAssetByCurrency
  split
  · next a _ => exact Or.inl ⟨a, rfl⟩
  · exact Or.inr rfl

/-- C2: when the user holds no asset in the currency, or the asset's balance is below the
amount, `DebitForWithdrawal` returns the error `insufficient funds`, whose lower-cased message
contains "insufficient funds", and leaves the whole store (every asset balance and the
`Transaction` rows) unchanged. -/
theorem DebitForWithdrawal_insufficient_funds (db : DB) (userID currency : String) (amount : Amount)
    (reference transferCode description : String)
    (h : ∀ a, (GetAssetByCurrency db userID currency).1 = some a → a.Balance < amount) :
    (∃ err, (DebitForWithdrawal db userID currency amount reference transferCode description).1
        = some err ∧ stringsContains (stringsToLower err.Error) "insufficient funds" = true) ∧
      (DebitForWithdrawal db userID currency amount reference transferCode description).2 = db := by
  have hmsg : stringsContains (stringsToLower (GoError.Errorf "insufficient funds").Error)
      "insufficient funds" = true := by decide
  unfold DebitForWithdrawal
  rcases GetAssetByCurrency_cases db userID currency with ⟨a, ha⟩ | hnone
  · have hlt : a.Balance < amount := h a (by rw [ha])
    rw [ha]
    simp only [DebitForWithdrawal.afterRead, hlt, if_true]
    exact ⟨⟨_, rfl, hmsg⟩, trivial⟩
  · rw [hnone]
    simp only [DebitForWithdrawal.afterRead]
    exact ⟨⟨_, rfl, hmsg⟩, trivial⟩

/-- C2 at the input of `TestWalletSafetyConstraint`: balance 10 USD, debit of 50; and for a
currency in which the user holds no asset. -/
theorem DebitForWithdrawal_insufficient_funds_witness :
    (GetAssetByCurrency exampleStore "u1" "USD").1.map (fun a => a.Balance) = some 10 ∧
      DebitForWithdrawal exampleStore "u1" "USD" 50 "FAIL_REF_001" "CODE_RED"
        "Illegal Withdrawal Attempt" = (some (.Errorf "insufficient funds"), exampleStore) ∧
      ((∃ err, (DebitForWithdrawal exampleStore "u1" "USD" 50 "FAIL_REF_001" "CODE_RED"
          "Illegal Withdrawal Attempt").1 = some err ∧
          stringsContains (stringsToLower err.Error) "insufficient funds" = true) ∧
        (DebitForWithdrawal exampleStore "u1" "USD" 50 "FAIL_REF_001" "CODE_RED"
          "Illegal Withdrawal Attempt").2 = exampleStore) :=
  ⟨by decide!, by decide!,
    DebitForWithdrawal_insufficient_funds exampleStore "u1" "USD" 50 "FAIL_REF_001" "CODE_RED"
      "Illegal Withdrawal Attempt" (by decide!)⟩

/-! ## What the statements and the batch do -/

theorem WalletAsset.Update_ok_iff (sel : WalletAssetModel → Bool) (f : Amount → Amount) (db db' : DB) :
    WalletAsset.Update sel f db = .ok db' ↔
      (∃ a ∈ db.assets, sel a = true) ∧ (∀ a ∈ db.assets, sel a = true → 0 ≤ f a.Balance) ∧
        db' = { db with
          assets := db.assets.map (fun a => if sel a then { a with Balance := f a.Balance } else a) } := by
  unfold WalletAsset.Update
  by_cases h1 : db.assets.any sel = true
  · have h1' : ∃ a ∈ db.assets, sel a = true := by simpa using h1
    by_cases h2 : db.assets.any (fun a => sel a && violatesNonNegativeBalance (f a.Balance)) = true
    · simp only [h1, h2, Bool.not_true, Bool.false_eq_true, if_false, if_true, reduceCtorEq, false_iff, not_and]
      intro _ hall
      simp only [List.any_eq_true, Bool.and_eq_true, violatesNonNegativeBalance,
        decide_eq_true_eq] at h2
      obtain ⟨a, ha, hs, hlt⟩ := h2
      exact absurd (hall a ha hs) (not_le.mpr hlt)
    · have h2' : ∀ a ∈ db.assets, sel a = true → 0 ≤ f a.Balance := by
        intro a ha hs
        simp only [List.any_eq_true, Bool.and_eq_true, violatesNonNegativeBalance,
          decide_eq_true_eq, not_exists, not_and, not_lt] at h2
        exact h2 a ha hs
      simp only [h1, h2, Bool.not_true, Bool.false_eq_true, if_false, Except.ok.injEq]
      constructor
      · intro e
        exact ⟨h1', h2', e.symm⟩
      · intro ⟨_, _, e⟩
        exact e.symm
  · simp only [h1, Bool.not_false, if_true, reduceCtorEq, false_iff, not_and]
    intro hex
    simp only [List.any_eq_true, not_exists, not_and] at h1
    obtain ⟨a, ha, hs⟩ := hex
    exact absurd hs (h1 a ha)

theorem Transaction.CreateOne_ok_iff (walletID : String) (amount : Amount) (currency : String)
    (txType : TransactionType) (reference : String) (status : TransactionStatus)
    (gatewayRef provider description : Option String) (db db' : DB) :
    Transaction.CreateOne walletID amount currency txType reference status gatewayRef provider
        description db = .ok db' ↔
      (∃ w ∈ db.wallets, w.ID = walletID) ∧ (∀ t ∈ db.transactions, t.Reference ≠ reference) ∧
        db' = { db with
          transactions := db.transactions ++ [
            { ID := genID db.nextID
              WalletID := walletID
              Amount := amount
              Currency := currency
              TxType := txType
              Status := status
              Reference := reference
              GatewayRef := gatewayRef
              Provider := provider
              Description := description }]
          nextID := db.nextID + 1 } := by
  unfold Transaction.CreateOne
  by_cases h1 : db.wallets.any (fun w => w.ID == walletID) = true
  · have h1' : ∃ w ∈ db.wallets, w.ID = walletID := by simpa using h1
    by_cases h2 : violatesUniqueReference db reference = true
    · simp only [h1, h2, Bool.not_true, Bool.false_eq_true, if_false, if_true, reduceCtorEq, false_iff, not_and]
      intro _ hall
      simp only [violatesUniqueReference, List.any_eq_true, beq_iff_eq] at h2
      obtain ⟨t, ht, hr⟩ := h2
      exact absurd hr (hall t ht)
    · have h2' : ∀ t ∈ db.transactions, t.Reference ≠ reference := by
        simpa [violatesUniqueReference] using h2
      simp only [h1, h2, Bool.not_true, Bool.false_eq_true, if_false, Except.ok.injEq]
      constructor
      · intro e
        exact ⟨h1', h2', e.symm⟩
      · intro ⟨_, _, e⟩
        exact e.symm
  · simp only [h1, Bool.not_false, if_true, reduceCtorEq, false_iff, not_and]
    intro hex
    simp only [List.any_eq_true, beq_iff_eq, not_exists, not_and] at h1
    obtain ⟨w, hw, hid⟩ := hex
    exact absurd hid (h1 w hw)

theorem Prisma.Transaction_of_ok (ops : List TxOp) (db db' : DB) (h : execOps ops db = .ok db') :
    Prisma.Transaction ops db = (none, db') := by
  simp only [Prisma.Transaction, h]

theorem Prisma.Transaction_of_error (ops : List TxOp) (db : DB) (e : GoError)
    (h : execOps ops db = .error e) : Prisma.Transaction ops db = (some e, db) := by
  simp only [Prisma.Transaction, h]

theorem Prisma.Transaction_snd_of_isSome (ops : List TxOp) (db : DB)
    (h : (Prisma.Transaction ops db).1 ≠ none) : (Prisma.Transaction ops db).2 = db := by
  unfold Prisma.Transaction at h ⊢
  split
  · next he => simp [he] at h
  · rfl

theorem GetAssetByCurrency_update (db : DB) (sel : WalletAssetModel → Bool) (f : Amount → Amount)
    (userID currency : String) :
    GetAssetByCurrency { db with
        assets := db.assets.map (fun a => if sel a then { a with Balance := f a.Balance } else a) }
        userID currency =
      ((GetAssetByCurrency db userID currency).1.map
          (fun a => if sel a then { a with Balance := f a.Balance } else a),
        (GetAssetByCurrency db userID currency).2) := by
  unfold GetAssetByCurrency
  simp only [List.find?_map]
  have hp : ((fun a : WalletAssetModel => a.Currency == currency &&
      db.wallets.any (fun w => w.ID == a.WalletID && w.UserID == userID)) ∘
      (fun a => if sel a then { a with Balance := f a.Balance } else a)) =
      (fun a : WalletAssetModel => a.Currency == currency &&
      db.wallets.any (fun w => w.ID == a.WalletID && w.UserID == userID)) := by
    funext a
    by_cases hs : sel a = true <;> simp [hs]
  rw [hp]
  cases db.assets.find? (fun a : WalletAssetModel => a.Currency == currency &&
      db.wallets.any (fun w => w.ID == a.WalletID && w.UserID == userID)) <;> rfl

theorem GetAssetByCurrency_wallet (db : DB) (userID currency : String) (a : WalletAssetModel)
    (h : (GetAssetByCurrency db userID currency).1 = some a) :
    a ∈ db.assets ∧ a.Currency = currency ∧ ∃ w ∈ db.wallets, w.ID = a.WalletID ∧ w.UserID = userID := by
  unfold GetAssetByCurrency at h
  split at h
  · next a' hf =>
    simp only [Option.some.injEq] at h
    subst h
    have hp := List.find?_some hf
    have hm := List.mem_of_find?_eq_some hf
    simp only [Bool.and_eq_true, beq_iff_eq, List.any_eq_true] at hp
    exact ⟨hm, hp.1, hp.2⟩
  · exact absurd h (by simp)
theorem GetAssetByCurrency_of_update (db db' : DB) (sel : WalletAssetModel → Bool)
    (f : Amount → Amount) (userID currency : String) (a : WalletAssetModel)
    (hw : db'.wallets = db.wallets)
    (has : db'.assets = db.assets.map (fun a => if sel a then { a with Balance := f a.Balance } else a))
    (ha : (GetAssetByCurrency db userID currency).1 = some a) :
    (GetAssetByCurrency db' userID currency).1
      = some (if sel a then { a with Balance := f a.Balance } else a) := by
  have e : GetAssetByCurrency db' userID currency = GetAssetByCurrency { db with
      assets := db.assets.map (fun a => if sel a then { a with Balance := f a.Balance } else a) }
      userID currency := by
    unfold GetAssetByCurrency
    simp only [hw, has]
  rw [e, GetAssetByCurrency_update, ha]
  rfl

theorem GetAssetByCurrency_of_same (db db' : DB) (userID currency : String)
    (hw : db'.wallets = db.wallets) (has : db'.assets = db.assets) :
    GetAssetByCurrency db' userID currency = GetAssetByCurrency db userID currency := by
  unfold GetAssetByCurrency
  simp only [hw, has]

theorem DebitForWithdrawal.afterRead_step (db : DB) (userID currency : String)
    (a s : WalletAssetModel) (amount : Amount) (reference transferCode description : String)
    (ha : (GetAssetByCurrency db userID currency).1 = some a) (hid : s.ID = a.ID) :
    ((DebitForWithdrawal.afterRead (some s, none) db currency amount reference transferCode
          description).1 = none ∧ 0 ≤ a.Balance - amount ∧
        (GetAssetByCurrency (DebitForWithdrawal.afterRead (some s, none) db currency amount reference
          transferCode description).2 userID currency).1
          = some { a with Balance := a.Balance - amount }) ∨
      ((DebitForWithdrawal.afterRead (some s, none) db currency amount reference transferCode
          description).1 ≠ none ∧
        (DebitForWithdrawal.afterRead (some s, none) db currency amount reference transferCode
          description).2 = db) := by
  unfold DebitForWithdrawal.afterRead
  simp only
  by_cases hlt : s.Balance < amount
  · simp [hlt]
  · simp only [hlt, if_false]
    cases h1 : WalletAsset.DecrementByID s.ID amount db with
    | error e =>
      rw [Prisma.Transaction_of_error _ _ e (by simp only [execOps, h1])]
      right
      simp only
      split <;> simp
    | ok db1 =>
      cases h2 : Transaction.CreateOne s.WalletID amount currency .Withdrawal reference .Pending
          (some transferCode) (some "PAYSTACK") (some description) db1 with
      | error e =>
        rw [Prisma.Transaction_of_error _ _ e (by simp only [execOps, h1, h2])]
        right
        simp only
        split <;> simp
      | ok db2 =>
        rw [Prisma.Transaction_of_ok _ _ db2 (by simp only [execOps, h1, h2])]
        left
        simp only [true_and]
        obtain ⟨_, hall, e1⟩ := (WalletAsset.Update_ok_iff _ _ _ _).mp h1
        obtain ⟨_, _, e2⟩ := (Transaction.CreateOne_ok_iff _ _ _ _ _ _ _ _ _ _ _).mp h2
        have hmem := (GetAssetByCurrency_wallet db userID currency a ha).1
        have hsel : (a.ID == s.ID) = true := by simp [hid]
        refine ⟨hall a hmem hsel, ?_⟩
        have hw : db2.wallets = db.wallets := by rw [e2, e1]
        have has : db2.assets = db.assets.map
            (fun x => if x.ID == s.ID then { x with Balance := x.Balance - amount } else x) := by
          rw [e2, e1]
        rw [GetAssetByCurrency_of_update db db2 (fun x => x.ID == s.ID) (fun b => b - amount)
          userID currency a hw has ha]
        simp only [hsel, if_true]
theorem DebitCall.exec_step (db : DB) (userID currency : String) (a : WalletAssetModel)
    (c : DebitCall) (ha : (GetAssetByCurrency db userID currency).1 = some a) :
    ((c.exec db userID currency).1 = none ∧ 0 ≤ a.Balance - c.amount ∧
        (GetAssetByCurrency (c.exec db userID currency).2 userID currency).1
          = some { a with Balance := a.Balance - c.amount }) ∨
      ((c.exec db userID currency).1 ≠ none ∧ (c.exec db userID currency).2 = db) := by
  have hfull : GetAssetByCurrency db userID currency = (some a, none) := by
    rcases GetAssetByCurrency_cases db userID currency with ⟨a', h'⟩ | h'
    · rw [h'] at ha ⊢
      simp only [Option.some.injEq] at ha
      rw [ha]
    · rw [h'] at ha
      exact absurd ha (by simp)
  unfold DebitCall.exec
  cases c.staleBalance with
  | none =>
    simp only [DebitForWithdrawal, hfull]
    exact DebitForWithdrawal.afterRead_step db userID currency a a c.amount c.reference
      c.transferCode c.description ha rfl
  | some b =>
    simp only [hfull, Option.map_some']
    exact DebitForWithdrawal.afterRead_step db userID currency a { a with Balance := b } c.amount
      c.reference c.transferCode c.description ha rfl

/-- In exact arithmetic, amounts and balances being rationals that the store does not round:
for every asset with a non-negative balance and every finite sequence of
`DebitForWithdrawal` calls against it, executed in the serial order of their batches (each call
having read the asset either from the current store or, racing with other calls, with any
stale balance), the asset's final balance is non-negative and equals the initial balance minus
the sum of the amounts of exactly the calls that returned success. No condition on the
references is needed; in particular the statement holds for pairwise distinct ones. -/
theorem debits_final_balance (db : DB) (userID currency : String) (a : WalletAssetModel)
    (calls : List DebitCall) (ha : (GetAssetByCurrency db userID currency).1 = some a)
    (h0 : 0 ≤ a.Balance) :
    (GetAssetByCurrency (execDebits db userID currency calls).2 userID currency).1
        = some { a with Balance :=
            a.Balance - (acceptedAmounts calls (execDebits db userID currency calls).1).sum } ∧
      0 ≤ a.Balance - (acceptedAmounts calls (execDebits db userID currency calls).1).sum := by
  induction calls generalizing db a with
  | nil =>
    simp only [execDebits, acceptedAmounts, List.sum_nil, sub_zero]
    exact ⟨ha, h0⟩
  | cons c cs ih =>
    simp only [execDebits, acceptedAmounts]
    rcases DebitCall.exec_step db userID currency a c ha with ⟨hok, hpos, hget⟩ | ⟨herr, hsame⟩
    · have := ih (c.exec db userID currency).2 { a with Balance := a.Balance - c.amount } hget hpos
      simp only [hok, Option.isNone_none, if_true, List.sum_cons]
      simp only [sub_sub] at this
      exact this
    · have hn : (c.exec db userID currency).1.isNone = false := by
        cases h : (c.exec db userID currency).1 with
        | none => exact absurd h herr
        | some e => rfl
      simp only [hn, Bool.false_eq_true, if_false]
      rw [hsame]
      exact ih db a ha h0

/-- The example debits: the accepted amounts are 4 and 6 and the 10 USD end at 0. -/
theorem debits_final_balance_witness :
    (execDebits exampleStore "u1" "USD" exampleDebits).1
        = [none, some (.Errorf "insufficient funds (race condition)"), none,
            some (.Errorf "insufficient funds")] ∧
      acceptedAmounts exampleDebits (execDebits exampleStore "u1" "USD" exampleDebits).1 = [4, 6] ∧
      (GetAssetByCurrency (execDebits exampleStore "u1" "USD" exampleDebits).2 "u1" "USD").1
        = some { ID := "3", WalletID := "w1", Currency := "USD", Balance := 0 } ∧
      ((GetAssetByCurrency (execDebits exampleStore "u1" "USD" exampleDebits).2 "u1" "USD").1
          = some { ID := "3", WalletID := "w1", Currency := "USD", Balance := 10 -
              (acceptedAmounts exampleDebits
                (execDebits exampleStore "u1" "USD" exampleDebits).1).sum } ∧
        0 ≤ (10 : Amount) - (acceptedAmounts exampleDebits
                (execDebits exampleStore "u1" "USD" exampleDebits).1).sum) :=
  ⟨by decide!, by decide!, by decide!,
    debits_final_balance exampleStore "u1" "USD"
      { ID := "3", WalletID := "w1", Currency := "USD", Balance := 10 } exampleDebits
      (by decide!) (by decide!)⟩

theorem UniqueAssetIDs.eq_of_ID_eq {db : DB} (h : UniqueAssetIDs db) {x y : WalletAssetModel}
    (hx : x ∈ db.assets) (hy : y ∈ db.assets) (hid : x.ID = y.ID) : x = y :=
  List.inj_on_of_nodup_map h hx hy hid

theorem GetAssetByCurrency_full (db : DB) (userID currency : String) (a : WalletAssetModel)
    (ha : (GetAssetByCurrency db userID currency).1 = some a) :
    GetAssetByCurrency db userID currency = (some a, none) := by
  rcases GetAssetByCurrency_cases db userID currency with ⟨a', h'⟩ | h'
  · rw [h'] at ha ⊢
    simp only [Option.some.injEq] at ha
    rw [ha]
  · rw [h'] at ha
    exact absurd ha (by simp)

/-- In exact arithmetic, amounts and balances being rationals that the store does not round:
when the user's asset in the currency has a balance of at least the amount (equality
included), the reference is not yet in the log and the asset's `ID` is its own (primary key),
`DebitForWithdrawal` returns `nil`; the asset's balance becomes exactly the old balance minus
the amount, exactly one `Transaction` row is appended, of type withdrawal and status pending,
with the given reference, gateway reference, currency and amount, and no other asset or row
changes. -/
theorem DebitForWithdrawal_success (db : DB) (userID currency : String) (amount : Amount)
    (reference transferCode description : String) (a : WalletAssetModel)
    (ha : (GetAssetByCurrency db userID currency).1 = some a) (hge : amount ≤ a.Balance)
    (href : ∀ t ∈ db.transactions, t.Reference ≠ reference) (hpk : UniqueAssetIDs db) :
    DebitForWithdrawal db userID currency amount reference transferCode description =
        (none, { db with
          assets := db.assets.map
            (fun x => if x = a then { a with Balance := a.Balance - amount } else x)
          transactions := db.transactions ++ [
            { ID := genID db.nextID
              WalletID := a.WalletID
              Amount := amount
              Currency := currency
              TxType := .Withdrawal
              Status := .Pending
              Reference := reference
              GatewayRef := some transferCode
              Provider := some "PAYSTACK"
              Description := some description }]
          nextID := db.nextID + 1 }) ∧
      (GetAssetByCurrency (DebitForWithdrawal db userID currency amount reference transferCode
          description).2 userID currency).1 = some { a with Balance := a.Balance - amount } := by
  obtain ⟨hmem, _, w, hw, hwid, _⟩ := GetAssetByCurrency_wallet db userID currency a ha
  have hmap : db.assets.map
      (fun x => if (x.ID == a.ID) = true then { x with Balance := x.Balance - amount } else x) =
      db.assets.map (fun x => if x = a then { a with Balance := a.Balance - amount } else x) := by
    apply List.map_congr_left
    intro x hx
    by_cases hxa : x = a
    · subst hxa
      simp
    · have : x.ID ≠ a.ID := fun hid => hxa (hpk.eq_of_ID_eq hx hmem hid)
      simp [hxa, this]
  have h1 : WalletAsset.DecrementByID a.ID amount db = .ok { db with
      assets := db.assets.map
        (fun x => if x = a then { a with Balance := a.Balance - amount } else x) } := by
    unfold WalletAsset.DecrementByID
    rw [WalletAsset.Update_ok_iff]
    refine ⟨⟨a, hmem, by simp⟩, ?_, ?_⟩
    · intro x hx hsel
      have hxa : x = a := hpk.eq_of_ID_eq hx hmem (by simpa using hsel)
      rw [hxa]
      linarith
    · rw [hmap]
  have h2 := (Transaction.CreateOne_ok_iff a.WalletID amount currency .Withdrawal reference .Pending
    (some transferCode) (some "PAYSTACK") (some description) { db with
      assets := db.assets.map
        (fun x => if x = a then { a with Balance := a.Balance - amount } else x) } _).mpr
    ⟨⟨w, hw, hwid⟩, href, rfl⟩
  have hres : DebitForWithdrawal db userID currency amount reference transferCode description =
      (none, { db with
        assets := db.assets.map
          (fun x => if x = a then { a with Balance := a.Balance - amount } else x)
        transactions := db.transactions ++ [
          { ID := genID db.nextID
            WalletID := a.WalletID
            Amount := amount
            Currency := currency
            TxType := .Withdrawal
            Status := .Pending
            Reference := reference
            GatewayRef := some transferCode
            Provider := some "PAYSTACK"
            Description := some description }]
        nextID := db.nextID + 1 }) := by
    unfold DebitForWithdrawal
    rw [GetAssetByCurrency_full db userID currency a ha]
    unfold DebitForWithdrawal.afterRead
    simp only [not_lt.mpr hge, if_false]
    rw [Prisma.Transaction_of_ok _ _ _ (by simp only [execOps, h1, h2]; rfl)]
  refine ⟨hres, ?_⟩
  rw [hres]
  have := GetAssetByCurrency_of_update db { db with
        assets := db.assets.map
          (fun x => if x = a then { a with Balance := a.Balance - amount } else x)
        transactions := db.transactions ++ [
          { ID := genID db.nextID
            WalletID := a.WalletID
            Amount := amount
            Currency := currency
            TxType := .Withdrawal
            Status := .Pending
            Reference := reference
            GatewayRef := some transferCode
            Provider := some "PAYSTACK"
            Description := some description }]
        nextID := db.nextID + 1 } (fun x => x.ID == a.ID) (fun b => b - amount)
    userID currency a rfl hmap.symm ha
  simpa using this

/-- At the example store, debiting the whole balance of 10 USD leaves 0 and appends the
pending withdrawal row. -/
theorem DebitForWithdrawal_success_witness :
    (GetAssetByCurrency exampleStore "u1" "USD").1 = some exampleUSD ∧
      (10 : Amount) ≤ exampleUSD.Balance ∧ UniqueAssetIDs exampleStore ∧
      (DebitForWithdrawal exampleStore "u1" "USD" 10 "REF_2" "TRF_9" "payout" =
          (none, { exampleStore with
            assets := exampleStore.assets.map
              (fun x => if x = exampleUSD then { exampleUSD with Balance := exampleUSD.Balance - 10 }
                else x)
            transactions := exampleStore.transactions ++ [
              { ID := genID exampleStore.nextID
                WalletID := exampleUSD.WalletID
                Amount := 10
                Currency := "USD"
                TxType := .Withdrawal
                Status := .Pending
                Reference := "REF_2"
                GatewayRef := some "TRF_9"
                Provider := some "PAYSTACK"
                Description := some "payout" }]
            nextID := exampleStore.nextID + 1 }) ∧
        (GetAssetByCurrency (DebitForWithdrawal exampleStore "u1" "USD" 10 "REF_2" "TRF_9"
            "payout").2 "u1" "USD").1
          = some { exampleUSD with Balance := exampleUSD.Balance - 10 }) :=
  ⟨by decide!, by decide!, by decide!,
    DebitForWithdrawal_success exampleStore "u1" "USD" 10 "REF_2" "TRF_9" "payout" exampleUSD
      (by decide!) (by decide!) (by decide!) (by decide!)⟩

/-! ## `CreditWallet` -/

theorem UniqueWalletIDCurrency.eq_of_key_eq {db : DB} (h : UniqueWalletIDCurrency db)
    {x y : WalletAssetModel} (hx : x ∈ db.assets) (hy : y ∈ db.assets)
    (hw : x.WalletID = y.WalletID) (hc : x.Currency = y.Currency) : x = y :=
  List.inj_on_of_nodup_map h hx hy (by simp only [hw, hc])

theorem WalletAsset.UpsertOne_present (db : DB) (walletID currency : String) (amount : Amount)
    (old : WalletAssetModel) (hmem : old ∈ db.assets) (hw : old.WalletID = walletID)
    (hc : old.Currency = currency) (hkey : UniqueWalletIDCurrency db)
    (hnn : 0 ≤ old.Balance + amount) :
    WalletAsset.UpsertOne walletID currency amount db = .ok { db with
      assets := db.assets.map
        (fun x => if x = old then { old with Balance := old.Balance + amount } else x) } := by
  have hany : db.assets.any (fun a => a.WalletID == walletID && a.Currency == currency) = true := by
    simp only [List.any_eq_true, Bool.and_eq_true, beq_iff_eq]
    exact ⟨old, hmem, hw, hc⟩
  unfold WalletAsset.UpsertOne
  simp only [hany, if_true]
  unfold WalletAsset.IncrementByWalletIDCurrency
  rw [WalletAsset.Update_ok_iff]
  have hsel : ∀ x ∈ db.assets, (x.WalletID == walletID && x.Currency == currency) = true → x = old := by
    intro x hx hs
    simp only [Bool.and_eq_true, beq_iff_eq] at hs
    exact hkey.eq_of_key_eq hx hmem (hs.1.trans hw.symm) (hs.2.trans hc.symm)
  refine ⟨⟨old, hmem, by simp [hw, hc]⟩, ?_, ?_⟩
  · intro x hx hs
    rw [hsel x hx hs]
    exact hnn
  · congr 1
    apply List.map_congr_left
    intro x hx
    by_cases hxo : x = old
    · subst hxo
      simp [hw, hc]
    · have : ¬ ((x.WalletID == walletID && x.Currency == currency) = true) :=
        fun hs => hxo (hsel x hx hs)
      simp [this, hxo]

theorem WalletAsset.UpsertOne_absent (db : DB) (walletID currency : String) (amount : Amount)
    (habs : ∀ x ∈ db.assets, ¬ (x.WalletID = walletID ∧ x.Currency = currency))
    (hwal : ∃ w ∈ db.wallets, w.ID = walletID) (hnn : 0 ≤ amount) :
    WalletAsset.UpsertOne walletID currency amount db = .ok { db with
      assets := db.assets ++ [
        { ID := genID db.nextID
          WalletID := walletID
          Currency := currency
          Balance := amount }]
      nextID := db.nextID + 1 } := by
  have hany : db.assets.any (fun a => a.WalletID == walletID && a.Currency == currency) = false := by
    simp only [List.any_eq_false, Bool.and_eq_true, beq_iff_eq]
    exact habs
  have hw : db.wallets.any (fun w => w.ID == walletID) = true := by
    simpa using hwal
  unfold WalletAsset.UpsertOne
  simp [hany, hw, violatesNonNegativeBalance, not_lt.mpr hnn]
/-- In exact arithmetic, amounts and balances being rationals that the store does not round:
for every existing wallet, every currency, every amount `≥ 0` and every reference that
is not yet in the log, in a store that satisfies its constraints (non-negative balances, unique
wallet-currency key), `CreditWallet` returns `nil` and appends exactly one `Transaction` row
with status success and the given type, reference, amount and currency. If the wallet had no
asset in the currency, one asset with balance `amount` is appended; otherwise the balance of
that asset becomes the old balance plus `amount`. Nothing else changes. -/
theorem CreditWallet_success (db : DB) (walletID currency : String) (amount : Amount)
    (reference description : String) (txType : TransactionType)
    (hwal : ∃ w ∈ db.wallets, w.ID = walletID) (hamt : 0 ≤ amount)
    (href : ∀ t ∈ db.transactions, t.Reference ≠ reference)
    (hnn : NonNegativeBalances db) (hkey : UniqueWalletIDCurrency db) :
    ((∀ x ∈ db.assets, ¬ (x.WalletID = walletID ∧ x.Currency = currency)) →
        CreditWallet db walletID currency amount reference description txType =
          (none, { db with
            assets := db.assets ++ [
              { ID := genID (db.nextID + 1)
                WalletID := walletID
                Currency := currency
                Balance := amount }]
            transactions := db.transactions ++ [
              { ID := genID db.nextID
                WalletID := walletID
                Amount := amount
                Currency := currency
                TxType := txType
                Status := .Success
                Reference := reference
                GatewayRef := none
                Provider := none
                Description := some description }]
            nextID := db.nextID + 1 + 1 })) ∧
      (∀ old ∈ db.assets, old.WalletID = walletID → old.Currency = currency →
        CreditWallet db walletID currency amount reference description txType =
          (none, { db with
            assets := db.assets.map
              (fun x => if x = old then { old with Balance := old.Balance + amount } else x)
            transactions := db.transactions ++ [
              { ID := genID db.nextID
                WalletID := walletID
                Amount := amount
                Currency := currency
                TxType := txType
                Status := .Success
                Reference := reference
                GatewayRef := none
                Provider := none
                Description := some description }]
            nextID := db.nextID + 1 })) := by
  have h1 := (Transaction.CreateOne_ok_iff walletID amount currency txType reference .Success
    none none (some description) db _).mpr ⟨hwal, href, rfl⟩
  constructor
  · intro habs
    have h2 := WalletAsset.UpsertOne_absent { db with
        transactions := db.transactions ++ [
          { ID := genID db.nextID
            WalletID := walletID
            Amount := amount
            Currency := currency
            TxType := txType
            Status := .Success
            Reference := reference
            GatewayRef := none
            Provider := none
            Description := some description }]
        nextID := db.nextID + 1 } walletID currency amount habs hwal hamt
    unfold CreditWallet
    exact Prisma.Transaction_of_ok _ _ _ (by simp only [execOps, h1, h2])
  · intro old hmem hw hc
    have h2 := WalletAsset.UpsertOne_present { db with
        transactions := db.transactions ++ [
          { ID := genID db.nextID
            WalletID := walletID
            Amount := amount
            Currency := currency
            TxType := txType
            Status := .Success
            Reference := reference
            GatewayRef := none
            Provider := none
            Description := some description }]
        nextID := db.nextID + 1 } walletID currency amount old hmem hw hc hkey
      (add_nonneg (hnn old hmem) hamt)
    unfold CreditWallet
    exact Prisma.Transaction_of_ok _ _ _ (by simp only [execOps, h1, h2])

/-- The seeding call of `TestWalletSafetyConstraint` (the asset is created with balance
10) and a further credit of 5 USD to the 10 USD of the example store. -/
theorem CreditWallet_success_witness :
    CreditWallet testStore "w1" "USD" 10 "SEED_123" "Initial Deposit" .Deposit =
        (none, { testStore with
          assets := [{ ID := "1", WalletID := "w1", Currency := "USD", Balance := 10 }]
          transactions := [
            { ID := "0", WalletID := "w1", Amount := 10, Currency := "USD", TxType := .Deposit,
              Status := .Success, Reference := "SEED_123", GatewayRef := none, Provider := none,
              Description := some "Initial Deposit" }]
          nextID := 2 }) ∧
      CreditWallet exampleStore "w1" "USD" 5 "SEED_456" "Top up" .Deposit =
        (none, { exampleStore with
          assets := exampleStore.assets.map
            (fun x => if x = exampleUSD then { exampleUSD with Balance := exampleUSD.Balance + 5 }
              else x)
          transactions := exampleStore.transactions ++ [
            { ID := genID exampleStore.nextID, WalletID := "w1", Amount := 5, Currency := "USD",
              TxType := .Deposit, Status := .Success, Reference := "SEED_456", GatewayRef := none,
              Provider := none, Description := some "Top up" }]
          nextID := exampleStore.nextID + 1 }) :=
  ⟨(CreditWallet_success testStore "w1" "USD" 10 "SEED_123" "Initial Deposit" .Deposit
      (by decide!) (by decide!) (by decide!) (by decide!) (by decide!)).1 (by decide!),
    (CreditWallet_success exampleStore "w1" "USD" 5 "SEED_456" "Top up" .Deposit
      (by decide!) (by decide!) (by decide!) (by decide!) (by decide!)).2 exampleUSD
      (by decide!) rfl rfl⟩

/-! ## `FundWallet` -/

/-- C6 fails at the example store: `u2` owns the wallet `w2` and holds no USD asset, the amount
10 is positive and the reference `KEY_1` is neither in the log nor locked, yet `FundWallet`
returns the not-found error of its asset lookup, changes nothing, and `u2` still holds no USD
asset. -/
theorem FundWallet_lazy_creation_counterexample :
    (∃ w ∈ exampleStore.wallets, w.UserID = "u2") ∧
      (GetAssetByCurrency exampleStore "u2" "USD").1 = none ∧
      (0 : Amount) < 10 ∧
      (∀ t ∈ exampleStore.transactions, t.Reference ≠ "KEY_1") ∧
      (∀ e ∈ emptyRedis.entries, e.key ≠ "idemp:KEY_1") ∧
      FundWallet exampleStore emptyRedis "u2" "USD" 10 "KEY_1" "fund"
        = (some .ErrNotFound, exampleStore, emptyRedis) ∧
      (GetAssetByCurrency (FundWallet exampleStore emptyRedis "u2" "USD" 10 "KEY_1" "fund").2.1
        "u2" "USD").1 = none := by
  decide!

theorem GetAssetByCurrency_of_none (db : DB) (userID currency : String)
    (h : (GetAssetByCurrency db userID currency).1 = none) :
    GetAssetByCurrency db userID currency = (none, some .ErrNotFound) := by
  rcases GetAssetByCurrency_cases db userID currency with ⟨a, ha⟩ | hn
  · rw [ha] at h
    exact absurd h (by simp)
  · exact hn

theorem filter_key_ne_self (entries : List RedisEntry) (key : String)
    (h : ∀ e ∈ entries, e.key ≠ key) : entries.filter (fun e => !(e.key == key)) = entries := by
  rw [List.filter_eq_self]
  intro e he
  simp [h e he]

/-- C6 as amended: when the user holds no asset in the currency, `FundWallet` returns an error
and leaves the ledger store unchanged, so that no asset is created; when moreover the
key/value service answers and the key `idemp:<reference>` is absent (fresh reference), the
error is the not-found error of the asset lookup and the idempotency key is released again. -/
theorem FundWallet_asset_missing (db : DB) (redis : RedisStore) (userID currency : String)
    (amount : Amount) (reference description : String)
    (hnone : (GetAssetByCurrency db userID currency).1 = none) :
    ((FundWallet db redis userID currency amount reference description).1 ≠ none ∧
        (FundWallet db redis userID currency amount reference description).2.1 = db) ∧
      (redis.available = true → (∀ e ∈ redis.entries, e.key ≠ "idemp:" ++ reference) →
        FundWallet db redis userID currency amount reference description
          = (some .ErrNotFound, db, redis)) := by
  have hget := GetAssetByCurrency_of_none db userID currency hnone
  constructor
  · unfold FundWallet
    split
    next locked _ redis1 _ =>
    cases locked <;> simp [hget]
  · intro hav hfree
    have hany : redis.entries.any (fun e => e.key == "idemp:" ++ reference) = false := by
      simp only [List.any_eq_false, beq_iff_eq]
      exact hfree
    have hfilter : (redis.entries ++
        [({ key := "idemp:" ++ reference, value := "processing", ttl := 300 } : RedisEntry)]).filter
        (fun e => !(e.key == "idemp:" ++ reference)) = redis.entries := by
      rw [List.filter_append, filter_key_ne_self _ _ hfree]
      simp
    simp only [FundWallet, TryLockIdempotencyKey, RedisStore.SetNX, hav, hany, hget,
      RedisQueue.Delete, RedisStore.Del, Bool.not_true, Bool.false_eq_true, if_false, hfilter]
    cases redis
    simp_all

/-- C6 as amended, at the example store and user `u2`, who holds no USD asset. -/
theorem FundWallet_asset_missing_witness :
    (GetAssetByCurrency exampleStore "u2" "USD").1 = none ∧
      ((FundWallet exampleStore emptyRedis "u2" "USD" 10 "KEY_1" "fund").1 ≠ none ∧
        (FundWallet exampleStore emptyRedis "u2" "USD" 10 "KEY_1" "fund").2.1 = exampleStore) ∧
      FundWallet exampleStore emptyRedis "u2" "USD" 10 "KEY_1" "fund"
        = (some .ErrNotFound, exampleStore, emptyRedis) :=
  ⟨by decide!,
    (FundWallet_asset_missing exampleStore emptyRedis "u2" "USD" 10 "KEY_1" "fund" (by decide!)).1,
    (FundWallet_asset_missing exampleStore emptyRedis "u2" "USD" 10 "KEY_1" "fund" (by decide!)).2
      rfl (by decide!)⟩

/-! ## `TransferFunds` -/

theorem execOps_cons_ok_iff (op : TxOp) (ops : List TxOp) (db db' : DB) :
    execOps (op :: ops) db = .ok db' ↔ ∃ db1, op db = .ok db1 ∧ execOps ops db1 = .ok db' := by
  simp only [execOps]
  cases h : op db with
  | error e => simp
  | ok db1 => simp

theorem execOps_nil_ok_iff (db db' : DB) : execOps [] db = .ok db' ↔ db' = db := by
  simp only [execOps, Except.ok.injEq]
  exact eq_comm

theorem map_sel_eq_replaceAsset (assets : List WalletAssetModel) (sel : WalletAssetModel → Bool)
    (f : Amount → Amount) (a : WalletAssetModel) (hsel : ∀ x ∈ assets, sel x = true ↔ x = a) :
    assets.map (fun x => if sel x then { x with Balance := f x.Balance } else x)
      = replaceAsset a { a with Balance := f a.Balance } assets := by
  unfold replaceAsset
  apply List.map_congr_left
  intro x hx
  by_cases hxa : x = a
  · have hs := (hsel x hx).mpr hxa
    subst hxa
    simp only [hs, if_true]
  · have hs : sel x = false := by
      cases h : sel x
      · rfl
      · exact absurd ((hsel x hx).mp h) hxa
    simp only [hs, hxa, if_false, Bool.false_eq_true]

theorem WalletAsset.Update_unique_ok_iff (sel : WalletAssetModel → Bool) (f : Amount → Amount)
    (db db' : DB) (a : WalletAssetModel) (hmem : a ∈ db.assets)
    (hsel : ∀ x ∈ db.assets, sel x = true ↔ x = a) :
    WalletAsset.Update sel f db = .ok db' ↔
      0 ≤ f a.Balance ∧
        db' = { db with assets := replaceAsset a { a with Balance := f a.Balance } db.assets } := by
  rw [WalletAsset.Update_ok_iff, map_sel_eq_replaceAsset db.assets sel f a hsel]
  constructor
  · intro ⟨_, hall, e⟩
    exact ⟨hall a hmem ((hsel a hmem).mpr rfl), e⟩
  · intro ⟨hnn, e⟩
    refine ⟨⟨a, hmem, (hsel a hmem).mpr rfl⟩, ?_, e⟩
    intro x hx hs
    rw [(hsel x hx).mp hs]
    exact hnn

theorem WalletAsset.DecrementByID_ok_iff (db db' : DB) (a : WalletAssetModel) (amount : Amount)
    (hmem : a ∈ db.assets) (hpk : UniqueAssetIDs db) :
    WalletAsset.DecrementByID a.ID amount db = .ok db' ↔
      0 ≤ a.Balance - amount ∧
        db' = { db with
          assets := replaceAsset a { a with Balance := a.Balance - amount } db.assets } := by
  unfold WalletAsset.DecrementByID
  apply WalletAsset.Update_unique_ok_iff _ _ _ _ _ hmem
  intro x hx
  simp only [beq_iff_eq]
  exact ⟨fun hid => hpk.eq_of_ID_eq hx hmem hid, fun h => by rw [h]⟩

theorem WalletAsset.UpsertOne_present_ok_iff (db db' : DB) (walletID currency : String)
    (amount : Amount) (old : WalletAssetModel) (hmem : old ∈ db.assets)
    (hw : old.WalletID = walletID) (hc : old.Currency = currency)
    (hkey : UniqueWalletIDCurrency db) :
    WalletAsset.UpsertOne walletID currency amount db = .ok db' ↔
      0 ≤ old.Balance + amount ∧
        db' = { db with
          assets := replaceAsset old { old with Balance := old.Balance + amount } db.assets } := by
  have hany : db.assets.any (fun a => a.WalletID == walletID && a.Currency == currency) = true := by
    simp only [List.any_eq_true, Bool.and_eq_true, beq_iff_eq]
    exact ⟨old, hmem, hw, hc⟩
  unfold WalletAsset.UpsertOne
  simp only [hany, if_true]
  unfold WalletAsset.IncrementByWalletIDCurrency
  apply WalletAsset.Update_unique_ok_iff _ _ _ _ _ hmem
  intro x hx
  simp only [Bool.and_eq_true, beq_iff_eq]
  constructor
  · intro hs
    exact hkey.eq_of_key_eq hx hmem (hs.1.trans hw.symm) (hs.2.trans hc.symm)
  · intro h
    rw [h]
    exact ⟨hw, hc⟩

theorem WalletAsset.UpsertOne_absent_ok_iff (db db' : DB) (walletID currency : String)
    (amount : Amount) (habs : ∀ x ∈ db.assets, ¬ (x.WalletID = walletID ∧ x.Currency = currency)) :
    WalletAsset.UpsertOne walletID currency amount db = .ok db' ↔
      (∃ w ∈ db.wallets, w.ID = walletID) ∧ 0 ≤ amount ∧
        db' = { db with
          assets := db.assets ++ [
            { ID := genID db.nextID
              WalletID := walletID
              Currency := currency
              Balance := amount }]
          nextID := db.nextID + 1 } := by
  have hany : db.assets.any (fun a => a.WalletID == walletID && a.Currency == currency) = false := by
    simp only [List.any_eq_false, Bool.and_eq_true, beq_iff_eq]
    exact habs
  unfold WalletAsset.UpsertOne
  simp only [hany, Bool.false_eq_true, if_false]
  by_cases hw : db.wallets.any (fun w => w.ID == walletID) = true
  · have hw' : ∃ w ∈ db.wallets, w.ID = walletID := by simpa using hw
    by_cases hv : amount < 0
    · simp only [hw, violatesNonNegativeBalance, hv, decide_True, Bool.not_true,
        Bool.false_eq_true, if_false, if_true, reduceCtorEq, false_iff, not_and]
      intro _ h0
      exact absurd h0 (not_le.mpr hv)
    · simp only [hw, violatesNonNegativeBalance, hv, decide_False, Bool.not_true,
        Bool.false_eq_true, if_false, Except.ok.injEq]
      constructor
      · intro e
        exact ⟨hw', not_lt.mp hv, e.symm⟩
      · intro ⟨_, _, e⟩
        exact e.symm
  · simp only [hw, Bool.not_false, if_true, reduceCtorEq, false_iff, not_and]
    intro hex
    simp only [List.any_eq_true, beq_iff_eq, not_exists, not_and] at hw
    obtain ⟨w, hwm, hid⟩ := hex
    exact absurd hid (hw w hwm)
theorem replaceAsset_map_ID (a a' : WalletAssetModel) (assets : List WalletAssetModel)
    (h : a'.ID = a.ID) : (replaceAsset a a' assets).map (fun x => x.ID) = assets.map (fun x => x.ID) := by
  unfold replaceAsset
  rw [List.map_map]
  apply List.map_congr_left
  intro x _
  by_cases hxa : x = a
  · simp only [Function.comp, hxa, if_true, h]
  · simp only [Function.comp, hxa, if_false]

theorem replaceAsset_map_key (a a' : WalletAssetModel) (assets : List WalletAssetModel)
    (hw : a'.WalletID = a.WalletID) (hc : a'.Currency = a.Currency) :
    (replaceAsset a a' assets).map (fun x => (x.WalletID, x.Currency))
      = assets.map (fun x => (x.WalletID, x.Currency)) := by
  unfold replaceAsset
  rw [List.map_map]
  apply List.map_congr_left
  intro x _
  by_cases hxa : x = a
  · simp only [Function.comp, hxa, if_true, hw, hc]
  · simp only [Function.comp, hxa, if_false]

theorem mem_replaceAsset_of_ne (a a' x : WalletAssetModel) (assets : List WalletAssetModel)
    (hx : x ∈ assets) (hne : x ≠ a) : x ∈ replaceAsset a a' assets := by
  unfold replaceAsset
  rw [List.mem_map]
  exact ⟨x, hx, by simp only [hne, if_false]⟩

theorem replaceAsset_of_not_mem (a a' : WalletAssetModel) (assets : List WalletAssetModel)
    (h : a ∉ assets) : replaceAsset a a' assets = assets := by
  unfold replaceAsset
  conv_rhs => rw [← List.map_id assets]
  apply List.map_congr_left
  intro x hx
  have : x ≠ a := fun e => h (e ▸ hx)
  simp only [this, if_false, id]

theorem sum_replaceAsset (g : WalletAssetModel → Amount) (a a' : WalletAssetModel)
    (assets : List WalletAssetModel) (hnd : assets.Nodup) (hmem : a ∈ assets) :
    ((replaceAsset a a' assets).map g).sum = (assets.map g).sum + (g a' - g a) := by
  induction assets with
  | nil => exact absurd hmem (List.not_mem_nil a)
  | cons x xs ih =>
    rw [List.nodup_cons] at hnd
    by_cases hxa : x = a
    · subst hxa
      have : replaceAsset x a' (x :: xs) = a' :: xs := by
        have h2 := replaceAsset_of_not_mem x a' xs hnd.1
        unfold replaceAsset at h2 ⊢
        simp only [List.map_cons, if_true, h2]
      rw [this]
      simp only [List.map_cons, List.sum_cons]
      ring
    · have hmem' : a ∈ xs := by
        rcases List.mem_cons.mp hmem with h | h
        · exact absurd h.symm hxa
        · exact h
      have h2 := ih hnd.2 hmem'
      unfold replaceAsset at h2 ⊢
      simp only [List.map_cons, hxa, if_false, List.sum_cons, h2]
      ring

theorem totalBalance_replaceAsset (db : DB) (a : WalletAssetModel) (b : Amount)
    (currency : String) (hpk : UniqueAssetIDs db) (hmem : a ∈ db.assets)
    (hc : a.Currency = currency) :
    totalBalance { db with assets := replaceAsset a { a with Balance := b } db.assets } currency
      = totalBalance db currency + (b - a.Balance) := by
  unfold totalBalance
  simp only
  rw [sum_replaceAsset _ a _ db.assets (List.Nodup.of_map _ hpk) hmem]
  simp only [hc, if_true]
theorem GetWalletByAccountNumber_mem (db : DB) (accountNumber : String) (w : WalletModel)
    (h : (GetWalletByAccountNumber db accountNumber).1 = some w) :
    w ∈ db.wallets ∧ w.AccountNumber = accountNumber := by
  unfold GetWalletByAccountNumber at h
  split at h
  · next w' hf =>
    simp only [Option.some.injEq] at h
    subst h
    have hp := List.find?_some hf
    simp only [beq_iff_eq] at hp
    exact ⟨List.mem_of_find?_eq_some hf, hp⟩
  · exact absurd h (by simp)

theorem TransferFunds_inv (db : DB) (fromUserID toAccountNumber currency : String)
    (amount : Amount) (reference descSender descReceiver : String) :
    (∃ sender receiverWallet db',
        (GetAssetByCurrency db fromUserID currency).1 = some sender ∧
        (GetWalletByAccountNumber db toAccountNumber).1 = some receiverWallet ∧
        receiverWallet.UserID ≠ fromUserID ∧
        execOps
          [WalletAsset.DecrementByID sender.ID amount,
           WalletAsset.UpsertOne receiverWallet.ID currency amount,
           Transaction.CreateOne sender.WalletID amount currency .Transfer
            (reference ++ "-DEBIT") .Success none none (some descSender),
           Transaction.CreateOne receiverWallet.ID amount currency .Transfer
            (reference ++ "-CREDIT") .Success none none (some descReceiver)] db = .ok db' ∧
        TransferFunds db fromUserID toAccountNumber currency amount reference descSender
          descReceiver = (none, db')) ∨
      ((TransferFunds db fromUserID toAccountNumber currency amount reference descSender
          descReceiver).1 ≠ none ∧
        (TransferFunds db fromUserID toAccountNumber currency amount reference descSender
          descReceiver).2 = db) := by
  unfold TransferFunds
  split
  · next sender hs =>
    split
    · next receiverWallet hr =>
      by_cases hself : receiverWallet.UserID = fromUserID
      · right
        simp [hself]
      · have hself' : (receiverWallet.UserID == fromUserID) = false := by simpa using hself
        simp only [hself', Bool.false_eq_true, if_false]
        cases hexec : execOps
          [WalletAsset.DecrementByID sender.ID amount,
           WalletAsset.UpsertOne receiverWallet.ID currency amount,
           Transaction.CreateOne sender.WalletID amount currency .Transfer
            (reference ++ "-DEBIT") .Success none none (some descSender),
           Transaction.CreateOne receiverWallet.ID amount currency .Transfer
            (reference ++ "-CREDIT") .Success none none (some descReceiver)] db with
        | error e =>
          right
          rw [Prisma.Transaction_of_error _ _ e hexec]
          simp only
          split <;> simp
        | ok db' =>
          left
          rw [Prisma.Transaction_of_ok _ _ db' hexec]
          exact ⟨sender, receiverWallet, db', by rw [hs], by rw [hr], hself, hexec, rfl⟩
    · right
      simp
  · right
    simp

/-- In exact arithmetic, amounts and balances being rationals that the store does not round:
in a store that satisfies its key constraints, every call of `TransferFunds` either
returns `nil`, the sender's asset being decreased by exactly `amount`, the receiver's asset in
the currency being increased by exactly `amount` (or created with balance `amount` if absent)
and exactly two `Transaction` rows being appended, with references `reference-DEBIT` on the
sender's wallet and `reference-CREDIT` on the receiver's wallet, nothing else being changed;
or it returns an error and leaves the store unchanged. In both cases the sum of all balances
in the currency is unchanged. -/
theorem TransferFunds_atomic (db : DB) (fromUserID toAccountNumber currency : String)
    (amount : Amount) (reference descSender descReceiver : String)
    (hpk : UniqueAssetIDs db) (hkey : UniqueWalletIDCurrency db) (hwid : UniqueWalletIDs db) :
    (((TransferFunds db fromUserID toAccountNumber currency amount reference descSender
          descReceiver).1 = none ∧
        ∃ sender receiverWallet id1 id2,
          (GetAssetByCurrency db fromUserID currency).1 = some sender ∧
          (GetWalletByAccountNumber db toAccountNumber).1 = some receiverWallet ∧
          (TransferFunds db fromUserID toAccountNumber currency amount reference descSender
            descReceiver).2.users = db.users ∧
          (TransferFunds db fromUserID toAccountNumber currency amount reference descSender
            descReceiver).2.wallets = db.wallets ∧
          (TransferFunds db fromUserID toAccountNumber currency amount reference descSender
            descReceiver).2.transactions = db.transactions ++ [
              { ID := id1
                WalletID := sender.WalletID
                Amount := amount
                Currency := currency
                TxType := .Transfer
                Status := .Success
                Reference := reference ++ "-DEBIT"
                GatewayRef := none
                Provider := none
                Description := some descSender },
              { ID := id2
                WalletID := receiverWallet.ID
                Amount := amount
                Currency := currency
                TxType := .Transfer
                Status := .Success
                Reference := reference ++ "-CREDIT"
                GatewayRef := none
                Provider := none
                Description := some descReceiver }] ∧
          ((∃ old ∈ db.assets, old.WalletID = receiverWallet.ID ∧ old.Currency = currency ∧
              old ≠ sender ∧
              (TransferFunds db fromUserID toAccountNumber currency amount reference descSender
                descReceiver).2.assets =
                replaceAsset old { old with Balance := old.Balance + amount }
                  (replaceAsset sender { sender with Balance := sender.Balance - amount } db.assets)) ∨
            ((∀ x ∈ db.assets, ¬ (x.WalletID = receiverWallet.ID ∧ x.Currency = currency)) ∧
              (TransferFunds db fromUserID toAccountNumber currency amount reference descSender
                descReceiver).2.assets =
                replaceAsset sender { sender with Balance := sender.Balance - amount } db.assets ++ [
                  { ID := genID db.nextID
                    WalletID := receiverWallet.ID
                    Currency := currency
                    Balance := amount }]))) ∨
      ((TransferFunds db fromUserID toAccountNumber currency amount reference descSender
          descReceiver).1 ≠ none ∧
        (TransferFunds db fromUserID toAccountNumber currency amount reference descSender
          descReceiver).2 = db)) ∧
      totalBalance (TransferFunds db fromUserID toAccountNumber currency amount reference descSender
        descReceiver).2 currency = totalBalance db currency := by
  rcases TransferFunds_inv db fromUserID toAccountNumber currency amount reference descSender
    descReceiver with ⟨sender, rw, db', hs, hr, hself, hexec, hres⟩ | ⟨herr, hsame⟩
  · -- the batch committed
    obtain ⟨hsmem, hscur, w, hwmem, hwid', hwuser⟩ :=
      GetAssetByCurrency_wallet db fromUserID currency sender hs
    obtain ⟨hrmem, _⟩ := GetWalletByAccountNumber_mem db toAccountNumber rw hr
    have hne : sender.WalletID ≠ rw.ID := by
      intro e
      have : w = rw := List.inj_on_of_nodup_map hwid hwmem hrmem (hwid'.trans e)
      exact hself (this ▸ hwuser)
    rw [execOps_cons_ok_iff] at hexec
    obtain ⟨db1, h1, hexec⟩ := hexec
    rw [execOps_cons_ok_iff] at hexec
    obtain ⟨db2, h2, hexec⟩ := hexec
    rw [execOps_cons_ok_iff] at hexec
    obtain ⟨db3, h3, hexec⟩ := hexec
    rw [execOps_cons_ok_iff] at hexec
    obtain ⟨db4, h4, hexec⟩ := hexec
    rw [execOps_nil_ok_iff] at hexec
    subst hexec
    obtain ⟨_, e1⟩ := (WalletAsset.DecrementByID_ok_iff db db1 sender amount hsmem hpk).mp h1
    obtain ⟨_, _, e3⟩ := (Transaction.CreateOne_ok_iff _ _ _ _ _ _ _ _ _ _ _).mp h3
    obtain ⟨_, _, e4⟩ := (Transaction.CreateOne_ok_iff _ _ _ _ _ _ _ _ _ _ _).mp h4
    have hpk1 : UniqueAssetIDs db1 := by
      unfold UniqueAssetIDs
      rw [e1]
      simp only
      rw [replaceAsset_map_ID sender { sender with Balance := sender.Balance - amount } db.assets rfl]
      exact hpk
    have hkey1 : UniqueWalletIDCurrency db1 := by
      unfold UniqueWalletIDCurrency
      rw [e1]
      simp only
      rw [replaceAsset_map_key sender { sender with Balance := sender.Balance - amount } db.assets
        rfl rfl]
      exact hkey
    have htot1 : totalBalance db1 currency = totalBalance db currency + (sender.Balance - amount - sender.Balance) := by
      rw [e1]
      exact totalBalance_replaceAsset db sender _ currency hpk hsmem hscur
    have htot43 : totalBalance db' currency = totalBalance db2 currency := by
      rw [e4, e3]
      rfl
    rw [hres]
    by_cases hex : ∃ old ∈ db.assets, old.WalletID = rw.ID ∧ old.Currency = currency
    · obtain ⟨old, homem, hokey, hocur⟩ := hex
      have hos : old ≠ sender := fun e => hne (e ▸ hokey)
      have homem1 : old ∈ db1.assets := by
        rw [e1]
        exact mem_replaceAsset_of_ne _ _ _ _ homem hos
      obtain ⟨_, e2⟩ := (WalletAsset.UpsertOne_present_ok_iff db1 db2 rw.ID currency amount old
        homem1 hokey hocur hkey1).mp h2
      have htot2 : totalBalance db2 currency = totalBalance db1 currency + (old.Balance + amount - old.Balance) := by
        rw [e2]
        exact totalBalance_replaceAsset db1 old _ currency hpk1 homem1 hocur
      refine ⟨Or.inl ⟨rfl, sender, rw, genID db2.nextID, genID db3.nextID, hs, hr, ?_, ?_, ?_, ?_⟩, ?_⟩
      · rw [e4, e3, e2, e1]
      · rw [e4, e3, e2, e1]
      · rw [e4, e3]
        simp only [List.append_assoc, List.singleton_append]
        rw [e2, e1]
      · left
        refine ⟨old, homem, hokey, hocur, hos, ?_⟩
        rw [e4, e3, e2, e1]
      · simp only
        rw [htot43, htot2, htot1]
        ring
    · have habs : ∀ x ∈ db.assets, ¬ (x.WalletID = rw.ID ∧ x.Currency = currency) := by
        intro x hx hk
        exact hex ⟨x, hx, hk.1, hk.2⟩
      have habs1 : ∀ x ∈ db1.assets, ¬ (x.WalletID = rw.ID ∧ x.Currency = currency) := by
        intro x hx hk
        rw [e1] at hx
        simp only [replaceAsset, List.mem_map] at hx
        obtain ⟨y, hy, hxy⟩ := hx
        by_cases hys : y = sender
        · simp only [hys, if_true] at hxy
          rw [← hxy] at hk
          exact hne hk.1
        · simp only [hys, if_false] at hxy
          exact habs y hy (hxy ▸ hk)
      obtain ⟨_, _, e2⟩ := (WalletAsset.UpsertOne_absent_ok_iff db1 db2 rw.ID currency amount
        habs1).mp h2
      have htot2 : totalBalance db2 currency = totalBalance db1 currency + amount := by
        rw [e2]
        simp only [totalBalance, List.map_append, List.sum_append, List.map_cons, List.map_nil,
          List.sum_cons, List.sum_nil, if_true, add_zero]
      refine ⟨Or.inl ⟨rfl, sender, rw, genID db2.nextID, genID db3.nextID, hs, hr, ?_, ?_, ?_, ?_⟩, ?_⟩
      · rw [e4, e3, e2, e1]
      · rw [e4, e3, e2, e1]
      · rw [e4, e3]
        simp only [List.append_assoc, List.singleton_append]
        rw [e2, e1]
      · right
        refine ⟨habs, ?_⟩
        rw [e4, e3, e2, e1]
      · simp only
        rw [htot43, htot2, htot1]
        ring
  · exact ⟨Or.inr ⟨herr, hsame⟩, by rw [hsame]⟩

/-- At the example store, a transfer of 5 USD from `u1` to the account of `u2` commits and
creates the receiver's USD asset, a transfer of 50 USD is rejected by the store and changes
nothing, and the USD total is unchanged. -/
theorem TransferFunds_atomic_witness :
    UniqueAssetIDs exampleStore ∧ UniqueWalletIDCurrency exampleStore ∧ UniqueWalletIDs exampleStore ∧
      (TransferFunds exampleStore "u1" "1000000002" "USD" 5 "T1" "Transfer to Other"
        "Received from Safety Test").1 = none ∧
      (TransferFunds exampleStore "u1" "1000000002" "USD" 5 "T1" "Transfer to Other"
        "Received from Safety Test").2.assets.map (fun a => (a.WalletID, a.Currency, a.Balance))
        = [("w1", "NGN", 0), ("w2", "NGN", 0), ("w1", "USD", 5), ("w2", "USD", 5)] ∧
      (TransferFunds exampleStore "u1" "1000000002" "USD" 5 "T1" "Transfer to Other"
        "Received from Safety Test").2.transactions.map (fun t => (t.WalletID, t.Reference))
        = [("w1", "SEED_123"), ("w1", "T1-DEBIT"), ("w2", "T1-CREDIT")] ∧
      TransferFunds exampleStore "u1" "1000000002" "USD" 50 "T2" "Transfer to Other"
        "Received from Safety Test"
        = (some (.Errorf "insufficient funds (race condition)"), exampleStore) ∧
      totalBalance (TransferFunds exampleStore "u1" "1000000002" "USD" 5 "T1" "Transfer to Other"
        "Received from Safety Test").2 "USD" = totalBalance exampleStore "USD" :=
  ⟨by decide!, by decide!, by decide!, by decide!, by decide!, by decide!, by decide!,
    (TransferFunds_atomic exampleStore "u1" "1000000002" "USD" 5 "T1" "Transfer to Other"
      "Received from Safety Test" (by decide!) (by decide!) (by decide!)).2⟩

/-- C8: when the sender holds an asset in the currency, `TransferFunds` returns the error
`recipient not found` if the account number resolves to no wallet, and the error
`cannot transfer to self` if the resolved wallet belongs to the sender; in both cases the store
is left unchanged (no balance changes, no `Transaction` row is added). -/
theorem TransferFunds_recipient_errors (db : DB) (fromUserID toAccountNumber currency : String)
    (amount : Amount) (reference descSender descReceiver : String) (sender : WalletAssetModel)
    (hs : (GetAssetByCurrency db fromUserID currency).1 = some sender) :
    ((GetWalletByAccountNumber db toAccountNumber).1 = none →
        TransferFunds db fromUserID toAccountNumber currency amount reference descSender descReceiver
          = (some (.Errorf "recipient not found"), db)) ∧
      (∀ w, (GetWalletByAccountNumber db toAccountNumber).1 = some w → w.UserID = fromUserID →
        TransferFunds db fromUserID toAccountNumber currency amount reference descSender descReceiver
          = (some (.Errorf "cannot transfer to self"), db)) := by
  have hfull := GetAssetByCurrency_full db fromUserID currency sender hs
  constructor
  · intro hnone
    have hw : GetWalletByAccountNumber db toAccountNumber = (none, some .ErrNotFound) := by
      unfold GetWalletByAccountNumber at hnone ⊢
      split at hnone
      · exact absurd hnone (by simp)
      · rfl
    simp only [TransferFunds, hfull, hw]
  · intro w hsome hself
    have hw : GetWalletByAccountNumber db toAccountNumber = (some w, none) := by
      unfold GetWalletByAccountNumber at hsome ⊢
      split at hsome
      · simp only [Option.some.injEq] at hsome
        rw [hsome]
      · exact absurd hsome (by simp)
    simp only [TransferFunds, hfull, hw, hself, beq_self_eq_true, if_true]

/-- C8 at the example store: `u1` holds USD; no wallet has the account number `9999999999`, and
`1000000001` is the account of `u1` itself. -/
theorem TransferFunds_recipient_errors_witness :
    (GetAssetByCurrency exampleStore "u1" "USD").1 = some exampleUSD ∧
      (GetWalletByAccountNumber exampleStore "9999999999").1 = none ∧
      TransferFunds exampleStore "u1" "9999999999" "USD" 5 "T1" "to" "from"
        = (some (.Errorf "recipient not found"), exampleStore) ∧
      TransferFunds exampleStore "u1" "1000000001" "USD" 5 "T1" "to" "from"
        = (some (.Errorf "cannot transfer to self"), exampleStore) :=
  ⟨by decide!, by decide!,
    (TransferFunds_recipient_errors exampleStore "u1" "9999999999" "USD" 5 "T1" "to" "from"
      exampleUSD (by decide!)).1 (by decide!),
    (TransferFunds_recipient_errors exampleStore "u1" "1000000001" "USD" 5 "T1" "to" "from"
      exampleUSD (by decide!)).2 { ID := "w1", UserID := "u1", AccountNumber := "1000000001" }
      (by decide!) rfl⟩

/-! ## `SwapFunds` -/

/-- C9 fails at two inputs for which the source asset exists and covers the source amount.
In `swappedStore` `u1` holds 7 USD, yet a swap of 3 USD under the reference `S1`, whose rows
are already in the log, returns the store's unique-constraint error and changes nothing. In
the example store `u1` holds 10 USD, yet a swap of 3 USD for an amount out of -1 NGN is
rejected by the check constraint and changes nothing. -/
theorem SwapFunds_otherwise_counterexample :
    ((GetAssetByCurrency swappedStore "u1" "USD").1
        = some { ID := "3", WalletID := "w1", Currency := "USD", Balance := 7 } ∧
      ¬ ((7 : Amount) < 3) ∧
      SwapFunds swappedStore "u1" "USD" "NGN" 3 4500 "S1" "Swap USD to NGN @ 1500.000000"
        = (some (.UniqueConstraint "reference"), swappedStore)) ∧
    ((GetAssetByCurrency exampleStore "u1" "USD").1 = some exampleUSD ∧
      ¬ (exampleUSD.Balance < 3) ∧
      SwapFunds exampleStore "u1" "USD" "NGN" 3 (-1) "S2" "Swap USD to NGN @ -0.333333"
        = (some (.Errorf "insufficient funds (race condition)"), exampleStore)) := by
  decide!

theorem append_suffix_ne (r s t : String) (h : s ≠ t) : r ++ s ≠ r ++ t := by
  intro e
  apply h
  have := congrArg String.data e
  simp only [String.data_append, List.append_cancel_left_eq] at this
  exact String.ext this

/-- C9 as amended. `SwapFunds` returns the error `insufficient funds: source wallet not found`
when the source asset is missing and the error `insufficient balance` when its balance is below
`sourceAmount`, and changes nothing in both cases. Otherwise, when neither `reference-OUT` nor
`reference-IN` is in the log, `amountOut ≥ 0` and the store satisfies its constraints, it
returns `nil` and appends exactly two success rows of type swap, `reference-OUT`
(`sourceAmount`, source currency) and `reference-IN` (`amountOut`, destination currency); when
moreover the difference and the sum below are values of a `float64`, so that the store computes
them without rounding, the source asset is decreased by exactly `sourceAmount` and then the
asset of the same wallet in the destination currency is increased by exactly `amountOut` (or
created with balance `amountOut`). Whenever `SwapFunds` returns an error, in particular when
the store rejects the batch, the store is left as it was. -/
theorem SwapFunds_effects (db : DB) (userID fromCurrency toCurrency : String)
    (sourceAmount amountOut : Amount) (reference description : String) :
    ((GetAssetByCurrency db userID fromCurrency).1 = none →
        SwapFunds db userID fromCurrency toCurrency sourceAmount amountOut reference description
          = (some (.Errorf "insufficient funds: source wallet not found"), db)) ∧
      (∀ source, (GetAssetByCurrency db userID fromCurrency).1 = some source →
        source.Balance < sourceAmount →
        SwapFunds db userID fromCurrency toCurrency sourceAmount amountOut reference description
          = (some (.Errorf "insufficient balance"), db)) ∧
      (∀ source, (GetAssetByCurrency db userID fromCurrency).1 = some source →
        sourceAmount ≤ source.Balance → 0 ≤ amountOut →
        isFloat64 (source.Balance - sourceAmount) = true →
        (∀ x ∈ replaceAsset source { source with Balance := source.Balance - sourceAmount }
            db.assets,
          x.WalletID = source.WalletID → x.Currency = toCurrency →
          isFloat64 (x.Balance + amountOut) = true) →
        (∀ t ∈ db.transactions,
          t.Reference ≠ reference ++ "-OUT" ∧ t.Reference ≠ reference ++ "-IN") →
        NonNegativeBalances db → UniqueAssetIDs db → UniqueWalletIDCurrency db →
        (SwapFunds db userID fromCurrency toCurrency sourceAmount amountOut reference
            description).1 = none ∧
          (SwapFunds db userID fromCurrency toCurrency sourceAmount amountOut reference
            description).2.users = db.users ∧
          (SwapFunds db userID fromCurrency toCurrency sourceAmount amountOut reference
            description).2.wallets = db.wallets ∧
          (∃ id1 id2,
            (SwapFunds db userID fromCurrency toCurrency sourceAmount amountOut reference
              description).2.transactions = db.transactions ++ [
                { ID := id1
                  WalletID := source.WalletID
                  Amount := sourceAmount
                  Currency := fromCurrency
                  TxType := .Swap
                  Status := .Success
                  Reference := reference ++ "-OUT"
                  GatewayRef := none
                  Provider := none
                  Description := some description },
                { ID := id2
                  WalletID := source.WalletID
                  Amount := amountOut
                  Currency := toCurrency
                  TxType := .Swap
                  Status := .Success
                  Reference := reference ++ "-IN"
                  GatewayRef := none
                  Provider := none
                  Description := some description }]) ∧
          ((∃ old ∈ replaceAsset source { source with Balance := source.Balance - sourceAmount }
                db.assets,
              old.WalletID = source.WalletID ∧ old.Currency = toCurrency ∧
              (SwapFunds db userID fromCurrency toCurrency sourceAmount amountOut reference
                description).2.assets =
                replaceAsset old { old with Balance := old.Balance + amountOut }
                  (replaceAsset source { source with Balance := source.Balance - sourceAmount }
                    db.assets)) ∨
            ((∀ x ∈ db.assets, ¬ (x.WalletID = source.WalletID ∧ x.Currency = toCurrency)) ∧
              (SwapFunds db userID fromCurrency toCurrency sourceAmount amountOut reference
                description).2.assets =
                replaceAsset source { source with Balance := source.Balance - sourceAmount }
                  db.assets ++ [
                  { ID := genID db.nextID
                    WalletID := source.WalletID
                    Currency := toCurrency
                    Balance := amountOut }]))) ∧
      ((SwapFunds db userID fromCurrency toCurrency sourceAmount amountOut reference
          description).1 ≠ none →
        (SwapFunds db userID fromCurrency toCurrency sourceAmount amountOut reference
          description).2 = db) := by
  refine ⟨?_, ?_, ?_, ?_⟩
  rotate_left 3
  · intro herr
    rcases GetAssetByCurrency_cases db userID fromCurrency with ⟨a, ha⟩ | hn
    · by_cases hlt : a.Balance < sourceAmount
      · simp only [SwapFunds, ha, hlt, if_true]
      · have hkeep := Prisma.Transaction_snd_of_isSome
          [WalletAsset.DecrementByID a.ID sourceAmount,
            WalletAsset.UpsertOne a.WalletID toCurrency amountOut,
            Transaction.CreateOne a.WalletID sourceAmount fromCurrency .Swap (reference ++ "-OUT")
              .Success none none (some description),
            Transaction.CreateOne a.WalletID amountOut toCurrency .Swap (reference ++ "-IN")
              .Success none none (some description)] db
        simp only [SwapFunds, ha, hlt, if_false] at herr ⊢
        generalize Prisma.Transaction _ db = res at herr hkeep ⊢
        rcases res with ⟨_ | err, db'⟩
        · exact absurd rfl herr
        · have hdb : db' = db := hkeep (by simp)
          subst hdb
          simp only
          split <;> rfl
    · simp only [SwapFunds, hn]
  · intro hnone
    simp only [SwapFunds, GetAssetByCurrency_of_none db userID fromCurrency hnone]
  · intro source hs hlt
    simp only [SwapFunds, GetAssetByCurrency_full db userID fromCurrency source hs, hlt, if_true]
  · intro source hs hge hout _ _ href hnn hpk hkey
    obtain ⟨hsmem, _, w, hwmem, hwid, _⟩ := GetAssetByCurrency_wallet db userID fromCurrency source hs
    have hne : reference ++ "-OUT" ≠ reference ++ "-IN" :=
      append_suffix_ne reference "-OUT" "-IN" (by decide)
    have hfull := GetAssetByCurrency_full db userID fromCurrency source hs
    -- the store after the debit of the source asset
    obtain ⟨db1, e1⟩ : ∃ db1 : DB, db1 = { db with
        assets := replaceAsset source { source with Balance := source.Balance - sourceAmount }
          db.assets } := ⟨_, rfl⟩
    have h1 : WalletAsset.DecrementByID source.ID sourceAmount db = .ok db1 :=
      (WalletAsset.DecrementByID_ok_iff db db1 source sourceAmount hsmem hpk).mpr
        ⟨by linarith, e1⟩
    have hnn1 : NonNegativeBalances db1 := WalletAsset.Update_keeps_nonneg _ _ db db1 hnn h1
    have hkey1 : UniqueWalletIDCurrency db1 := by
      unfold UniqueWalletIDCurrency
      rw [e1]
      simp only
      rw [replaceAsset_map_key source { source with Balance := source.Balance - sourceAmount }
        db.assets rfl rfl]
      exact hkey
    have hwal1 : ∃ w ∈ db1.wallets, w.ID = source.WalletID := by
      rw [e1]
      exact ⟨w, hwmem, hwid⟩
    -- the store after the credit of the destination asset
    have hstep2 : ∃ db2, WalletAsset.UpsertOne source.WalletID toCurrency amountOut db1 = .ok db2 ∧
        db2.users = db.users ∧ db2.wallets = db.wallets ∧ db2.transactions = db.transactions ∧
        ((∃ old ∈ replaceAsset source { source with Balance := source.Balance - sourceAmount }
              db.assets,
            old.WalletID = source.WalletID ∧ old.Currency = toCurrency ∧
            db2.assets = replaceAsset old { old with Balance := old.Balance + amountOut }
              (replaceAsset source { source with Balance := source.Balance - sourceAmount }
                db.assets)) ∨
          ((∀ x ∈ db.assets, ¬ (x.WalletID = source.WalletID ∧ x.Currency = toCurrency)) ∧
            db2.assets = replaceAsset source { source with Balance := source.Balance - sourceAmount }
              db.assets ++ [
              { ID := genID db.nextID
                WalletID := source.WalletID
                Currency := toCurrency
                Balance := amountOut }])) := by
      by_cases hex : ∃ old ∈ db1.assets, old.WalletID = source.WalletID ∧ old.Currency = toCurrency
      · obtain ⟨old, homem, hokey, hocur⟩ := hex
        refine ⟨_, (WalletAsset.UpsertOne_present_ok_iff db1 _ source.WalletID toCurrency amountOut
          old homem hokey hocur hkey1).mpr ⟨add_nonneg (hnn1 old homem) hout, rfl⟩, ?_, ?_, ?_, ?_⟩
        · rw [e1]
        · rw [e1]
        · rw [e1]
        · left
          refine ⟨old, ?_, hokey, hocur, ?_⟩
          · rw [e1] at homem
            exact homem
          · rw [e1]
      · have habs1 : ∀ x ∈ db1.assets, ¬ (x.WalletID = source.WalletID ∧ x.Currency = toCurrency) := by
          intro x hx hk
          exact hex ⟨x, hx, hk.1, hk.2⟩
        have habs : ∀ x ∈ db.assets, ¬ (x.WalletID = source.WalletID ∧ x.Currency = toCurrency) := by
          intro x hx hk
          by_cases hxs : x = source
          · apply habs1 { source with Balance := source.Balance - sourceAmount }
            · rw [e1]
              simp only [replaceAsset, List.mem_map]
              exact ⟨source, hsmem, by simp only [if_true]⟩
            · rw [hxs] at hk
              exact hk
          · apply habs1 x _ hk
            rw [e1]
            exact mem_replaceAsset_of_ne _ _ _ _ hx hxs
        refine ⟨_, (WalletAsset.UpsertOne_absent_ok_iff db1 _ source.WalletID toCurrency amountOut
          habs1).mpr ⟨hwal1, hout, rfl⟩, ?_, ?_, ?_, ?_⟩
        · rw [e1]
        · rw [e1]
        · rw [e1]
        · right
          refine ⟨habs, ?_⟩
          rw [e1]
    obtain ⟨db2, h2, hu2, hw2, ht2, ha2⟩ := hstep2
    -- the two rows of the log
    have hwal2 : ∃ w ∈ db2.wallets, w.ID = source.WalletID := by
      rw [hw2]
      exact ⟨w, hwmem, hwid⟩
    have href2 : ∀ t ∈ db2.transactions, t.Reference ≠ reference ++ "-OUT" := by
      rw [ht2]
      exact fun t ht => (href t ht).1
    obtain ⟨db3, e3⟩ : ∃ db3 : DB, db3 = { db2 with
        transactions := db2.transactions ++ [
          { ID := genID db2.nextID
            WalletID := source.WalletID
            Amount := sourceAmount
            Currency := fromCurrency
            TxType := .Swap
            Status := .Success
            Reference := reference ++ "-OUT"
            GatewayRef := none
            Provider := none
            Description := some description }]
        nextID := db2.nextID + 1 } := ⟨_, rfl⟩
    have h3 : Transaction.CreateOne source.WalletID sourceAmount fromCurrency .Swap
        (reference ++ "-OUT") .Success none none (some description) db2 = .ok db3 :=
      (Transaction.CreateOne_ok_iff _ _ _ _ _ _ _ _ _ db2 db3).mpr ⟨hwal2, href2, e3⟩
    have hwal3 : ∃ w ∈ db3.wallets, w.ID = source.WalletID := by
      rw [e3]
      exact hwal2
    have href3 : ∀ t ∈ db3.transactions, t.Reference ≠ reference ++ "-IN" := by
      rw [e3]
      intro t ht
      simp only [List.mem_append, List.mem_singleton] at ht
      rcases ht with ht | rfl
      · rw [ht2] at ht
        exact (href t ht).2
      · exact hne
    obtain ⟨db4, e4⟩ : ∃ db4 : DB, db4 = { db3 with
        transactions := db3.transactions ++ [
          { ID := genID db3.nextID
            WalletID := source.WalletID
            Amount := amountOut
            Currency := toCurrency
            TxType := .Swap
            Status := .Success
            Reference := reference ++ "-IN"
            GatewayRef := none
            Provider := none
            Description := some description }]
        nextID := db3.nextID + 1 } := ⟨_, rfl⟩
    have h4 : Transaction.CreateOne source.WalletID amountOut toCurrency .Swap
        (reference ++ "-IN") .Success none none (some description) db3 = .ok db4 :=
      (Transaction.CreateOne_ok_iff _ _ _ _ _ _ _ _ _ db3 db4).mpr ⟨hwal3, href3, e4⟩
    have hres : SwapFunds db userID fromCurrency toCurrency sourceAmount amountOut reference
        description = (none, db4) := by
      simp only [SwapFunds, hfull, not_lt.mpr hge, if_false]
      rw [Prisma.Transaction_of_ok _ _ db4 (by simp only [execOps, h1, h2, h3, h4])]
    rw [hres]
    refine ⟨rfl, ?_, ?_, ⟨genID db2.nextID, genID db3.nextID, ?_⟩, ?_⟩
    · rw [e4, e3]
      exact hu2
    · rw [e4, e3]
      exact hw2
    · rw [e4, e3]
      simp only [List.append_assoc, List.singleton_append]
      rw [ht2]
    · rw [e4, e3]
      exact ha2

/-- C9 as amended, at the example store: `u2` holds no USD, `u1` holds 10 USD, which do not
cover 50 and do cover 3; the swap of 3 USD for 4500 NGN commits, and the same swap repeated
with the reference `S1` returns an error and leaves the store as it was. -/
theorem SwapFunds_effects_witness :
    SwapFunds exampleStore "u2" "USD" "NGN" 3 4500 "S1" "Swap USD to NGN @ 1500.000000"
        = (some (.Errorf "insufficient funds: source wallet not found"), exampleStore) ∧
      SwapFunds exampleStore "u1" "USD" "NGN" 50 75000 "S1" "Swap USD to NGN @ 1500.000000"
        = (some (.Errorf "insufficient balance"), exampleStore) ∧
      (SwapFunds exampleStore "u1" "USD" "NGN" 3 4500 "S1" "Swap USD to NGN @ 1500.000000").1
        = none ∧
      swappedStore.assets.map (fun a => (a.WalletID, a.Currency, a.Balance))
        = [("w1", "NGN", 4500), ("w2", "NGN", 0), ("w1", "USD", 7)] ∧
      swappedStore.transactions.map (fun t => (t.Reference, t.Amount, t.Currency, t.Status))
        = [("SEED_123", 10, "USD", .Success), ("S1-OUT", 3, "USD", .Success),
            ("S1-IN", 4500, "NGN", .Success)] ∧
      (SwapFunds swappedStore "u1" "USD" "NGN" 3 4500 "S1" "Swap USD to NGN @ 1500.000000").2
        = swappedStore :=
  ⟨(SwapFunds_effects exampleStore "u2" "USD" "NGN" 3 4500 "S1"
      "Swap USD to NGN @ 1500.000000").1 (by decide!),
    (SwapFunds_effects exampleStore "u1" "USD" "NGN" 50 75000 "S1"
      "Swap USD to NGN @ 1500.000000").2.1 exampleUSD (by decide!) (by decide!),
    ((SwapFunds_effects exampleStore "u1" "USD" "NGN" 3 4500 "S1"
      "Swap USD to NGN @ 1500.000000").2.2.1 exampleUSD (by decide!) (by decide!) (by decide!)
      (by decide!) (by decide!) (by decide!) (by decide!) (by decide!) (by decide!)).1,
    by decide!, by decide!,
    (SwapFunds_effects swappedStore "u1" "USD" "NGN" 3 4500 "S1"
      "Swap USD to NGN @ 1500.000000").2.2.2 (by decide!)⟩

/-! ## `RefundWithdrawal` -/

/-- C10 fails at `drainedStore`, which two `DebitForWithdrawal` calls reach from the example
store: the withdrawal with gateway reference `TRF_NEG` is pending, with amount -5, and the
asset of its wallet and currency holds 0 USD; `RefundWithdrawal` does not return success, does
not change the balance and does not set the status to failed: the store rejects the increment
by -5 and the store's error is returned. -/
theorem RefundWithdrawal_otherwise_counterexample :
    NonNegativeBalances exampleStore ∧
      (FindWithdrawalByGatewayRef drainedStore "TRF_NEG").map
          (fun t => (t.WalletID, t.Currency, t.Amount, t.Status))
        = some ("w1", "USD", -5, .Pending) ∧
      (GetAssetByCurrency drainedStore "u1" "USD").1
        = some { ID := "3", WalletID := "w1", Currency := "USD", Balance := 0 } ∧
      RefundWithdrawal drainedStore "TRF_NEG"
        = (some (.CheckConstraint "non_negative_balance"), drainedStore) := by
  decide!

theorem Transaction.SetStatusByID_ok_iff (id : String) (status : TransactionStatus) (db db' : DB) :
    Transaction.SetStatusByID id status db = .ok db' ↔
      (∃ t ∈ db.transactions, t.ID = id) ∧
        db' = { db with
          transactions := db.transactions.map
            (fun t => if t.ID == id then { t with Status := status } else t) } := by
  unfold Transaction.SetStatusByID
  by_cases h : db.transactions.any (fun t => t.ID == id) = true
  · have h' : ∃ t ∈ db.transactions, t.ID = id := by simpa using h
    simp only [h, Bool.not_true, Bool.false_eq_true, if_false, Except.ok.injEq]
    constructor
    · intro e
      exact ⟨h', e.symm⟩
    · intro ⟨_, e⟩
      exact e.symm
  · simp only [h, Bool.not_false, if_true, reduceCtorEq, false_iff, not_and]
    intro hex
    simp only [List.any_eq_true, beq_iff_eq, not_exists, not_and] at h
    obtain ⟨t, ht, hid⟩ := hex
    exact absurd hid (h t ht)

theorem FindWithdrawalByGatewayRef_mem (db : DB) (transferCode : String) (txn : TransactionModel)
    (h : FindWithdrawalByGatewayRef db transferCode = some txn) : txn ∈ db.transactions :=
  List.mem_of_find?_eq_some h

theorem FindWithdrawalByGatewayRef_setFailed (db db' : DB) (transferCode : String)
    (txn : TransactionModel) (h : FindWithdrawalByGatewayRef db transferCode = some txn)
    (ht : db'.transactions = db.transactions.map
      (fun t => if t.ID == txn.ID then { t with Status := .Failed } else t)) :
    FindWithdrawalByGatewayRef db' transferCode = some { txn with Status := .Failed } := by
  unfold FindWithdrawalByGatewayRef at h ⊢
  rw [ht, List.find?_map]
  have hp : ((fun t : TransactionModel => t.GatewayRef == some transferCode && t.TxType == .Withdrawal) ∘
      (fun t => if t.ID == txn.ID then { t with Status := .Failed } else t)) =
      (fun t : TransactionModel => t.GatewayRef == some transferCode && t.TxType == .Withdrawal) := by
    funext t
    by_cases hid : t.ID = txn.ID <;> simp [hid]
  rw [hp, h]
  simp

theorem RefundWithdrawal_twice (db : DB) (transferCode : String) :
    (RefundWithdrawal (RefundWithdrawal db transferCode).2 transferCode).2
      = (RefundWithdrawal db transferCode).2 := by
  cases hfind : FindWithdrawalByGatewayRef db transferCode with
  | none =>
    have e : RefundWithdrawal db transferCode = (none, db) := by
      simp only [RefundWithdrawal, hfind]
    rw [e]
    simp only [e]
  | some txn =>
    by_cases hst : txn.Status = .Failed
    · have e : RefundWithdrawal db transferCode = (none, db) := by
        simp only [RefundWithdrawal, hfind, hst, beq_self_eq_true, if_true]
      rw [e]
      simp only [e]
    · have hst' : (txn.Status == TransactionStatus.Failed) = false := by simpa using hst
      cases hexec : execOps
          [WalletAsset.IncrementByWalletIDCurrency txn.WalletID txn.Currency txn.Amount,
           Transaction.SetStatusByID txn.ID .Failed] db with
      | error err =>
        have e : RefundWithdrawal db transferCode = (some err, db) := by
          simp only [RefundWithdrawal, hfind, hst', Bool.false_eq_true, if_false]
          exact Prisma.Transaction_of_error _ _ err hexec
        rw [e]
        simp only [e]
      | ok db' =>
        have e : RefundWithdrawal db transferCode = (none, db') := by
          simp only [RefundWithdrawal, hfind, hst', Bool.false_eq_true, if_false]
          exact Prisma.Transaction_of_ok _ _ db' hexec
        rw [e]
        simp only
        rw [execOps_cons_ok_iff] at hexec
        obtain ⟨db1, h1, hexec⟩ := hexec
        rw [execOps_cons_ok_iff] at hexec
        obtain ⟨db2, h2, hexec⟩ := hexec
        rw [execOps_nil_ok_iff] at hexec
        subst hexec
        obtain ⟨_, _, e1⟩ := (WalletAsset.Update_ok_iff _ _ _ _).mp h1
        obtain ⟨_, e2⟩ := (Transaction.SetStatusByID_ok_iff _ _ _ _).mp h2
        have ht : db'.transactions = db.transactions.map
            (fun t => if t.ID == txn.ID then { t with Status := .Failed } else t) := by
          rw [e2, e1]
        have hfind' := FindWithdrawalByGatewayRef_setFailed db db' transferCode txn hfind ht
        simp only [RefundWithdrawal, hfind', beq_self_eq_true, if_true]

/-- C10 as amended. `RefundWithdrawal` returns `nil` and changes nothing when no withdrawal
`Transaction` has the gateway reference or the first one that has it is marked failed.
Otherwise, when the asset of that row's wallet and currency exists, its balance plus the row's
amount is non-negative and a value of a `float64` (so that the store computes the sum without
rounding) and the wallet-currency key is unique, it returns `nil`, increases that asset by
exactly the row's amount, sets the row's status to failed and adds no row. When it returns an
error (the store rejected the batch), nothing changes. In every store, applying it twice with
the same gateway reference yields the same store as applying it once. -/
theorem RefundWithdrawal_effects (db : DB) (transferCode : String) :
    (FindWithdrawalByGatewayRef db transferCode = none →
        RefundWithdrawal db transferCode = (none, db)) ∧
      (∀ txn, FindWithdrawalByGatewayRef db transferCode = some txn → txn.Status = .Failed →
        RefundWithdrawal db transferCode = (none, db)) ∧
      (∀ txn asset, FindWithdrawalByGatewayRef db transferCode = some txn → txn.Status ≠ .Failed →
        asset ∈ db.assets → asset.WalletID = txn.WalletID → asset.Currency = txn.Currency →
        0 ≤ asset.Balance + txn.Amount → isFloat64 (asset.Balance + txn.Amount) = true →
        UniqueWalletIDCurrency db →
        RefundWithdrawal db transferCode = (none, { db with
          assets := replaceAsset asset { asset with Balance := asset.Balance + txn.Amount } db.assets
          transactions := db.transactions.map
            (fun t => if t.ID == txn.ID then { t with Status := .Failed } else t) })) ∧
      ((RefundWithdrawal db transferCode).1 ≠ none → (RefundWithdrawal db transferCode).2 = db) ∧
      (RefundWithdrawal (RefundWithdrawal db transferCode).2 transferCode).2
        = (RefundWithdrawal db transferCode).2 := by
  refine ⟨?_, ?_, ?_, ?_, RefundWithdrawal_twice db transferCode⟩
  · intro hfind
    simp only [RefundWithdrawal, hfind]
  · intro txn hfind hst
    simp only [RefundWithdrawal, hfind, hst, beq_self_eq_true, if_true]
  · intro txn asset hfind hst hmem hw hc hnn _ hkey
    have hst' : (txn.Status == TransactionStatus.Failed) = false := by simpa using hst
    obtain ⟨db1, e1⟩ : ∃ db1 : DB, db1 = { db with
        assets := replaceAsset asset { asset with Balance := asset.Balance + txn.Amount }
          db.assets } := ⟨_, rfl⟩
    have h1 : WalletAsset.IncrementByWalletIDCurrency txn.WalletID txn.Currency txn.Amount db
        = .ok db1 := by
      unfold WalletAsset.IncrementByWalletIDCurrency
      rw [WalletAsset.Update_unique_ok_iff _ _ db db1 asset hmem]
      · exact ⟨hnn, e1⟩
      · intro x hx
        simp only [Bool.and_eq_true, beq_iff_eq]
        constructor
        · intro hs
          exact hkey.eq_of_key_eq hx hmem (hs.1.trans hw.symm) (hs.2.trans hc.symm)
        · intro h
          rw [h]
          exact ⟨hw, hc⟩
    have htx : ∃ t ∈ db1.transactions, t.ID = txn.ID := by
      rw [e1]
      exact ⟨txn, FindWithdrawalByGatewayRef_mem db transferCode txn hfind, rfl⟩
    have h2 : Transaction.SetStatusByID txn.ID .Failed db1 = .ok { db1 with
        transactions := db1.transactions.map
          (fun t => if t.ID == txn.ID then { t with Status := .Failed } else t) } :=
      (Transaction.SetStatusByID_ok_iff txn.ID .Failed db1 _).mpr ⟨htx, rfl⟩
    simp only [RefundWithdrawal, hfind, hst', Bool.false_eq_true, if_false]
    rw [Prisma.Transaction_of_ok _ _ _ (by simp only [execOps, h1, h2]; rfl)]
    rw [e1]
  · intro herr
    unfold RefundWithdrawal at herr ⊢
    split
    · rfl
    · next txn hfind =>
      simp only [hfind] at herr
      split
      · rfl
      · next hst =>
        simp only [hst, if_false] at herr
        exact Prisma.Transaction_snd_of_isSome _ _ herr

/-- C10 as amended, at `withdrawnStore`: no withdrawal has the gateway reference `TRF_0`; the
refund of `TRF_1` returns the 4 USD (6 becomes 10) and marks the row failed; a second refund
changes nothing. -/
theorem RefundWithdrawal_effects_witness :
    RefundWithdrawal withdrawnStore "TRF_0" = (none, withdrawnStore) ∧
      RefundWithdrawal withdrawnStore "TRF_1" = (none, { withdrawnStore with
        assets := replaceAsset { exampleUSD with Balance := 6 }
          { exampleUSD with Balance := 6 + exampleWithdrawal.Amount } withdrawnStore.assets
        transactions := withdrawnStore.transactions.map
          (fun t => if t.ID == exampleWithdrawal.ID then { t with Status := .Failed } else t) }) ∧
      (RefundWithdrawal withdrawnStore "TRF_1").2.assets.map
          (fun a => (a.WalletID, a.Currency, a.Balance))
        = [("w1", "NGN", 0), ("w2", "NGN", 0), ("w1", "USD", 10)] ∧
      (RefundWithdrawal withdrawnStore "TRF_1").2.transactions.map
          (fun t => (t.Reference, t.Status))
        = [("SEED_123", .Success), ("WDR-1", .Failed)] ∧
      RefundWithdrawal (RefundWithdrawal withdrawnStore "TRF_1").2 "TRF_1"
        = (none, (RefundWithdrawal withdrawnStore "TRF_1").2) ∧
      (RefundWithdrawal (RefundWithdrawal withdrawnStore "TRF_1").2 "TRF_1").2
        = (RefundWithdrawal withdrawnStore "TRF_1").2 :=
  ⟨(RefundWithdrawal_effects withdrawnStore "TRF_0").1 (by decide!),
    (RefundWithdrawal_effects withdrawnStore "TRF_1").2.2.1 exampleWithdrawal
      { exampleUSD with Balance := 6 } (by decide!) (by decide!) (by decide!) (by decide!)
      (by decide!) (by decide!) (by decide!) (by decide!),
    by decide!, by decide!, by decide!, (RefundWithdrawal_effects withdrawnStore "TRF_1").2.2.2.2⟩

/-! ## The store constraints are kept by every operation -/

theorem digitChar_toNat (k : Nat) (h : k < 10) : (Nat.digitChar k).toNat - 48 = k := by
  interval_cases k <;> rfl

theorem toDigitsCore_foldl (fuel n : Nat) (ds : List Char) (h : n < fuel) :
    (Nat.toDigitsCore 10 fuel n ds).foldl (fun acc c => acc * 10 + (c.toNat - 48)) 0
      = ds.foldl (fun acc c => acc * 10 + (c.toNat - 48)) n := by
  induction fuel generalizing n ds with
  | zero => exact absurd h (Nat.not_lt_zero n)
  | succ fuel ih =>
    simp only [Nat.toDigitsCore]
    split
    · next h0 =>
      have hn : n < 10 := by omega
      simp only [List.foldl_cons, Nat.zero_mul, Nat.zero_add, Nat.mod_eq_of_lt hn,
        digitChar_toNat n hn]
    · next h0 =>
      have hlt : n / 10 < fuel := by omega
      rw [ih (n / 10) _ hlt]
      simp only [List.foldl_cons, digitChar_toNat (n % 10) (Nat.mod_lt n (by decide))]
      congr 1
      omega

theorem genID_injective : Function.Injective genID := by
  intro n m h
  have hd : Nat.toDigits 10 n = Nat.toDigits 10 m := by
    have := congrArg String.data h
    simpa [genID, toString, Nat.repr, List.asString] using this
  have hn := toDigitsCore_foldl (n + 1) n [] (Nat.lt_succ_self n)
  have hm := toDigitsCore_foldl (m + 1) m [] (Nat.lt_succ_self m)
  simp only [List.foldl_nil] at hn hm
  unfold Nat.toDigits at hd
  rw [← hn, ← hm, hd]
theorem map_balance_map_ID (assets : List WalletAssetModel) (sel : WalletAssetModel → Bool)
    (f : Amount → Amount) :
    (assets.map (fun a => if sel a then { a with Balance := f a.Balance } else a)).map (fun a => a.ID)
      = assets.map (fun a => a.ID) := by
  rw [List.map_map]
  apply List.map_congr_left
  intro a _
  by_cases hs : sel a = true <;> simp [hs]

theorem map_balance_map_key (assets : List WalletAssetModel) (sel : WalletAssetModel → Bool)
    (f : Amount → Amount) :
    (assets.map (fun a => if sel a then { a with Balance := f a.Balance } else a)).map
        (fun a => (a.WalletID, a.Currency))
      = assets.map (fun a => (a.WalletID, a.Currency)) := by
  rw [List.map_map]
  apply List.map_congr_left
  intro a _
  by_cases hs : sel a = true <;> simp [hs]

theorem WalletAsset.Update_keeps_constraints (sel : WalletAssetModel → Bool) (f : Amount → Amount) :
    TxOp.Keeps StoreConstraints (WalletAsset.Update sel f) := by
  intro db db' h e
  obtain ⟨hnn, hpk, hkey, hwid, hiss⟩ := h
  have hnn' := WalletAsset.Update_keeps_nonneg sel f db db' hnn e
  obtain ⟨_, _, rfl⟩ := (WalletAsset.Update_ok_iff sel f db db').mp e
  refine ⟨hnn', ?_, ?_, hwid, ?_⟩
  · unfold UniqueAssetIDs
    simp only
    rw [map_balance_map_ID]
    exact hpk
  · unfold UniqueWalletIDCurrency
    simp only
    rw [map_balance_map_key]
    exact hkey
  · intro a ha
    simp only [List.mem_map] at ha
    obtain ⟨b, hb, rfl⟩ := ha
    obtain ⟨k, hk, hid⟩ := hiss b hb
    refine ⟨k, hk, ?_⟩
    by_cases hs : sel b = true <;> simp [hs, hid]

theorem WalletAsset.UpsertOne_keeps_constraints (walletID currency : String) (amount : Amount) :
    TxOp.Keeps StoreConstraints (WalletAsset.UpsertOne walletID currency amount) := by
  intro db db' h e
  by_cases hex : ∃ x ∈ db.assets, x.WalletID = walletID ∧ x.Currency = currency
  · have hany : db.assets.any (fun a => a.WalletID == walletID && a.Currency == currency) = true := by
      simpa using hex
    unfold WalletAsset.UpsertOne at e
    simp only [hany, if_true] at e
    exact WalletAsset.Update_keeps_constraints _ _ db db' h e
  · have habs : ∀ x ∈ db.assets, ¬ (x.WalletID = walletID ∧ x.Currency = currency) := by
      intro x hx hk
      exact hex ⟨x, hx, hk⟩
    have hnn' := WalletAsset.UpsertOne_keeps_nonneg walletID currency amount db db' h.1 e
    obtain ⟨hnn, hpk, hkey, hwid, hiss⟩ := h
    obtain ⟨_, _, rfl⟩ := (WalletAsset.UpsertOne_absent_ok_iff db db' walletID currency amount habs).mp e
    refine ⟨hnn', ?_, ?_, hwid, ?_⟩
    · unfold UniqueAssetIDs at hpk ⊢
      simp only [List.map_append, List.map_cons, List.map_nil]
      rw [List.nodup_append]
      refine ⟨hpk, List.nodup_singleton _, ?_⟩
      intro id hid hid'
      simp only [List.mem_singleton] at hid'
      subst hid'
      simp only [List.mem_map] at hid
      obtain ⟨a, ha, haid⟩ := hid
      obtain ⟨k, hk, hak⟩ := hiss a ha
      have := genID_injective (hak.symm.trans haid)
      omega
    · unfold UniqueWalletIDCurrency at hkey ⊢
      simp only [List.map_append, List.map_cons, List.map_nil]
      rw [List.nodup_append]
      refine ⟨hkey, List.nodup_singleton _, ?_⟩
      intro key hk hk'
      simp only [List.mem_singleton] at hk'
      subst hk'
      simp only [List.mem_map, Prod.mk.injEq] at hk
      obtain ⟨a, ha, hak⟩ := hk
      exact habs a ha hak
    · intro a ha
      simp only [List.mem_append, List.mem_singleton] at ha
      rcases ha with ha | rfl
      · obtain ⟨k, hk, hid⟩ := hiss a ha
        exact ⟨k, Nat.lt_succ_of_lt hk, hid⟩
      · exact ⟨db.nextID, Nat.lt_succ_self _, rfl⟩

theorem Transaction.CreateOne_keeps_constraints (walletID : String) (amount : Amount)
    (currency : String) (txType : TransactionType) (reference : String)
    (status : TransactionStatus) (gatewayRef provider description : Option String) :
    TxOp.Keeps StoreConstraints (Transaction.CreateOne walletID amount currency txType reference
      status gatewayRef provider description) := by
  intro db db' h e
  obtain ⟨hnn, hpk, hkey, hwid, hiss⟩ := h
  obtain ⟨_, _, rfl⟩ := (Transaction.CreateOne_ok_iff _ _ _ _ _ _ _ _ _ db db').mp e
  refine ⟨hnn, hpk, hkey, hwid, ?_⟩
  intro a ha
  obtain ⟨k, hk, hid⟩ := hiss a ha
  exact ⟨k, Nat.lt_succ_of_lt hk, hid⟩

theorem Transaction.SetStatusByID_keeps_constraints (id : String) (status : TransactionStatus) :
    TxOp.Keeps StoreConstraints (Transaction.SetStatusByID id status) := by
  intro db db' h e
  obtain ⟨_, rfl⟩ := (Transaction.SetStatusByID_ok_iff id status db db').mp e
  exact h

theorem statementsKeep_constraints : StatementsKeep StoreConstraints :=
  ⟨WalletAsset.Update_keeps_constraints, WalletAsset.UpsertOne_keeps_constraints,
    Transaction.CreateOne_keeps_constraints, Transaction.SetStatusByID_keeps_constraints⟩

/-- The store constraints assumed by the theorems on single operations hold in every store
reached from a store that satisfies them by any sequence of calls of the six money-movement
operations. -/
theorem storeConstraints_invariant (db : DB) (calls : List LedgerCall) (h : StoreConstraints db) :
    StoreConstraints (execCalls db calls) :=
  execCalls_keeps StoreConstraints statementsKeep_constraints db calls h

/-- The example stores satisfy the store constraints, and so does the store reached by the
example run. -/
theorem storeConstraints_examples :
    StoreConstraints testStore ∧ StoreConstraints exampleStore ∧
      StoreConstraints (execCalls exampleStore exampleCalls) :=
  ⟨by decide!, by decide!, storeConstraints_invariant exampleStore exampleCalls (by decide!)⟩

/-! ## The statuses of the transaction log -/

theorem StatusStep.same (t : TransactionModel) : StatusStep t t := ⟨rfl, id⟩

theorem LogContinues.self (l : List TransactionModel) : LogContinues l l := by
  unfold LogContinues
  rw [List.take_length]
  induction l with
  | nil => exact List.Forall₂.nil
  | cons t l ih => exact List.Forall₂.cons (StatusStep.same t) ih

theorem LogContinues.length_le {old new : List TransactionModel} (h : LogContinues old new) :
    old.length ≤ new.length := by
  have := h.length_eq
  rw [List.length_take] at this
  omega

theorem LogContinues.append {old new : List TransactionModel} (h : LogContinues old new)
    (more : List TransactionModel) : LogContinues old (new ++ more) := by
  unfold LogContinues
  rw [List.take_append_of_le_length h.length_le]
  exact h

theorem LogContinues.map {old new : List TransactionModel} (h : LogContinues old new)
    (g : TransactionModel → TransactionModel) (hg : ∀ t t1, StatusStep t t1 → StatusStep t (g t1)) :
    LogContinues old (new.map g) := by
  unfold LogContinues at h ⊢
  rw [← List.map_take, List.forall₂_map_right_iff]
  exact h.imp (fun t t1 ht => hg t t1 ht)

theorem StatusStep.setStatus (sel : TransactionModel → Bool) (status : TransactionStatus)
    (hs : status ≠ .Pending) (t t1 : TransactionModel) (h : StatusStep t t1) :
    StatusStep t (if sel t1 then { t1 with Status := status } else t1) := by
  split
  · obtain ⟨h1, _⟩ := h
    refine ⟨?_, fun hp => absurd hp hs⟩
    rw [h1]
  · exact h

theorem WalletAsset.Update_transactions (sel : WalletAssetModel → Bool) (f : Amount → Amount)
    (db db' : DB) (h : WalletAsset.Update sel f db = .ok db') : db'.transactions = db.transactions := by
  rw [((WalletAsset.Update_ok_iff sel f db db').mp h).2.2]

theorem WalletAsset.UpsertOne_transactions (walletID currency : String) (amount : Amount)
    (db db' : DB) (h : WalletAsset.UpsertOne walletID currency amount db = .ok db') :
    db'.transactions = db.transactions := by
  unfold WalletAsset.UpsertOne at h
  split at h
  · exact WalletAsset.Update_transactions _ _ db db' h
  · split at h
    · simp at h
    · split at h
      · simp at h
      · simp only [Except.ok.injEq] at h
        rw [← h]

theorem WalletAsset.Update_keeps_log (old : List TransactionModel) (sel : WalletAssetModel → Bool)
    (f : Amount → Amount) :
    TxOp.Keeps (fun d => LogContinues old d.transactions) (WalletAsset.Update sel f) := by
  intro db db' h hok
  show LogContinues old db'.transactions
  rw [WalletAsset.Update_transactions sel f db db' hok]
  exact h

theorem WalletAsset.UpsertOne_keeps_log (old : List TransactionModel) (walletID currency : String)
    (amount : Amount) :
    TxOp.Keeps (fun d => LogContinues old d.transactions)
      (WalletAsset.UpsertOne walletID currency amount) := by
  intro db db' h hok
  show LogContinues old db'.transactions
  rw [WalletAsset.UpsertOne_transactions walletID currency amount db db' hok]
  exact h

theorem Transaction.CreateOne_keeps_log (old : List TransactionModel) (walletID : String)
    (amount : Amount) (currency : String) (txType : TransactionType) (reference : String)
    (status : TransactionStatus) (gatewayRef provider description : Option String) :
    TxOp.Keeps (fun d => LogContinues old d.transactions)
      (Transaction.CreateOne walletID amount currency txType reference status gatewayRef provider
        description) := by
  intro db db' h hok
  show LogContinues old db'.transactions
  rw [((Transaction.CreateOne_ok_iff _ _ _ _ _ _ _ _ _ db db').mp hok).2.2]
  exact h.append _

theorem Transaction.SetStatusByID_keeps_log (old : List TransactionModel) (id : String)
    (status : TransactionStatus) (hs : status ≠ .Pending) :
    TxOp.Keeps (fun d => LogContinues old d.transactions) (Transaction.SetStatusByID id status) := by
  intro db db' h hok
  show LogContinues old db'.transactions
  rw [((Transaction.SetStatusByID_ok_iff id status db db').mp hok).2]
  exact h.map _ (StatusStep.setStatus (fun t => t.ID == id) status hs)

theorem CreditWalletByEmail_log (old : List TransactionModel) (db : DB) (email currency : String)
    (amount : Amount) (reference description provider : String)
    (h : LogContinues old db.transactions) :
    LogContinues old
      (CreditWalletByEmail db email currency amount reference description provider).2.transactions := by
  unfold CreditWalletByEmail
  split
  · exact h
  · split
    · exact h
    next wallet _ =>
      have hk := Prisma.Transaction_keeps (fun d => LogContinues old d.transactions)
        [WalletAsset.UpsertOne wallet.ID currency amount,
          Transaction.CreateOne wallet.ID amount currency .Deposit reference .Success none
            (some provider) (some description)]
        (by
          intro op hop
          simp only [List.mem_cons, List.mem_singleton, List.not_mem_nil, or_false] at hop
          rcases hop with rfl | rfl
          · exact WalletAsset.UpsertOne_keeps_log old _ _ _
          · exact Transaction.CreateOne_keeps_log old _ _ _ _ _ _ _ _ _) db h
      simp only
      split <;> exact hk

theorem RefundWithdrawal_log (old : List TransactionModel) (db : DB) (transferCode : String)
    (h : LogContinues old db.transactions) :
    LogContinues old (RefundWithdrawal db transferCode).2.transactions := by
  unfold RefundWithdrawal
  split
  · exact h
  · split
    · exact h
    · exact Prisma.Transaction_keeps (fun d => LogContinues old d.transactions) _
        (by
          intro op hop
          simp only [List.mem_cons, List.mem_singleton, List.not_mem_nil, or_false] at hop
          rcases hop with rfl | rfl
          · exact WalletAsset.Update_keeps_log old _ _
          · exact Transaction.SetStatusByID_keeps_log old _ _ (by decide)) db h

theorem UpdateTransactionStatus_log (old : List TransactionModel) (db : DB) (reference : String)
    (status : TransactionStatus) (hs : status ≠ .Pending) (h : LogContinues old db.transactions) :
    LogContinues old (UpdateTransactionStatus db reference status).2.transactions := by
  unfold UpdateTransactionStatus
  exact h.map _ (StatusStep.setStatus (fun t => t.GatewayRef == some reference) status hs)

theorem ProcessPaystackEvent_log (old : List TransactionModel) (payload : WebhookBody) (db : DB)
    (redis : RedisStore) (h : LogContinues old db.transactions) :
    LogContinues old (ProcessPaystackEvent payload db redis).2.1.transactions := by
  unfold ProcessPaystackEvent
  split
  · exact h
  · split
    · exact CreditWalletByEmail_log old db _ _ _ _ _ _ h
    · split
      · exact UpdateTransactionStatus_log old db _ _ (by decide) h
      · split
        · exact RefundWithdrawal_log old db _ h
        · exact h

/-- Counterexample to C11: in the store with the pending withdrawal `TRF_1`, the event
`transfer.failed` sets the row to failed (and refunds it), and the event `transfer.success` that
follows changes the failed row to success; in the other order the row goes from success to
failed. -/
theorem transaction_status_counterexample :
    exampleWithdrawal ∈ withdrawnStore.transactions ∧
      { exampleWithdrawal with Status := .Failed } ∈
        (processEvents [transferFailed] withdrawnStore emptyRedis).1.transactions ∧
      { exampleWithdrawal with Status := .Success } ∈
        (processEvents [transferFailed, transferSuccess] withdrawnStore emptyRedis).1.transactions ∧
      { exampleWithdrawal with Status := .Success } ∈
        (processEvents [transferSuccess] withdrawnStore emptyRedis).1.transactions ∧
      { exampleWithdrawal with Status := .Failed } ∈
        (processEvents [transferSuccess, transferFailed] withdrawnStore emptyRedis).1.transactions := by
  decide!

/-- C11, amended: whatever provider events `ProcessPaystackEvent` processes, the log afterwards
continues the log before: no row is removed or reordered, every field of a row but its status
is kept, and a status that is success or failed never becomes pending again. -/
theorem processEvents_log (events : List WebhookBody) (db : DB) (redis : RedisStore) :
    LogContinues db.transactions (processEvents events db redis).1.transactions := by
  suffices h : ∀ (old : List TransactionModel) (db : DB) (redis : RedisStore),
      LogContinues old db.transactions →
        LogContinues old (processEvents events db redis).1.transactions from
    h db.transactions db redis (LogContinues.self _)
  induction events with
  | nil => intro old db redis h; exact h
  | cons payload rest ih =>
    intro old db redis h
    exact ih old _ _ (ProcessPaystackEvent_log old payload db redis h)

/-- C11 as amended, at the store with the pending withdrawal `TRF_1` and the events
`transfer.failed` and `transfer.success` for it. -/
theorem processEvents_log_witness :
    LogContinues withdrawnStore.transactions
      (processEvents [transferFailed, transferSuccess] withdrawnStore emptyRedis).1.transactions :=
  processEvents_log [transferFailed, transferSuccess] withdrawnStore emptyRedis

/-! ## Idempotency locks -/

theorem wallet_key_ne_idemp (u r : String) : "wallet:" ++ u ≠ "idemp:" ++ r := by
  intro h
  have hd := congrArg String.data h
  rw [String.data_append, String.data_append] at hd
  have h1 : ("wallet:" : String).data = ['w', 'a', 'l', 'l', 'e', 't', ':'] := rfl
  have h2 : ("idemp:" : String).data = ['i', 'd', 'e', 'm', 'p', ':'] := rfl
  rw [h1, h2] at hd
  simp at hd

theorem history_key_ne_idemp (u r : String) : "tx_history:" ++ u ≠ "idemp:" ++ r := by
  intro h
  have hd := congrArg String.data h
  rw [String.data_append, String.data_append] at hd
  have h1 : ("tx_history:" : String).data =
      ['t', 'x', '_', 'h', 'i', 's', 't', 'o', 'r', 'y', ':'] := rfl
  have h2 : ("idemp:" : String).data = ['i', 'd', 'e', 'm', 'p', ':'] := rfl
  rw [h1, h2] at hd
  simp at hd

theorem TryLockIdempotencyKey_cases (r : RedisStore) (key : String) (ttl : Nat) :
    ((r.available = false ∨ r.holds ("idemp:" ++ key) = true) ∧
        (TryLockIdempotencyKey r key ttl).1.1 = false ∧ (TryLockIdempotencyKey r key ttl).2 = r) ∨
      (r.available = true ∧ r.holds ("idemp:" ++ key) = false ∧
        TryLockIdempotencyKey r key ttl = ((true, none),
          { r with entries := r.entries ++ [⟨"idemp:" ++ key, "processing", ttl⟩] })) := by
  unfold TryLockIdempotencyKey RedisStore.SetNX RedisStore.holds
  cases hav : r.available
  · left
    simp
  · cases hh : r.entries.any (fun e => e.key == "idemp:" ++ key)
    · right
      simp
    · left
      simp

theorem RedisQueue.Delete_lock (r : RedisStore) (key value : String) (ttl : Nat)
    (hav : r.available = true) (hfree : r.holds key = false) :
    (RedisQueue.Delete { r with entries := r.entries ++ [⟨key, value, ttl⟩] } key).2 = r := by
  have hne : ∀ e ∈ r.entries, e.key ≠ key := by
    simpa [RedisStore.holds] using hfree
  have hfilter : (r.entries ++ [(⟨key, value, ttl⟩ : RedisEntry)]).filter
      (fun e => !(e.key == key)) = r.entries := by
    rw [List.filter_append, filter_key_ne_self _ _ hne]
    simp
  simp only [RedisQueue.Delete, RedisStore.Del, hav, Bool.not_true, Bool.false_eq_true, if_false,
    hfilter]
  cases r
  simp_all

theorem RedisQueue.Set_marker (r : RedisStore) (reference : String) (hav : r.available = true) :
    (RedisQueue.Set r ("idemp:" ++ reference) "completed" 86400).2.available = true ∧
      completedMarker reference ∈
        (RedisQueue.Set r ("idemp:" ++ reference) "completed" 86400).2.entries := by
  simp [RedisQueue.Set, RedisStore.Set, completedMarker, hav]

theorem RedisQueue.Delete_marker (r : RedisStore) (reference other : String)
    (hne : other ≠ "idemp:" ++ reference)
    (h : r.available = true ∧ completedMarker reference ∈ r.entries) :
    (RedisQueue.Delete r other).2.available = true ∧
      completedMarker reference ∈ (RedisQueue.Delete r other).2.entries := by
  obtain ⟨hav, hm⟩ := h
  simp only [RedisQueue.Delete, RedisStore.Del, hav, Bool.not_true, Bool.false_eq_true, if_false,
    List.mem_filter, true_and]
  exact ⟨hm, by simp [completedMarker, Ne.symm hne]⟩

theorem RedisStore.holds_of_mem (r : RedisStore) (e : RedisEntry) (h : e ∈ r.entries) :
    r.holds e.key = true := by
  simp only [RedisStore.holds, List.any_eq_true, beq_iff_eq]
  exact ⟨e, h, rfl⟩

theorem FundWallet_blocked (db : DB) (redis : RedisStore) (userID currency : String)
    (amount : Amount) (reference description : String)
    (h : redis.available = false ∨ redis.holds ("idemp:" ++ reference) = true) :
    FundWallet db redis userID currency amount reference description
      = (some .ErrTransactionAlreadyProcessed, db, redis) := by
  rcases TryLockIdempotencyKey_cases redis reference 300 with ⟨_, h1, h2⟩ | ⟨hav, hfree, _⟩
  · unfold FundWallet
    split
    next locked e redis1 heq =>
    rw [heq] at h1 h2
    simp only at h1 h2
    subst h1 h2
    simp
  · rcases h with h | h
    · rw [hav] at h
      exact absurd h (by decide)
    · rw [hfree] at h
      exact absurd h (by decide)

theorem FundWallet_outcome (db : DB) (redis : RedisStore) (userID currency : String)
    (amount : Amount) (reference description : String) :
    LockOutcome reference redis
      (FundWallet db redis userID currency amount reference description) := by
  rcases TryLockIdempotencyKey_cases redis reference 300 with ⟨hb, _, _⟩ | ⟨hav, hfree, hT⟩
  · rw [FundWallet_blocked db redis userID currency amount reference description hb]
    exact Or.inl rfl
  · have hdel := RedisQueue.Delete_lock redis ("idemp:" ++ reference) "processing" 300 hav hfree
    unfold FundWallet
    rw [hT]
    simp only [Bool.not_true, Bool.false_eq_true, if_false]
    rcases GetAssetByCurrency_cases db userID currency with ⟨a, ha⟩ | hn
    · rw [ha]
      simp only
      split
      · next err db' _ =>
        split
        · exact Or.inl rfl
        · exact Or.inr (Or.inr ⟨by simp, hdel, hav, hfree⟩)
      · next db' _ =>
        refine Or.inr (Or.inl ⟨rfl, ?_⟩)
        exact RedisQueue.Delete_marker _ _ _ (wallet_key_ne_idemp userID reference)
          (RedisQueue.Set_marker _ _ hav)
    · rw [hn]
      exact Or.inr (Or.inr ⟨by simp, hdel, hav, hfree⟩)

theorem walletService.SwapFunds_blocked (api : String → RateResponse) (db : DB) (redis : RedisStore)
    (userID fromCurrency toCurrency : String) (amountIn : Amount) (reference : String)
    (h : redis.available = false ∨ redis.holds ("idemp:" ++ reference) = true) :
    walletService.SwapFunds api db redis userID fromCurrency toCurrency amountIn reference
      = ((none, some .ErrTransactionAlreadyProcessed), db, redis) := by
  rcases TryLockIdempotencyKey_cases redis reference 300 with ⟨_, h1, h2⟩ | ⟨hav, hfree, _⟩
  · unfold walletService.SwapFunds
    split
    next locked e redis1 heq =>
    rw [heq] at h1 h2
    simp only at h1 h2
    subst h1 h2
    simp
  · rcases h with h | h
    · rw [hav] at h
      exact absurd h (by decide)
    · rw [hfree] at h
      exact absurd h (by decide)

theorem walletService.SwapFunds_outcome (api : String → RateResponse) (db : DB)
    (redis : RedisStore) (userID fromCurrency toCurrency : String) (amountIn : Amount)
    (reference : String) :
    LockOutcome reference redis
      ((walletService.SwapFunds api db redis userID fromCurrency toCurrency amountIn reference).1.2,
        (walletService.SwapFunds api db redis userID fromCurrency toCurrency amountIn reference).2) := by
  rcases TryLockIdempotencyKey_cases redis reference 300 with ⟨hb, _, _⟩ | ⟨hav, hfree, hT⟩
  · rw [walletService.SwapFunds_blocked api db redis userID fromCurrency toCurrency amountIn
      reference hb]
    exact Or.inl rfl
  · have hdel := RedisQueue.Delete_lock redis ("idemp:" ++ reference) "processing" 300 hav hfree
    unfold walletService.SwapFunds
    rw [hT]
    simp only [Bool.not_true, Bool.false_eq_true, if_false]
    split
    · next err _ => exact Or.inr (Or.inr ⟨by simp, hdel, hav, hfree⟩)
    · next rate _ =>
      split
      · next err db' _ =>
        split
        · exact Or.inl rfl
        · exact Or.inr (Or.inr ⟨by simp, hdel, hav, hfree⟩)
      · next db' _ =>
        refine Or.inr (Or.inl ⟨rfl, ?_⟩)
        exact RedisQueue.Delete_marker _ _ _ (history_key_ne_idemp userID reference)
          (RedisQueue.Delete_marker _ _ _ (wallet_key_ne_idemp userID reference)
            (RedisQueue.Set_marker _ _ hav))

theorem walletService.TransferFunds_blocked (db : DB) (redis : RedisStore)
    (userID toAccount currency : String) (amount : Amount) (userDesc reference : String)
    (h : redis.available = false ∨ redis.holds ("idemp:" ++ reference) = true) :
    walletService.TransferFunds db redis userID toAccount currency amount userDesc reference
      = (("", some .ErrTransactionAlreadyProcessed), db, redis) := by
  rcases TryLockIdempotencyKey_cases redis reference 300 with ⟨_, h1, h2⟩ | ⟨hav, hfree, _⟩
  · unfold walletService.TransferFunds
    split
    next locked e redis1 heq =>
    rw [heq] at h1 h2
    simp only at h1 h2
    subst h1 h2
    simp
  · rcases h with h | h
    · rw [hav] at h
      exact absurd h (by decide)
    · rw [hfree] at h
      exact absurd h (by decide)

theorem walletService.TransferFunds_outcome (db : DB) (redis : RedisStore)
    (userID toAccount currency : String) (amount : Amount) (userDesc reference : String) :
    LockOutcome reference redis
      ((walletService.TransferFunds db redis userID toAccount currency amount userDesc
          reference).1.2,
        (walletService.TransferFunds db redis userID toAccount currency amount userDesc
          reference).2) := by
  rcases TryLockIdempotencyKey_cases redis reference 300 with ⟨hb, _, _⟩ | ⟨hav, hfree, hT⟩
  · rw [walletService.TransferFunds_blocked db redis userID toAccount currency amount userDesc
      reference hb]
    exact Or.inl rfl
  · have hdel := RedisQueue.Delete_lock redis ("idemp:" ++ reference) "processing" 300 hav hfree
    unfold walletService.TransferFunds
    rw [hT]
    simp only [Bool.not_true, Bool.false_eq_true, if_false, hdel]
    split
    · exact Or.inr (Or.inr ⟨by simp, rfl, hav, hfree⟩)
    · split
      · exact Or.inr (Or.inr ⟨by simp, rfl, hav, hfree⟩)
      · exact Or.inr (Or.inr ⟨by simp, rfl, hav, hfree⟩)
      · next receiverWallet _ =>
        split
        · exact Or.inr (Or.inr ⟨by simp, rfl, hav, hfree⟩)
        · split
          · next err db' _ =>
            split
            · exact Or.inl rfl
            · exact Or.inr (Or.inr ⟨by simp, rfl, hav, hfree⟩)
          · next db' _ =>
            refine Or.inr (Or.inl ⟨rfl, ?_⟩)
            exact RedisQueue.Delete_marker _ _ _ (history_key_ne_idemp userID reference)
              (RedisQueue.Delete_marker _ _ _ (wallet_key_ne_idemp receiverWallet.UserID reference)
                (RedisQueue.Delete_marker _ _ _ (wallet_key_ne_idemp userID reference)
                  (RedisQueue.Set_marker _ _ hav)))

theorem ServiceCall.exec_blocked (api : String → RateResponse) (reference : String) (db : DB)
    (redis : RedisStore) (c : ServiceCall)
    (h : redis.available = false ∨ redis.holds ("idemp:" ++ reference) = true) :
    c.exec api reference db redis = (some .ErrTransactionAlreadyProcessed, db, redis) := by
  cases c with
  | FundWallet userID currency amount description =>
    exact FundWallet_blocked db redis userID currency amount reference description h
  | SwapFunds userID fromCurrency toCurrency amountIn =>
    simp only [ServiceCall.exec, walletService.SwapFunds_blocked api db redis userID fromCurrency
      toCurrency amountIn reference h]
  | TransferFunds userID toAccount currency amount userDesc =>
    simp only [ServiceCall.exec, walletService.TransferFunds_blocked db redis userID toAccount
      currency amount userDesc reference h]

theorem ServiceCall.exec_outcome (api : String → RateResponse) (reference : String) (db : DB)
    (redis : RedisStore) (c : ServiceCall) :
    LockOutcome reference redis (c.exec api reference db redis) := by
  cases c with
  | FundWallet userID currency amount description =>
    exact FundWallet_outcome db redis userID currency amount reference description
  | SwapFunds userID fromCurrency toCurrency amountIn =>
    exact walletService.SwapFunds_outcome api db redis userID fromCurrency toCurrency amountIn
      reference
  | TransferFunds userID toAccount currency amount userDesc =>
    exact walletService.TransferFunds_outcome db redis userID toAccount currency amount userDesc
      reference

/-- C12: when a call of `FundWallet`, `SwapFunds` or `TransferFunds` with a reference has
succeeded, the key/value store answers and holds the marker `completed` under the key of the
reference, with a time to live of 24 hours; a second call of any of the three with the same
reference and any other arguments then returns `ErrTransactionAlreadyProcessed` and leaves both
stores as the first call left them, and so does every call that finds the key still held. -/
theorem services_idempotent (api api2 : String → RateResponse) (reference : String) (db : DB)
    (redis : RedisStore) (c1 c2 : ServiceCall)
    (h : (c1.exec api reference db redis).1 = none) :
    ((c1.exec api reference db redis).2.2.available = true ∧
        completedMarker reference ∈ (c1.exec api reference db redis).2.2.entries) ∧
      c2.exec api2 reference (c1.exec api reference db redis).2.1
          (c1.exec api reference db redis).2.2
        = (some .ErrTransactionAlreadyProcessed, (c1.exec api reference db redis).2.1,
            (c1.exec api reference db redis).2.2) ∧
      ∀ (db2 : DB) (redis2 : RedisStore), redis2.holds ("idemp:" ++ reference) = true →
        c2.exec api2 reference db2 redis2 = (some .ErrTransactionAlreadyProcessed, db2, redis2) := by
  have hmark : (c1.exec api reference db redis).2.2.available = true ∧
      completedMarker reference ∈ (c1.exec api reference db redis).2.2.entries := by
    rcases ServiceCall.exec_outcome api reference db redis c1 with h1 | ⟨_, h2⟩ | ⟨h3, _⟩
    · rw [h] at h1
      exact absurd h1 (by simp)
    · exact h2
    · exact absurd h h3
  refine ⟨hmark, ?_, ?_⟩
  · exact ServiceCall.exec_blocked api2 reference _ _ c2
      (Or.inr (RedisStore.holds_of_mem _ _ hmark.2))
  · intro db2 redis2 hheld
    exact ServiceCall.exec_blocked api2 reference db2 redis2 c2 (Or.inr hheld)

/-- C12 at the example store: a funding of 5 USD with the reference `K1` succeeds, and a swap
with the same reference is then reported as already processed. -/
theorem services_idempotent_witness :
    (ServiceCall.exec exampleRates "K1" exampleStore emptyRedis
        (.FundWallet "u1" "USD" 5 "fund")).1 = none ∧
      ServiceCall.exec exampleRates "K1"
          (ServiceCall.exec exampleRates "K1" exampleStore emptyRedis
            (.FundWallet "u1" "USD" 5 "fund")).2.1
          (ServiceCall.exec exampleRates "K1" exampleStore emptyRedis
            (.FundWallet "u1" "USD" 5 "fund")).2.2
          (.SwapFunds "u1" "USD" "NGN" 3)
        = (some .ErrTransactionAlreadyProcessed,
            (ServiceCall.exec exampleRates "K1" exampleStore emptyRedis
              (.FundWallet "u1" "USD" 5 "fund")).2.1,
            (ServiceCall.exec exampleRates "K1" exampleStore emptyRedis
              (.FundWallet "u1" "USD" 5 "fund")).2.2) :=
  ⟨by decide!,
    (services_idempotent exampleRates exampleRates "K1" exampleStore emptyRedis
      (.FundWallet "u1" "USD" 5 "fund") (.SwapFunds "u1" "USD" "NGN" 3) (by decide!)).2.1⟩

/-- C14: when a call of `FundWallet`, `SwapFunds` or `TransferFunds` returns an error other
than `ErrTransactionAlreadyProcessed`, it had acquired the lock (which put the key
`idemp:<reference>` into the key/value store), and on return the key is absent again: the
key/value store is as it was before the call, so that a retry with the same reference acquires
the lock again. -/
theorem services_release_lock (api : String → RateResponse) (reference : String) (db : DB)
    (redis : RedisStore) (c : ServiceCall)
    (herr : (c.exec api reference db redis).1 ≠ none)
    (hnot : (c.exec api reference db redis).1 ≠ some .ErrTransactionAlreadyProcessed) :
    ((TryLockIdempotencyKey redis reference 300).1.1 = true ∧
        (TryLockIdempotencyKey redis reference 300).2.holds ("idemp:" ++ reference) = true) ∧
      (c.exec api reference db redis).2.2.holds ("idemp:" ++ reference) = false ∧
      (c.exec api reference db redis).2.2 = redis ∧
      (TryLockIdempotencyKey (c.exec api reference db redis).2.2 reference 300).1.1 = true := by
  rcases ServiceCall.exec_outcome api reference db redis c with h1 | ⟨h2, _⟩ | ⟨_, hsame, hav, hfree⟩
  · exact absurd h1 hnot
  · exact absurd h2 herr
  · rcases TryLockIdempotencyKey_cases redis reference 300 with ⟨hb, _, _⟩ | ⟨_, _, hT⟩
    · rcases hb with hb | hb
      · rw [hav] at hb
        exact absurd hb (by decide)
      · rw [hfree] at hb
        exact absurd hb (by decide)
    · rw [hsame, hT]
      refine ⟨⟨rfl, ?_⟩, hfree, rfl, rfl⟩
      simp [RedisStore.holds]

/-- C14 at the example store: a transfer of more than the balance fails, and the key of its
reference is absent afterwards. -/
theorem services_release_lock_witness :
    (ServiceCall.exec exampleRates "K2" exampleStore emptyRedis
        (.TransferFunds "u1" "1000000002" "USD" 50 "rent")).1
      = some (.Errorf "insufficient funds (race condition)") ∧
    (ServiceCall.exec exampleRates "K2" exampleStore emptyRedis
        (.TransferFunds "u1" "1000000002" "USD" 50 "rent")).2.2.holds ("idemp:" ++ "K2") = false :=
  ⟨by decide!,
    (services_release_lock exampleRates "K2" exampleStore emptyRedis
      (.TransferFunds "u1" "1000000002" "USD" 50 "rent") (by decide!) (by decide!)).2.1⟩

/-! ## `CreditWalletByEmail` with a reference of the log -/

theorem WalletAsset.UpsertOne_wallets (walletID currency : String) (amount : Amount)
    (db db' : DB) (h : WalletAsset.UpsertOne walletID currency amount db = .ok db') :
    db'.wallets = db.wallets := by
  unfold WalletAsset.UpsertOne at h
  split at h
  · rw [((WalletAsset.Update_ok_iff _ _ db db').mp h).2.2]
  · split at h
    · simp at h
    · split at h
      · simp at h
      · simp only [Except.ok.injEq] at h
        rw [← h]

theorem WalletAsset.UpsertOne_accepts (walletID currency : String) (amount : Amount) (db : DB)
    (hw : ∃ w ∈ db.wallets, w.ID = walletID) (hnn : NonNegativeBalances db) (ha : 0 ≤ amount) :
    ∃ db1, WalletAsset.UpsertOne walletID currency amount db = .ok db1 := by
  unfold WalletAsset.UpsertOne
  split
  · next hany =>
    refine ⟨_, (WalletAsset.Update_ok_iff _ _ db _).mpr ⟨?_, ?_, rfl⟩⟩
    · simpa using hany
    · intro a hmem _
      exact add_nonneg (hnn a hmem) ha
  · have hw' : db.wallets.any (fun w => w.ID == walletID) = true := by
      simpa using hw
    have hv : violatesNonNegativeBalance amount = false := by
      simp [violatesNonNegativeBalance, ha]
    simp [hw', hv]

theorem isUniqueConstraintError_reference :
    isUniqueConstraintError (some (.UniqueConstraint "reference")) = true := by
  decide

theorem execOps_credit_duplicate (db : DB) (walletID currency : String) (amount : Amount)
    (reference : String) (provider description : Option String)
    (hdup : ∃ t ∈ db.transactions, t.Reference = reference) :
    (∃ e, execOps [WalletAsset.UpsertOne walletID currency amount,
        Transaction.CreateOne walletID amount currency .Deposit reference .Success none provider
          description] db = .error e) ∧
      ((∃ w ∈ db.wallets, w.ID = walletID) →
        (∃ db1, WalletAsset.UpsertOne walletID currency amount db = .ok db1) →
        execOps [WalletAsset.UpsertOne walletID currency amount,
          Transaction.CreateOne walletID amount currency .Deposit reference .Success none provider
            description] db = .error (.UniqueConstraint "reference")) := by
  have hlog : ∀ db1, WalletAsset.UpsertOne walletID currency amount db = .ok db1 →
      violatesUniqueReference db1 reference = true := by
    intro db1 h1
    unfold violatesUniqueReference
    rw [WalletAsset.UpsertOne_transactions walletID currency amount db db1 h1]
    simpa using hdup
  constructor
  · cases h1 : WalletAsset.UpsertOne walletID currency amount db with
    | error e => exact ⟨e, by simp [execOps, h1]⟩
    | ok db1 =>
      have hv := hlog db1 h1
      by_cases hw : db1.wallets.any (fun w => w.ID == walletID) = true
      · exact ⟨.UniqueConstraint "reference", by simp [execOps, h1, Transaction.CreateOne, hw, hv]⟩
      · exact ⟨.RecordNotFound, by simp [execOps, h1, Transaction.CreateOne, hw]⟩
  · rintro hw ⟨db1, h1⟩
    have hv := hlog db1 h1
    have hw' : db1.wallets.any (fun w => w.ID == walletID) = true := by
      rw [WalletAsset.UpsertOne_wallets walletID currency amount db db1 h1]
      simpa using hw
    simp [execOps, h1, Transaction.CreateOne, hw', hv]

/-- Counterexample to C13: the reference `SEED_123` is in the log of the example store, yet a
credit with that reference for an email that no user has returns the error `user not found`, and
a credit of -100 USD with that reference for the first user, whose balance is 10 USD, returns
the error of the check constraint: the upsert of the asset runs before the insertion of the row
and the store refuses it first. -/
theorem CreditWalletByEmail_duplicate_counterexample :
    (∃ t ∈ exampleStore.transactions, t.Reference = "SEED_123") ∧
      CreditWalletByEmail exampleStore "nobody@mzl.com" "USD" 5 "SEED_123" "deposit" "PAYSTACK"
        = (some (.Errorf "user not found"), exampleStore) ∧
      CreditWalletByEmail exampleStore "safety_test@mzl.com" "USD" (-100) "SEED_123" "deposit"
          "PAYSTACK"
        = (some (.CheckConstraint "non_negative_balance"), exampleStore) := by
  decide!

/-- C13, amended: when the reference is already in the log, `CreditWalletByEmail` leaves the
store unchanged whatever the email, the currency and the amount are, so that two credits with
one reference change a balance once at most; it returns `nil` when a user has the email, the
user has a wallet and the store accepts the upsert of the asset, which it does for every amount
that is not negative when no balance is negative. -/
theorem CreditWalletByEmail_duplicate (db : DB) (email currency : String) (amount : Amount)
    (reference description provider : String)
    (hdup : ∃ t ∈ db.transactions, t.Reference = reference) :
    (CreditWalletByEmail db email currency amount reference description provider).2 = db ∧
      (∀ user wallet, db.users.find? (fun u => u.Email == email) = some user →
        db.wallets.find? (fun w => w.UserID == user.ID) = some wallet →
        (∃ db1, WalletAsset.UpsertOne wallet.ID currency amount db = .ok db1) →
        CreditWalletByEmail db email currency amount reference description provider = (none, db)) ∧
      (∀ user wallet, db.users.find? (fun u => u.Email == email) = some user →
        db.wallets.find? (fun w => w.UserID == user.ID) = some wallet →
        NonNegativeBalances db → 0 ≤ amount →
        CreditWalletByEmail db email currency amount reference description provider = (none, db)) := by
  have hcase : ∀ user wallet, db.users.find? (fun u => u.Email == email) = some user →
      db.wallets.find? (fun w => w.UserID == user.ID) = some wallet →
      (∃ db1, WalletAsset.UpsertOne wallet.ID currency amount db = .ok db1) →
      CreditWalletByEmail db email currency amount reference description provider = (none, db) := by
    intro user wallet hu hw hup
    have hmem : ∃ w ∈ db.wallets, w.ID = wallet.ID := ⟨wallet, List.mem_of_find?_eq_some hw, rfl⟩
    have hex := (execOps_credit_duplicate db wallet.ID currency amount reference (some provider)
      (some description) hdup).2 hmem hup
    simp only [CreditWalletByEmail, hu, hw, Prisma.Transaction, hex,
      isUniqueConstraintError_reference, if_true]
  refine ⟨?_, hcase, ?_⟩
  · unfold CreditWalletByEmail
    split
    · rfl
    · split
      · rfl
      next wallet _ =>
        obtain ⟨e, he⟩ := (execOps_credit_duplicate db wallet.ID currency amount reference
          (some provider) (some description) hdup).1
        simp only [Prisma.Transaction, he]
        split <;> rfl
  · intro user wallet hu hw hnn ha
    exact hcase user wallet hu hw
      (WalletAsset.UpsertOne_accepts wallet.ID currency amount db
        ⟨wallet, List.mem_of_find?_eq_some hw, rfl⟩ hnn ha)

/-- C13 as amended, at the example store: a credit of 5 USD to the first user with the
reference `SEED_123` of the log returns `nil` and changes nothing. -/
theorem CreditWalletByEmail_duplicate_witness :
    (∃ t ∈ exampleStore.transactions, t.Reference = "SEED_123") ∧
      CreditWalletByEmail exampleStore "safety_test@mzl.com" "USD" 5 "SEED_123" "deposit" "PAYSTACK"
        = (none, exampleStore) :=
  ⟨by decide,
    (CreditWalletByEmail_duplicate exampleStore "safety_test@mzl.com" "USD" 5 "SEED_123" "deposit"
      "PAYSTACK" (by decide)).2.2 ⟨"u1", "safety_test@mzl.com", "hashed_pass", "Safety Test", none⟩
      ⟨"w1", "u1", "1000000001"⟩ (by decide) (by decide) (by decide!) (by decide!)⟩

/-! ## Rate limiting -/

theorem counters_map_other (counters : List RedisCounter) (key : String)
    (f : RedisCounter → RedisCounter) (h : ∀ c ∈ counters, c.key ≠ key) :
    counters.map (fun x => if x.key == key then f x else x) = counters := by
  induction counters with
  | nil => rfl
  | cons c cs ih =>
    have hc : (c.key == key) = false := by simpa using h c (List.mem_cons_self _ _)
    simp only [List.map_cons, hc, Bool.false_eq_true, if_false]
    rw [ih (fun x hx => h x (List.mem_cons_of_mem _ hx))]

theorem counters_find_other (counters : List RedisCounter) (key : String)
    (h : ∀ c ∈ counters, c.key ≠ key) : counters.find? (fun c => c.key == key) = none := by
  rw [List.find?_eq_none]
  intro c hc
  simpa using h c hc

theorem RateLimitHandler_first (r : RedisStore) (userID : String) (limit : Int) (window : Nat)
    (hav : r.available = true) (habs : ∀ c ∈ r.counters, c.key ≠ "ratelimit:" ++ userID) :
    RateLimitHandler r (some userID) limit window
      = (rateLimitVerdict limit 1, withCounter r userID 1 window) := by
  have hfind := counters_find_other r.counters _ habs
  have hmap := counters_map_other r.counters ("ratelimit:" ++ userID)
    (fun x => { x with ttl := some window }) habs
  simp only [RateLimitHandler, IsRateLimited, RedisStore.Incr, hav, hfind, RedisStore.Expire,
    Bool.not_true, Bool.false_eq_true, if_false, beq_self_eq_true, if_true, List.map_append,
    hmap, List.map_cons, List.map_nil, rateLimitVerdict, withCounter]
  by_cases hl : (1 : Int) > limit <;> simp [hl]

theorem RateLimitHandler_next (r : RedisStore) (userID : String) (limit : Int) (window : Nat)
    (count : Int) (hav : r.available = true)
    (habs : ∀ c ∈ r.counters, c.key ≠ "ratelimit:" ++ userID) (hc : count ≠ 0) :
    RateLimitHandler (withCounter r userID count window) (some userID) limit window
      = (rateLimitVerdict limit (count + 1), withCounter r userID (count + 1) window) := by
  have hfind := counters_find_other r.counters _ habs
  have hmap := counters_map_other r.counters ("ratelimit:" ++ userID)
    (fun x => { x with count := x.count + 1 }) habs
  have hne : (count + 1 == 1) = false := by simpa using hc
  simp only [RateLimitHandler, IsRateLimited, RedisStore.Incr, withCounter, hav, List.find?_append,
    hfind, List.find?_cons, beq_self_eq_true, Option.none_or, Bool.not_true, Bool.false_eq_true,
    if_false, if_true, List.map_append, hmap, List.map_cons, List.map_nil, hne, rateLimitVerdict]
  by_cases hl : count + 1 > limit <;> simp [hl]

theorem rateLimitedRequests_from (r : RedisStore) (userID : String) (limit : Int) (window : Nat)
    (hav : r.available = true) (habs : ∀ c ∈ r.counters, c.key ≠ "ratelimit:" ++ userID)
    (n : Nat) : ∀ k : Nat, k ≠ 0 →
      rateLimitedRequests userID limit window n (withCounter r userID k window)
        = ((List.range n).map (fun i : Nat => rateLimitVerdict limit ((k : Int) + (i : Int) + 1)),
            withCounter r userID ((k + n : Nat) : Int) window) := by
  induction n with
  | zero =>
    intro k _
    simp [rateLimitedRequests]
  | succ n ih =>
    intro k hk
    have hstep := RateLimitHandler_next r userID limit window k hav habs (by exact_mod_cast hk)
    have hrest := ih (k + 1) (Nat.succ_ne_zero k)
    simp only [rateLimitedRequests, hstep]
    have hcast : ((k : Int) + 1) = ((k + 1 : Nat) : Int) := by push_cast; rfl
    rw [hcast, hrest, List.range_succ_eq_map, List.map_cons, List.map_map]
    refine Prod.ext ?_ ?_
    · simp only [List.cons.injEq, Nat.cast_zero, add_zero]
      refine ⟨by rw [hcast], ?_⟩
      apply List.map_congr_left
      intro i _
      simp only [Function.comp, Nat.succ_eq_add_one]
      congr 1
      push_cast
      ring
    · simp only
      congr 1
      push_cast
      ring

/-- C15: `IsRateLimited` reports a request as limited, and `RateLimitHandler` rejects it with
status 429, exactly when the increment of the counter succeeds and the count it returns exceeds
the limit; every other request is passed on, in particular when the store returns an error
(fail open). The expiry is set by no request whose increment returns another count than 1.
Starting without a counter, with a store that answers, the request number `i + 1` is rejected
exactly when `i + 1` exceeds the limit, and after the requests the counter stands at their
number and expires after the window. -/
theorem rate_limit (r : RedisStore) (userID : String) (limit : Int) (window : Nat) :
    ((IsRateLimited r userID limit window).1.1 = true ↔
        (r.Incr ("ratelimit:" ++ userID)).1.2 = none ∧
          limit < (r.Incr ("ratelimit:" ++ userID)).1.1) ∧
      (RateLimitHandler r (some userID) limit window).1
        = (if (IsRateLimited r userID limit window).1.1 then
            .Respond 429 "rate limit exceeded. please try again later" else .Next) ∧
      ((r.Incr ("ratelimit:" ++ userID)).1.2 ≠ none →
        RateLimitHandler r (some userID) limit window = (.Next, r)) ∧
      ((r.Incr ("ratelimit:" ++ userID)).1.1 ≠ 1 →
        (IsRateLimited r userID limit window).2 = (r.Incr ("ratelimit:" ++ userID)).2) ∧
      (r.available = true → (∀ c ∈ r.counters, c.key ≠ "ratelimit:" ++ userID) → ∀ n : Nat,
        rateLimitedRequests userID limit window (n + 1) r
          = ((List.range (n + 1)).map (fun i : Nat => rateLimitVerdict limit ((i : Int) + 1)),
              withCounter r userID ((n + 1 : Nat) : Int) window)) := by
  refine ⟨?_, ?_, ?_, ?_, ?_⟩
  · unfold IsRateLimited
    split
    · next err r1 heq => simp [heq]
    · next count r1 heq =>
      rw [heq]
      by_cases hl : count > limit <;> simp [hl]
  · rcases hI : r.Incr ("ratelimit:" ++ userID) with ⟨⟨count, err⟩, r1⟩
    cases err with
    | some e => simp [RateLimitHandler, IsRateLimited, hI]
    | none => by_cases hl : count > limit <;> simp [RateLimitHandler, IsRateLimited, hI, hl]
  · intro herr
    cases hav : r.available with
    | false => simp [RateLimitHandler, IsRateLimited, RedisStore.Incr, hav]
    | true =>
      exfalso
      apply herr
      unfold RedisStore.Incr
      simp only [hav, Bool.not_true, Bool.false_eq_true, if_false]
      split <;> rfl
  · intro hone
    rcases hI : r.Incr ("ratelimit:" ++ userID) with ⟨⟨count, err⟩, r1⟩
    rw [hI] at hone
    have hne : (count == 1) = false := by simpa using hone
    cases err with
    | some e => simp [IsRateLimited, hI]
    | none => by_cases hl : count > limit <;> simp [IsRateLimited, hI, hl, hne]
  · intro hav habs n
    have hfirst := RateLimitHandler_first r userID limit window hav habs
    have hrest := rateLimitedRequests_from r userID limit window hav habs n 1 (by decide)
    simp only [Nat.cast_one] at hrest
    simp only [rateLimitedRequests, hfirst]
    rw [hrest, List.range_succ_eq_map, List.map_cons, List.map_map]
    refine Prod.ext ?_ ?_
    · simp only [List.cons.injEq, Nat.cast_zero, zero_add, true_and]
      apply List.map_congr_left
      intro i _
      simp only [Function.comp, Nat.succ_eq_add_one]
      congr 1
      push_cast
      ring
    · simp only
      congr 1
      push_cast
      ring

/-- C15 at a store without counters: of four requests with limit 2 the first two pass and the
last two are rejected. -/
theorem rate_limit_witness :
    emptyRedis.available = true ∧
      (∀ c ∈ emptyRedis.counters, c.key ≠ "ratelimit:" ++ "u1") ∧
      rateLimitedRequests "u1" 2 60 4 emptyRedis
        = ((List.range 4).map (fun i : Nat => rateLimitVerdict 2 ((i : Int) + 1)),
            withCounter emptyRedis "u1" ((4 : Nat) : Int) 60) ∧
      (rateLimitedRequests "u1" 2 60 4 emptyRedis).1
        = [.Next, .Next, .Respond 429 "rate limit exceeded. please try again later",
            .Respond 429 "rate limit exceeded. please try again later"] :=
  ⟨by decide, by decide,
    (rate_limit emptyRedis "u1" 2 60).2.2.2.2 (by decide) (by decide) 3, by decide⟩

/-! ## The worker of the webhook queue -/

theorem find_setItems (queues : List RedisList) (key : String) (items : List QueueItem)
    (h : queues.any (fun l => l.key == key) = true) :
    (queues.map (fun l => if l.key == key then { l with items := items } else l)).find?
        (fun l => l.key == key) = some ⟨key, items⟩ := by
  induction queues with
  | nil => simp at h
  | cons q qs ih =>
    by_cases hq : q.key = key
    · simp [hq]
    · have hq' : (q.key == key) = false := by simpa using hq
      simp only [List.any_cons, hq', Bool.false_or] at h
      simp only [List.map_cons, hq', Bool.false_eq_true, if_false, List.find?_cons]
      exact ih h

theorem find_setItems_other (queues : List RedisList) (key other : String)
    (items : List QueueItem) (hne : other ≠ key) :
    (queues.map (fun l => if l.key == key then { l with items := items } else l)).find?
        (fun l => l.key == other) = queues.find? (fun l => l.key == other) := by
  induction queues with
  | nil => rfl
  | cons q qs ih =>
    by_cases hq : q.key = key
    · have ho : (q.key == other) = false := by
        simp only [beq_eq_false_iff_ne, hq]
        exact Ne.symm hne
      simp only [List.map_cons, hq, beq_self_eq_true, if_true, List.find?_cons]
      have ho2 : (key == other) = false := by simpa using Ne.symm hne
      simp only [ho2, ← hq, ho]
      rw [hq]
      exact ih
    · have hq' : (q.key == key) = false := by simpa using hq
      simp only [List.map_cons, hq', Bool.false_eq_true, if_false, List.find?_cons, ih]

theorem find_filter_other (queues : List RedisList) (key other : String) (hne : other ≠ key) :
    (queues.filter (fun l => !(l.key == key))).find? (fun l => l.key == other)
      = queues.find? (fun l => l.key == other) := by
  induction queues with
  | nil => rfl
  | cons q qs ih =>
    by_cases hq : q.key = key
    · have ho : (q.key == other) = false := by
        simp only [beq_eq_false_iff_ne, hq]
        exact Ne.symm hne
      simp only [List.filter_cons, hq, beq_self_eq_true, Bool.not_true, Bool.false_eq_true,
        if_false, List.find?_cons]
      have ho2 : (key == other) = false := by simpa using Ne.symm hne
      rw [ho2]
      exact ih
    · have hq' : (q.key == key) = false := by simpa using hq
      simp only [List.filter_cons, hq', Bool.not_false, if_true, List.find?_cons, ih]

theorem RedisStore.list_setList (r : RedisStore) (key : String) (items : List QueueItem) :
    (r.setList key items).list key = items := by
  unfold RedisStore.setList RedisStore.list
  cases items with
  | nil =>
    have : (r.queues.filter (fun l => !(l.key == key))).find? (fun l => l.key == key) = none := by
      rw [List.find?_eq_none]
      intro l hl
      simp only [List.mem_filter] at hl
      simpa using hl.2
    simp [this]
  | cons x xs =>
    by_cases hany : r.queues.any (fun l => l.key == key) = true
    · simp only [List.isEmpty_cons, Bool.false_eq_true, if_false, hany, if_true,
        find_setItems r.queues key (x :: xs) hany]
    · have hnone : r.queues.find? (fun l => l.key == key) = none := by
        rw [List.find?_eq_none]
        intro l hl
        simp only [List.any_eq_true, not_exists, not_and] at hany
        exact hany l hl
      simp [hany, List.find?_append, hnone]

theorem RedisStore.list_setList_other (r : RedisStore) (key other : String)
    (items : List QueueItem) (hne : other ≠ key) :
    (r.setList key items).list other = r.list other := by
  have hq : (r.setList key items).queues.find? (fun l => l.key == other)
      = r.queues.find? (fun l => l.key == other) := by
    unfold RedisStore.setList
    by_cases h1 : items.isEmpty = true
    · simp only [h1, if_true]
      exact find_filter_other r.queues key other hne
    · by_cases h2 : r.queues.any (fun l => l.key == key) = true
      · simp only [h1, h2, Bool.false_eq_true, if_true, if_false]
        exact find_setItems_other r.queues key other items hne
      · have ho : (key == other) = false := by simpa using Ne.symm hne
        simp only [h1, h2, Bool.false_eq_true, if_false, List.find?_append, List.find?_cons, ho,
          List.find?_nil]
        cases r.queues.find? (fun l => l.key == other) <;> rfl
  unfold RedisStore.list
  rw [hq]

theorem RedisStore.setList_flags (r : RedisStore) (key : String) (items : List QueueItem) :
    (r.setList key items).available = r.available ∧
      (r.setList key items).pushesRefused = r.pushesRefused ∧
      (r.setList key items).entries = r.entries ∧
      (r.setList key items).counters = r.counters := by
  unfold RedisStore.setList
  split
  · exact ⟨rfl, rfl, rfl, rfl⟩
  · split <;> exact ⟨rfl, rfl, rfl, rfl⟩

theorem deadLetter_ne (queueName : String) : deadLetter queueName ≠ queueName := by
  intro h
  have hd := congrArg String.length h
  have h12 : (":dead_letter" : String).length = 12 := rfl
  simp only [deadLetter, String.length_append, h12] at hd
  omega

theorem QueueState.push {r : RedisStore} {queueName : String} {items dead : List QueueItem}
    (h : QueueState r queueName items dead) (item : QueueItem) :
    QueueState (r.RPush queueName item).2 queueName (items ++ [item]) dead := by
  obtain ⟨hav, hpush, hl, hd⟩ := h
  have hf := RedisStore.setList_flags r queueName (r.list queueName ++ [item])
  simp only [RedisStore.RPush, hav, hpush, Bool.not_true, Bool.false_eq_true, if_false]
  refine ⟨hf.1.trans hav, hf.2.1.trans hpush, ?_, ?_⟩
  · rw [RedisStore.list_setList, hl]
  · rw [RedisStore.list_setList_other _ _ _ _ (deadLetter_ne queueName), hd]

theorem QueueState.pushDead {r : RedisStore} {queueName : String} {items dead : List QueueItem}
    (h : QueueState r queueName items dead) (item : QueueItem) :
    QueueState (r.RPush (deadLetter queueName) item).2 queueName items (dead ++ [item]) := by
  obtain ⟨hav, hpush, hl, hd⟩ := h
  have hf := RedisStore.setList_flags r (deadLetter queueName)
    (r.list (deadLetter queueName) ++ [item])
  simp only [RedisStore.RPush, hav, hpush, Bool.not_true, Bool.false_eq_true, if_false]
  refine ⟨hf.1.trans hav, hf.2.1.trans hpush, ?_, ?_⟩
  · rw [RedisStore.list_setList_other _ _ _ _ (Ne.symm (deadLetter_ne queueName)), hl]
  · rw [RedisStore.list_setList, hd]

theorem QueueState.pop {r : RedisStore} {queueName : String} {item : QueueItem}
    {rest dead : List QueueItem} (h : QueueState r queueName (item :: rest) dead) :
    (r.BLPop queueName).1 = .ok (some item) ∧ QueueState (r.BLPop queueName).2 queueName rest dead := by
  obtain ⟨hav, hpush, hl, hd⟩ := h
  have hf := RedisStore.setList_flags r queueName rest
  simp only [RedisStore.BLPop, hav, hl, Bool.not_true, Bool.false_eq_true, if_false, true_and]
  refine ⟨hf.1.trans hav, hf.2.1.trans hpush, ?_, ?_⟩
  · rw [RedisStore.list_setList]
  · rw [RedisStore.list_setList_other _ _ _ _ (deadLetter_ne queueName), hd]

theorem QueueState.idle {r : RedisStore} {queueName : String} {dead : List QueueItem}
    (h : QueueState r queueName [] dead) : r.BLPop queueName = (.ok none, r) := by
  obtain ⟨hav, _, hl, _⟩ := h
  simp only [RedisStore.BLPop, hav, hl, Bool.not_true, Bool.false_eq_true, if_false]

theorem QueueState.processed {r : RedisStore} {queueName : String} {items dead : List QueueItem}
    (h : QueueState r queueName items dead) (process : Processor) (hp : KeepsQueues process)
    (payload : WebhookBody) (db : DB) :
    QueueState (process payload db r).2.2 queueName items dead := by
  obtain ⟨hav, hpush, hl, hd⟩ := h
  obtain ⟨hq, ha, hr⟩ := hp payload db r
  refine ⟨ha.trans hav, hr.trans hpush, ?_, ?_⟩
  · rw [← hl]
    simp only [RedisStore.list, hq]
  · rw [← hd]
    simp only [RedisStore.list, hq]

theorem QueueState.failed {r : RedisStore} {queueName : String} {items dead : List QueueItem}
    (h : QueueState r queueName items dead) (j : job) :
    QueueState (handleFailure r queueName j) queueName
      (if j.Retries + 1 < 3 then items ++ [.Job ⟨j.Payload, j.Retries + 1⟩] else items)
      (if j.Retries + 1 < 3 then dead else dead ++ [.Job ⟨j.Payload, j.Retries + 1⟩]) := by
  unfold handleFailure
  simp only [maxRetries]
  split
  · exact h.push _
  · exact h.pushDead _

theorem StartWorker.iteration_job (process : Processor) (hp : KeepsQueues process)
    (queueName : String) (db : DB) (r : RedisStore) (j : job) (rest dead : List QueueItem)
    (h : QueueState r queueName (.Job j :: rest) dead) :
    (StartWorker.iteration process queueName db r).1
        = some (process j.Payload db (r.BLPop queueName).2).1 ∧
      (StartWorker.iteration process queueName db r).2.1
        = (process j.Payload db (r.BLPop queueName).2).2.1 ∧
      ((process j.Payload db (r.BLPop queueName).2).1 = none →
        QueueState (StartWorker.iteration process queueName db r).2.2 queueName rest dead) ∧
      ((process j.Payload db (r.BLPop queueName).2).1 ≠ none →
        QueueState (StartWorker.iteration process queueName db r).2.2 queueName
          (if j.Retries + 1 < 3 then rest ++ [.Job ⟨j.Payload, j.Retries + 1⟩] else rest)
          (if j.Retries + 1 < 3 then dead else dead ++ [.Job ⟨j.Payload, j.Retries + 1⟩])) := by
  obtain ⟨hpop, hstate⟩ := h.pop
  have hproc := hstate.processed process hp j.Payload db
  rcases hb : r.BLPop queueName with ⟨res, r1⟩
  rw [hb] at hpop hstate hproc
  simp only at hpop hstate hproc
  subst hpop
  rcases hout : process j.Payload db r1 with ⟨err, db1, r2⟩
  rw [hout] at hproc
  simp only at hproc
  cases err with
  | none =>
    simp only [StartWorker.iteration, hb, hout, ne_eq, not_true_eq_false, false_implies,
      and_true, true_and, forall_const]
    exact hproc
  | some e =>
    simp only [StartWorker.iteration, hb, hout, ne_eq, reduceCtorEq, not_false_eq_true,
      false_implies, true_and, forall_const]
    exact hproc.failed j

theorem StartWorker.iteration_corrupt (process : Processor) (queueName : String) (db : DB)
    (r : RedisStore) (raw : String) (rest dead : List QueueItem)
    (h : QueueState r queueName (.Corrupt raw :: rest) dead) :
    (StartWorker.iteration process queueName db r).1 = none ∧
      (StartWorker.iteration process queueName db r).2.1 = db ∧
      QueueState (StartWorker.iteration process queueName db r).2.2 queueName rest dead := by
  obtain ⟨hpop, hstate⟩ := h.pop
  rcases hb : r.BLPop queueName with ⟨res, r1⟩
  rw [hb] at hpop hstate
  simp only at hpop hstate
  subst hpop
  simp only [StartWorker.iteration, hb, true_and]
  exact hstate

theorem StartWorker.iteration_idle (process : Processor) (queueName : String) (db : DB)
    (r : RedisStore) (dead : List QueueItem) (h : QueueState r queueName [] dead) :
    StartWorker.iteration process queueName db r = (none, db, r) := by
  simp only [StartWorker.iteration, h.idle]

theorem StartWorker_idle (process : Processor) (queueName : String) (r : RedisStore)
    (dead : List QueueItem) (h : QueueState r queueName [] dead) (n : Nat) (db : DB) :
    StartWorker process queueName n db r = ([], db, r) := by
  induction n with
  | zero => rfl
  | succ n ih =>
    simp only [StartWorker, StartWorker.iteration_idle process queueName db r dead h, ih,
      Option.toList, List.nil_append]

theorem StartWorker_succ (process : Processor) (queueName : String) (n : Nat) (db : DB)
    (r : RedisStore) :
    StartWorker process queueName (n + 1) db r
      = ((StartWorker.iteration process queueName db r).1.toList ++
          (StartWorker process queueName n (StartWorker.iteration process queueName db r).2.1
            (StartWorker.iteration process queueName db r).2.2).1,
        (StartWorker process queueName n (StartWorker.iteration process queueName db r).2.1
            (StartWorker.iteration process queueName db r).2.2).2) := by
  simp only [StartWorker]

theorem StartWorker_add (process : Processor) (queueName : String) (m n : Nat) (db : DB)
    (r : RedisStore) :
    StartWorker process queueName (m + n) db r
      = ((StartWorker process queueName m db r).1 ++
          (StartWorker process queueName n (StartWorker process queueName m db r).2.1
            (StartWorker process queueName m db r).2.2).1,
        (StartWorker process queueName n (StartWorker process queueName m db r).2.1
            (StartWorker process queueName m db r).2.2).2) := by
  induction m generalizing db r with
  | zero => simp [StartWorker]
  | succ m ih =>
    rw [Nat.add_right_comm, StartWorker_succ, ih, StartWorker_succ]
    simp only [List.append_assoc]

theorem StartWorker.iteration_attempt (process : Processor) (hp : KeepsQueues process)
    (queueName : String) (db : DB) (r : RedisStore) (payload : WebhookBody) (k : Int)
    (dead : List QueueItem) (h : QueueState r queueName [.Job ⟨payload, k⟩] dead) :
    ((StartWorker.iteration process queueName db r).1 = some none ∧
        QueueState (StartWorker.iteration process queueName db r).2.2 queueName [] dead) ∨
      ((∃ e, (StartWorker.iteration process queueName db r).1 = some (some e)) ∧
        QueueState (StartWorker.iteration process queueName db r).2.2 queueName
          (if k + 1 < 3 then [.Job ⟨payload, k + 1⟩] else [])
          (if k + 1 < 3 then dead else dead ++ [.Job ⟨payload, k + 1⟩])) := by
  obtain ⟨h1, _, h3, h4⟩ := StartWorker.iteration_job process hp queueName db r ⟨payload, k⟩ [] dead h
  cases hout : (process payload db (r.BLPop queueName).2).1 with
  | none =>
    left
    exact ⟨by rw [h1]; simp only [hout], h3 hout⟩
  | some e =>
    right
    refine ⟨⟨e, by rw [h1]; simp only [hout]⟩, ?_⟩
    have := h4 (by simp only [hout]; simp)
    simpa using this

theorem StartWorker_three (process : Processor) (hp : KeepsQueues process) (queueName : String)
    (db : DB) (redis : RedisStore) (payload : WebhookBody) (dead : List QueueItem)
    (h : QueueState redis queueName [.Job ⟨payload, 0⟩] dead) :
    (((StartWorker process queueName 3 db redis).1.map Option.isSome = [false] ∨
          (StartWorker process queueName 3 db redis).1.map Option.isSome = [true, false] ∨
          (StartWorker process queueName 3 db redis).1.map Option.isSome = [true, true, false]) ∧
        QueueState (StartWorker process queueName 3 db redis).2.2 queueName [] dead) ∨
      ((StartWorker process queueName 3 db redis).1.map Option.isSome = [true, true, true] ∧
        QueueState (StartWorker process queueName 3 db redis).2.2 queueName []
          (dead ++ [.Job ⟨payload, 3⟩])) := by
  rw [StartWorker_succ]
  rcases StartWorker.iteration_attempt process hp queueName db redis payload 0 dead h with
    ⟨ht1, hs1⟩ | ⟨⟨e1, ht1⟩, hs1⟩
  · left
    rw [StartWorker_idle process queueName _ dead hs1, ht1]
    exact ⟨Or.inl rfl, hs1⟩
  · norm_num at hs1
    rw [StartWorker_succ]
    rcases StartWorker.iteration_attempt process hp queueName _ _ payload 1 dead hs1 with
      ⟨ht2, hs2⟩ | ⟨⟨e2, ht2⟩, hs2⟩
    · left
      rw [StartWorker_idle process queueName _ dead hs2, ht1, ht2]
      exact ⟨Or.inr (Or.inl rfl), hs2⟩
    · norm_num at hs2
      rw [StartWorker_succ]
      rcases StartWorker.iteration_attempt process hp queueName _ _ payload 2 dead hs2 with
        ⟨ht3, hs3⟩ | ⟨⟨e3, ht3⟩, hs3⟩
      · left
        rw [StartWorker_idle process queueName _ dead hs3, ht1, ht2, ht3]
        exact ⟨Or.inr (Or.inr rfl), hs3⟩
      · norm_num at hs3
        right
        rw [StartWorker_idle process queueName _ _ hs3, ht1, ht2, ht3]
        exact ⟨rfl, hs3⟩

theorem RedisQueue.Delete_flags (r : RedisStore) (key : String) :
    (RedisQueue.Delete r key).2.queues = r.queues ∧
      (RedisQueue.Delete r key).2.available = r.available ∧
      (RedisQueue.Delete r key).2.pushesRefused = r.pushesRefused := by
  unfold RedisQueue.Delete RedisStore.Del
  split <;> exact ⟨rfl, rfl, rfl⟩

theorem ProcessPaystackEvent_keepsQueues : KeepsQueues ProcessPaystackEvent := by
  intro payload db r
  unfold ProcessPaystackEvent
  split
  · exact ⟨rfl, rfl, rfl⟩
  · split
    · simp only
      split
      · next user _ =>
        have h1 := RedisQueue.Delete_flags r ("wallet:" ++ user.ID)
        have h2 := RedisQueue.Delete_flags (RedisQueue.Delete r ("wallet:" ++ user.ID)).2
          ("tx_history:" ++ user.ID)
        exact ⟨h2.1.trans h1.1, h2.2.1.trans h1.2.1, h2.2.2.trans h1.2.2⟩
      · exact ⟨rfl, rfl, rfl⟩
    · split
      · exact ⟨rfl, rfl, rfl⟩
      · split <;> exact ⟨rfl, rfl, rfl⟩

theorem flakyProcessor_keepsQueues : KeepsQueues flakyProcessor := by
  intro payload db r
  unfold flakyProcessor
  split <;> exact ⟨rfl, rfl, rfl⟩

/-- C16: with a store that answers and accepts pushes, `handleFailure` pushes the job, with its
payload and its counter plus one, to the queue it came from when the new counter is below 3 and
to the dead-letter queue otherwise, and to no other queue; a pass of the worker takes the job
at the head of the queue, processes its payload once, and calls `handleFailure` exactly when
the processing returns an error. For a queue that holds one job with counter 0: the job is
processed three times at most and after three passes of the worker nothing happens any more;
when every attempt fails there are exactly three attempts, after which the queue is empty and
the dead-letter queue has received the job with counter 3 and its payload; when two attempts
fail and the third succeeds the job is in neither queue. -/
theorem worker_bounded_retry (process : Processor) (hp : KeepsQueues process)
    (queueName : String) (db : DB) (redis : RedisStore) (payload : WebhookBody)
    (dead : List QueueItem) (h : QueueState redis queueName [.Job ⟨payload, 0⟩] dead) :
    (∀ (r : RedisStore) (j : job) (items dead1 : List QueueItem),
        QueueState r queueName items dead1 →
        QueueState (handleFailure r queueName j) queueName
          (if j.Retries + 1 < 3 then items ++ [.Job ⟨j.Payload, j.Retries + 1⟩] else items)
          (if j.Retries + 1 < 3 then dead1 else dead1 ++ [.Job ⟨j.Payload, j.Retries + 1⟩])) ∧
      (∀ (d : DB) (r : RedisStore) (j : job) (rest dead1 : List QueueItem),
        QueueState r queueName (.Job j :: rest) dead1 →
        (StartWorker.iteration process queueName d r).1
            = some (process j.Payload d (r.BLPop queueName).2).1 ∧
          ((process j.Payload d (r.BLPop queueName).2).1 = none →
            QueueState (StartWorker.iteration process queueName d r).2.2 queueName rest dead1) ∧
          ((process j.Payload d (r.BLPop queueName).2).1 ≠ none →
            QueueState (StartWorker.iteration process queueName d r).2.2 queueName
              (if j.Retries + 1 < 3 then rest ++ [.Job ⟨j.Payload, j.Retries + 1⟩] else rest)
              (if j.Retries + 1 < 3 then dead1
                else dead1 ++ [.Job ⟨j.Payload, j.Retries + 1⟩]))) ∧
      (∀ n, 3 ≤ n →
        StartWorker process queueName n db redis = StartWorker process queueName 3 db redis) ∧
      (StartWorker process queueName 3 db redis).1.length ≤ 3 ∧
      ((∀ o ∈ (StartWorker process queueName 3 db redis).1, o ≠ none) →
        (StartWorker process queueName 3 db redis).1.length = 3 ∧
          QueueState (StartWorker process queueName 3 db redis).2.2 queueName []
            (dead ++ [.Job ⟨payload, 3⟩])) ∧
      ((StartWorker process queueName 3 db redis).1.map Option.isSome = [true, true, false] →
        QueueState (StartWorker process queueName 3 db redis).2.2 queueName [] dead) := by
  have h3 := StartWorker_three process hp queueName db redis payload dead h
  have hlen : ∀ l : List Bool,
      (StartWorker process queueName 3 db redis).1.map Option.isSome = l →
      (StartWorker process queueName 3 db redis).1.length = l.length := by
    intro l hl
    rw [← hl, List.length_map]
  refine ⟨fun r j items dead1 hs => hs.failed j, ?_, ?_, ?_, ?_, ?_⟩
  · intro d r j rest dead1 hs
    obtain ⟨h1, _, h3, h4⟩ := StartWorker.iteration_job process hp queueName d r j rest dead1 hs
    exact ⟨h1, h3, h4⟩
  · intro n hn
    obtain ⟨m, rfl⟩ := Nat.exists_eq_add_of_le hn
    have hidle : ∃ d, QueueState (StartWorker process queueName 3 db redis).2.2 queueName [] d := by
      rcases h3 with ⟨_, hs⟩ | ⟨_, hs⟩
      · exact ⟨_, hs⟩
      · exact ⟨_, hs⟩
    obtain ⟨d, hd⟩ := hidle
    rw [StartWorker_add, StartWorker_idle process queueName _ d hd]
    simp
  · rcases h3 with ⟨ht | ht | ht, _⟩ | ⟨ht, _⟩ <;> rw [hlen _ ht] <;> simp
  · intro hall
    have hall' : ∀ b ∈ (StartWorker process queueName 3 db redis).1.map Option.isSome, b = true := by
      intro b hb
      obtain ⟨o, ho, rfl⟩ := List.mem_map.mp hb
      cases o with
      | none => exact absurd rfl (hall none ho)
      | some e => rfl
    rcases h3 with ⟨ht | ht | ht, _⟩ | ⟨ht, hs⟩
    · rw [ht] at hall'
      exact absurd (hall' false (by simp)) (by decide)
    · rw [ht] at hall'
      exact absurd (hall' false (by simp)) (by decide)
    · rw [ht] at hall'
      exact absurd (hall' false (by simp)) (by decide)
    · exact ⟨by rw [hlen _ ht]; rfl, hs⟩
  · intro ht
    rcases h3 with ⟨_, hs⟩ | ⟨ht2, _⟩
    · exact hs
    · rw [ht] at ht2
      exact absurd ht2 (by decide)

/-- C16 at two runs of the worker on a queue with one job: with a payload that is no event,
which `ProcessPaystackEvent` refuses at every attempt, the job is in the dead-letter queue
after three attempts; with a processing that fails twice and then succeeds it is in neither
queue. -/
theorem worker_bounded_retry_witness :
    QueueState (queueOf garbageBody) "payment_webhooks" [.Job ⟨garbageBody, 0⟩] [] ∧
      ((StartWorker ProcessPaystackEvent "payment_webhooks" 3 exampleStore
          (queueOf garbageBody)).1.length = 3 ∧
        QueueState (StartWorker ProcessPaystackEvent "payment_webhooks" 3 exampleStore
          (queueOf garbageBody)).2.2 "payment_webhooks" [] ([] ++ [.Job ⟨garbageBody, 3⟩])) ∧
      QueueState (StartWorker flakyProcessor "payment_webhooks" 3 exampleStore
        (queueOf chargeSuccess)).2.2 "payment_webhooks" [] [] :=
  ⟨⟨by decide, by decide, by decide, by decide⟩,
    (worker_bounded_retry ProcessPaystackEvent ProcessPaystackEvent_keepsQueues "payment_webhooks"
      exampleStore (queueOf garbageBody) garbageBody []
      ⟨by decide, by decide, by decide, by decide⟩).2.2.2.2.1 (by decide),
    (worker_bounded_retry flakyProcessor flakyProcessor_keepsQueues "payment_webhooks"
      exampleStore (queueOf chargeSuccess) chargeSuccess []
      ⟨by decide, by decide, by decide, by decide⟩).2.2.2.2.2 (by decide!)⟩

/-- C17, evaluated at a queue whose one job holds the payload `garbageBody`, which is no
decodable event: the worker does not drop the job. It pushes it back to the queue, with counter
1, after the first attempt, and to the dead-letter queue, with counter 3, after the third. An
element of the queue that is no job is dropped, as the claim says: after one pass of the worker
both queues are empty. -/
theorem worker_malformed_retried :
    garbageBody.event? = none ∧
      (queueOf garbageBody).list "payment_webhooks" = [.Job ⟨garbageBody, 0⟩] ∧
      (StartWorker ProcessPaystackEvent "payment_webhooks" 1 exampleStore
          (queueOf garbageBody)).1
        = [some (.Wrapf "failed to parse webhook body: " jsonError)] ∧
      (StartWorker ProcessPaystackEvent "payment_webhooks" 1 exampleStore
          (queueOf garbageBody)).2.2.list "payment_webhooks" = [.Job ⟨garbageBody, 1⟩] ∧
      (StartWorker ProcessPaystackEvent "payment_webhooks" 3 exampleStore
          (queueOf garbageBody)).2.2.list "payment_webhooks" = [] ∧
      (StartWorker ProcessPaystackEvent "payment_webhooks" 3 exampleStore
          (queueOf garbageBody)).2.2.list (deadLetter "payment_webhooks")
        = [.Job ⟨garbageBody, 3⟩] ∧
      (StartWorker ProcessPaystackEvent "payment_webhooks" 1 exampleStore
          { emptyRedis with queues := [⟨"payment_webhooks", [.Corrupt "not a job"]⟩] }).2.2.list
          "payment_webhooks" = [] ∧
      (StartWorker ProcessPaystackEvent "payment_webhooks" 1 exampleStore
          { emptyRedis with queues := [⟨"payment_webhooks", [.Corrupt "not a job"]⟩] }).2.2.list
          (deadLetter "payment_webhooks") = [] := by
  decide

/-- What one pass of the worker does with an element that is no decodable job and with a job
whose payload is no decodable event. The element that is no job is dropped: nothing is
processed and nothing is pushed to the queue or to the dead-letter queue. The job is
processed: `ProcessPaystackEvent` returns the error of the decoder and changes nothing, and
`handleFailure` pushes the job back with its counter plus one while this is below 3 and to the
dead-letter queue otherwise. -/
theorem worker_malformed (queueName : String) (db : DB) (r : RedisStore)
    (rest dead : List QueueItem) :
    (∀ (process : Processor) (raw : String),
        QueueState r queueName (.Corrupt raw :: rest) dead →
        (StartWorker.iteration process queueName db r).1 = none ∧
          (StartWorker.iteration process queueName db r).2.1 = db ∧
          QueueState (StartWorker.iteration process queueName db r).2.2 queueName rest dead) ∧
      (∀ j : job, j.Payload.event? = none → QueueState r queueName (.Job j :: rest) dead →
        (StartWorker.iteration ProcessPaystackEvent queueName db r).1
            = some (some (.Wrapf "failed to parse webhook body: " jsonError)) ∧
          (StartWorker.iteration ProcessPaystackEvent queueName db r).2.1 = db ∧
          QueueState (StartWorker.iteration ProcessPaystackEvent queueName db r).2.2 queueName
            (if j.Retries + 1 < 3 then rest ++ [.Job ⟨j.Payload, j.Retries + 1⟩] else rest)
            (if j.Retries + 1 < 3 then dead else dead ++ [.Job ⟨j.Payload, j.Retries + 1⟩])) := by
  constructor
  · intro process raw h
    exact StartWorker.iteration_corrupt process queueName db r raw rest dead h
  · intro j hnone h
    have hout : ∀ r1, ProcessPaystackEvent j.Payload db r1
        = (some (.Wrapf "failed to parse webhook body: " jsonError), db, r1) := by
      intro r1
      simp only [ProcessPaystackEvent, hnone]
    obtain ⟨h1, h2, _, h4⟩ := StartWorker.iteration_job ProcessPaystackEvent
      ProcessPaystackEvent_keepsQueues queueName db r j rest dead h
    rw [hout] at h1 h2 h4
    exact ⟨h1, h2, h4 (by simp)⟩

/-- One pass of the worker at a queue whose one job holds a payload that is no event: the job
is back in the queue with counter 1. -/
theorem worker_malformed_witness :
    garbageBody.event? = none ∧
      QueueState (queueOf garbageBody) "payment_webhooks" [.Job ⟨garbageBody, 0⟩] [] ∧
      QueueState (StartWorker.iteration ProcessPaystackEvent "payment_webhooks" exampleStore
          (queueOf garbageBody)).2.2 "payment_webhooks"
        (if (0 : Int) + 1 < 3 then [] ++ [.Job ⟨garbageBody, 0 + 1⟩] else [])
        (if (0 : Int) + 1 < 3 then [] else [] ++ [.Job ⟨garbageBody, 0 + 1⟩]) :=
  ⟨by decide, ⟨by decide, by decide, by decide, by decide⟩,
    ((worker_malformed "payment_webhooks" exampleStore (queueOf garbageBody) [] []).2
      ⟨garbageBody, 0⟩ (by decide) ⟨by decide, by decide, by decide, by decide⟩).2.2⟩

/-! ## `PaystackWebhookHandler` -/

theorem PaystackWebhookHandler_duplicate (r : RedisStore) (body : WebhookBody)
    (reference signature : String) (href : reference ≠ "")
    (hb : body.reference? = (reference, true)) (hs : signature ≠ "")
    (h : r.available = false ∨ r.holds ("idemp:" ++ reference) = true) :
    PaystackWebhookHandler r (some body) signature true = (200, r) := by
  have hs' : (signature == "") = false := by simpa using hs
  have href' : (reference != "") = true := by simpa using href
  rcases TryLockIdempotencyKey_cases r reference 86400 with ⟨_, h1, h2⟩ | ⟨hav, hfree, _⟩
  · rcases hT : TryLockIdempotencyKey r reference 86400 with ⟨⟨locked, e⟩, r1⟩
    rw [hT] at h1 h2
    simp only at h1 h2
    subst h1 h2
    simp [PaystackWebhookHandler, hs', hb, href', hT]
  · rcases h with h | h
    · rw [hav] at h
      exact absurd h (by decide)
    · rw [hfree] at h
      exact absurd h (by decide)

theorem PaystackWebhookHandler_fresh (r : RedisStore) (body : WebhookBody)
    (reference signature : String) (href : reference ≠ "")
    (hb : body.reference? = (reference, true)) (hs : signature ≠ "")
    (hav : r.available = true) (hfree : r.holds ("idemp:" ++ reference) = false) :
    (r.pushesRefused = false →
        PaystackWebhookHandler r (some body) signature true
          = (200, ({ r with entries := r.entries ++ [webhookLock reference] }).setList
              "payment_webhooks" (r.list "payment_webhooks" ++ [QueueItem.Job ⟨body, 0⟩]))) ∧
      (r.pushesRefused = true →
        PaystackWebhookHandler r (some body) signature true = (500, r)) := by
  have hs' : (signature == "") = false := by simpa using hs
  have href' : (reference != "") = true := by simpa using href
  rcases TryLockIdempotencyKey_cases r reference 86400 with ⟨hb2, _, _⟩ | ⟨_, _, hT⟩
  · rcases hb2 with h | h
    · rw [hav] at h
      exact absurd h (by decide)
    · rw [hfree] at h
      exact absurd h (by decide)
  · have hdel := RedisQueue.Delete_lock r ("idemp:" ++ reference) "processing" 86400 hav hfree
    constructor
    · intro hpush
      simp [PaystackWebhookHandler, hs', hb, href', hT, Enqueue, RedisStore.RPush, hav, hpush,
        webhookLock, RedisStore.list]
    · intro hpush
      simp only [hav, hpush] at hdel
      simp only [PaystackWebhookHandler, hs', hb, href', hT, Enqueue, RedisStore.RPush, hav, hpush,
        Bool.not_true, Bool.false_eq_true, if_false, if_true, Bool.and_self, hdel]

theorem statementsKeep_uniqueReferences : StatementsKeep UniqueReferences := by
  refine ⟨?_, ?_, ?_, ?_⟩
  · intro sel f db db' h hok
    unfold UniqueReferences at h ⊢
    rw [WalletAsset.Update_transactions sel f db db' hok]
    exact h
  · intro walletID currency amount db db' h hok
    unfold UniqueReferences at h ⊢
    rw [WalletAsset.UpsertOne_transactions walletID currency amount db db' hok]
    exact h
  · intro walletID amount currency txType reference status gatewayRef provider description db db'
      h hok
    obtain ⟨_, hnew, hdb⟩ := (Transaction.CreateOne_ok_iff _ _ _ _ _ _ _ _ _ db db').mp hok
    unfold UniqueReferences at h ⊢
    rw [hdb]
    simp only [List.map_append, List.map_cons, List.map_nil]
    rw [List.nodup_append]
    refine ⟨h, List.nodup_singleton _, ?_⟩
    intro x hx hx2
    simp only [List.mem_singleton] at hx2
    obtain ⟨t, ht, rfl⟩ := List.mem_map.mp hx
    exact hnew t ht hx2
  · intro id status db db' h hok
    obtain ⟨_, hdb⟩ := (Transaction.SetStatusByID_ok_iff id status db db').mp hok
    unfold UniqueReferences at h ⊢
    rw [hdb]
    simp only [List.map_map]
    have : ((fun t : TransactionModel => t.Reference) ∘
        fun t => if t.ID == id then { t with Status := status } else t)
        = fun t => t.Reference := by
      funext t
      simp only [Function.comp]
      split <;> rfl
    rw [this]
    exact h

theorem UpdateTransactionStatus_keeps_uniqueReferences (db : DB) (reference : String)
    (status : TransactionStatus) (h : UniqueReferences db) :
    UniqueReferences (UpdateTransactionStatus db reference status).2 := by
  unfold UniqueReferences at h ⊢
  simp only [UpdateTransactionStatus, List.map_map]
  have : ((fun t : TransactionModel => t.Reference) ∘
      fun t => if t.GatewayRef == some reference then { t with Status := status } else t)
      = fun t => t.Reference := by
    funext t
    simp only [Function.comp]
    split <;> rfl
  rw [this]
  exact h

theorem ProcessPaystackEvent_keeps_uniqueReferences (payload : WebhookBody) (db : DB)
    (redis : RedisStore) (h : UniqueReferences db) :
    UniqueReferences (ProcessPaystackEvent payload db redis).2.1 := by
  unfold ProcessPaystackEvent
  split
  · exact h
  · split
    · exact CreditWalletByEmail_keeps UniqueReferences statementsKeep_uniqueReferences db _ _ _ _ _
        _ h
    · split
      · exact UpdateTransactionStatus_keeps_uniqueReferences db _ _ h
      · split
        · exact RefundWithdrawal_keeps UniqueReferences statementsKeep_uniqueReferences db _ h
        · exact h

theorem StartWorker_keeps_uniqueReferences (queueName : String) (n : Nat) (db : DB)
    (redis : RedisStore) (h : UniqueReferences db) :
    UniqueReferences (StartWorker ProcessPaystackEvent queueName n db redis).2.1 := by
  induction n generalizing db redis with
  | zero => exact h
  | succ n ih =>
    rw [StartWorker_succ]
    apply ih
    unfold StartWorker.iteration
    split
    · exact h
    · exact h
    · exact h
    · next j r1 _ =>
      have hk := ProcessPaystackEvent_keeps_uniqueReferences j.Payload db r1 h
      split
      · next err db1 r2 heq =>
        rw [heq] at hk
        exact hk
      · next db1 r2 heq =>
        rw [heq] at hk
        exact hk

theorem UniqueReferences.rows_le_one {db : DB} (h : UniqueReferences db) (reference : String) :
    (db.transactions.filter (fun t => t.Reference == reference)).length ≤ 1 := by
  unfold UniqueReferences at h
  have hc := List.nodup_iff_count_le_one.mp h reference
  rw [List.count, List.countP_map, List.countP_eq_length_filter] at hc
  have hfun : ((fun x => x == reference) ∘ fun t : TransactionModel => t.Reference)
      = fun t => t.Reference == reference := rfl
  rw [hfun] at hc
  exact hc

/-- C18: of two authentic deliveries whose bodies carry the same reference, which is not empty,
the first, which finds the key of the reference free in a store that answers and accepts
pushes, takes the lock for 24 hours, is enqueued and is answered with status 200; the second,
whatever else its body holds, is answered with status 200 and changes nothing, so that it is
not enqueued, and the same holds for every delivery that finds the key still held. Whatever
the worker then does, the log of a ledger store with unique references holds one row with the
reference at most. -/
theorem webhook_deduplication (redis : RedisStore) (body1 body2 : WebhookBody)
    (reference signature1 signature2 : String) (href : reference ≠ "")
    (hb1 : body1.reference? = (reference, true)) (hb2 : body2.reference? = (reference, true))
    (hs1 : signature1 ≠ "") (hs2 : signature2 ≠ "")
    (hav : redis.available = true) (hpush : redis.pushesRefused = false)
    (hfree : redis.holds ("idemp:" ++ reference) = false) :
    (PaystackWebhookHandler redis (some body1) signature1 true).1 = 200 ∧
      (PaystackWebhookHandler redis (some body1) signature1 true).2.entries
        = redis.entries ++ [webhookLock reference] ∧
      (PaystackWebhookHandler redis (some body1) signature1 true).2.list "payment_webhooks"
        = redis.list "payment_webhooks" ++ [QueueItem.Job ⟨body1, 0⟩] ∧
      PaystackWebhookHandler (PaystackWebhookHandler redis (some body1) signature1 true).2
          (some body2) signature2 true
        = (200, (PaystackWebhookHandler redis (some body1) signature1 true).2) ∧
      (∀ later : RedisStore, later.holds ("idemp:" ++ reference) = true →
        PaystackWebhookHandler later (some body2) signature2 true = (200, later)) ∧
      (∀ (db : DB) (n : Nat), UniqueReferences db →
        ((StartWorker ProcessPaystackEvent "payment_webhooks" n db
            (PaystackWebhookHandler redis (some body1) signature1 true).2).2.1.transactions.filter
          (fun t => t.Reference == reference)).length ≤ 1) := by
  have hfirst := (PaystackWebhookHandler_fresh redis body1 reference signature1 href hb1 hs1 hav
    hfree).1 hpush
  have hflags := RedisStore.setList_flags
    { redis with entries := redis.entries ++ [webhookLock reference] } "payment_webhooks"
    (redis.list "payment_webhooks" ++ [QueueItem.Job ⟨body1, 0⟩])
  have hheld : (PaystackWebhookHandler redis (some body1) signature1 true).2.holds
      ("idemp:" ++ reference) = true := by
    rw [hfirst]
    simp only [RedisStore.holds, hflags.2.2.1]
    simp [webhookLock]
  refine ⟨by rw [hfirst], ?_, ?_, ?_, ?_, ?_⟩
  · rw [hfirst]
    exact hflags.2.2.1
  · rw [hfirst, RedisStore.list_setList]
  · exact PaystackWebhookHandler_duplicate _ body2 reference signature2 href hb2 hs2 (Or.inr hheld)
  · intro later hlater
    exact PaystackWebhookHandler_duplicate later body2 reference signature2 href hb2 hs2
      (Or.inr hlater)
  · intro db n hu
    exact (StartWorker_keeps_uniqueReferences "payment_webhooks" n db _ hu).rows_le_one reference

/-- C18 at a store without keys: of two deliveries of the charge `PAY_1` the second is
answered with status 200 and changes nothing. -/
theorem webhook_deduplication_witness :
    chargeSuccess.reference? = ("PAY_1", true) ∧
      PaystackWebhookHandler (PaystackWebhookHandler emptyRedis (some chargeSuccess) "sig" true).2
          (some chargeSuccess) "sig2" true
        = (200, (PaystackWebhookHandler emptyRedis (some chargeSuccess) "sig" true).2) :=
  ⟨by decide,
    (webhook_deduplication emptyRedis chargeSuccess chargeSuccess "PAY_1" "sig" "sig2" (by decide)
      (by decide) (by decide) (by decide) (by decide) (by decide) (by decide)
      (by decide)).2.2.2.1⟩

/-- The handler on a store that stays as it is between the commands: when a delivery has
acquired the lock of its reference and `Enqueue` fails, which such a store does by refusing the
push, the handler answers with status 500 and the key of the reference is absent afterwards,
the key/value store being as it was before the delivery; a later delivery with the same
reference to a store with these keys that answers and accepts pushes acquires the lock and is
enqueued. -/
theorem webhook_enqueue_failure (redis : RedisStore) (body : WebhookBody)
    (reference signature : String) (href : reference ≠ "")
    (hb : body.reference? = (reference, true)) (hs : signature ≠ "")
    (hlock : (TryLockIdempotencyKey redis reference 86400).1.1 = true)
    (hfail : (Enqueue (TryLockIdempotencyKey redis reference 86400).2 "payment_webhooks" body).1
      ≠ none) :
    (PaystackWebhookHandler redis (some body) signature true).1 = 500 ∧
      (PaystackWebhookHandler redis (some body) signature true).2.holds ("idemp:" ++ reference)
        = false ∧
      (PaystackWebhookHandler redis (some body) signature true).2 = redis ∧
      (∀ (later : RedisStore) (body2 : WebhookBody) (signature2 : String),
        later.entries = (PaystackWebhookHandler redis (some body) signature true).2.entries →
        later.available = true → later.pushesRefused = false →
        body2.reference? = (reference, true) → signature2 ≠ "" →
        (PaystackWebhookHandler later (some body2) signature2 true).1 = 200 ∧
          (PaystackWebhookHandler later (some body2) signature2 true).2.holds
            ("idemp:" ++ reference) = true ∧
          (PaystackWebhookHandler later (some body2) signature2 true).2.list "payment_webhooks"
            = later.list "payment_webhooks" ++ [QueueItem.Job ⟨body2, 0⟩]) := by
  rcases TryLockIdempotencyKey_cases redis reference 86400 with ⟨_, h1, _⟩ | ⟨hav, hfree, hT⟩
  · rw [h1] at hlock
    exact absurd hlock (by decide)
  · have hpush : redis.pushesRefused = true := by
      rw [hT] at hfail
      cases hp : redis.pushesRefused with
      | true => rfl
      | false =>
        exfalso
        apply hfail
        simp [Enqueue, RedisStore.RPush, hav, hp]
    have hres := (PaystackWebhookHandler_fresh redis body reference signature href hb hs hav
      hfree).2 hpush
    refine ⟨by rw [hres], by rw [hres]; exact hfree, by rw [hres], ?_⟩
    intro later body2 signature2 hent hav2 hpush2 hb2 hs2
    rw [hres] at hent
    have hfree2 : later.holds ("idemp:" ++ reference) = false := by
      simp only [RedisStore.holds, hent]
      exact hfree
    have hlater := (PaystackWebhookHandler_fresh later body2 reference signature2 href hb2 hs2
      hav2 hfree2).1 hpush2
    have hflags := RedisStore.setList_flags
      { later with entries := later.entries ++ [webhookLock reference] } "payment_webhooks"
      (later.list "payment_webhooks" ++ [QueueItem.Job ⟨body2, 0⟩])
    refine ⟨by rw [hlater], ?_, by rw [hlater, RedisStore.list_setList]⟩
    rw [hlater]
    simp only [RedisStore.holds, hflags.2.2.1]
    simp [webhookLock]

/-- At a store that refuses pushes, the delivery of the charge `PAY_1` is answered with
status 500 and leaves no key behind. -/
theorem webhook_enqueue_failure_witness :
    (TryLockIdempotencyKey refusingRedis "PAY_1" 86400).1.1 = true ∧
      (Enqueue (TryLockIdempotencyKey refusingRedis "PAY_1" 86400).2 "payment_webhooks"
        chargeSuccess).1 ≠ none ∧
      (PaystackWebhookHandler refusingRedis (some chargeSuccess) "sig" true).1 = 500 ∧
      (PaystackWebhookHandler refusingRedis (some chargeSuccess) "sig" true).2.holds
        ("idemp:" ++ "PAY_1") = false :=
  ⟨by decide, by decide,
    (webhook_enqueue_failure refusingRedis chargeSuccess "PAY_1" "sig" (by decide) (by decide)
      (by decide) (by decide) (by decide)).1,
    (webhook_enqueue_failure refusingRedis chargeSuccess "PAY_1" "sig" (by decide) (by decide)
      (by decide) (by decide) (by decide)).2.1⟩

/-! ## The routing of provider events -/

theorem CreditWalletByEmail_fresh (db : DB) (email currency : String) (amount : Amount)
    (reference description provider : String) (user : UserModel) (wallet : WalletModel)
    (hu : db.users.find? (fun u => u.Email == email) = some user)
    (hw : db.wallets.find? (fun w => w.UserID == user.ID) = some wallet)
    (href : ∀ t ∈ db.transactions, t.Reference ≠ reference)
    (hnn : NonNegativeBalances db) (hkey : UniqueWalletIDCurrency db) (ha : 0 ≤ amount) :
    (CreditWalletByEmail db email currency amount reference description provider).1 = none ∧
      (∃ id, (CreditWalletByEmail db email currency amount reference description
          provider).2.transactions = db.transactions ++ [
            { ID := id
              WalletID := wallet.ID
              Amount := amount
              Currency := currency
              TxType := .Deposit
              Status := .Success
              Reference := reference
              GatewayRef := none
              Provider := some provider
              Description := some description }]) ∧
      ((∃ old ∈ db.assets, old.WalletID = wallet.ID ∧ old.Currency = currency ∧
          (CreditWalletByEmail db email currency amount reference description provider).2.assets
            = replaceAsset old { old with Balance := old.Balance + amount } db.assets) ∨
        ((∀ x ∈ db.assets, ¬ (x.WalletID = wallet.ID ∧ x.Currency = currency)) ∧
          (CreditWalletByEmail db email currency amount reference description provider).2.assets
            = db.assets ++ [
              { ID := genID db.nextID
                WalletID := wallet.ID
                Currency := currency
                Balance := amount }])) := by
  have hwmem : ∃ w ∈ db.wallets, w.ID = wallet.ID := ⟨wallet, List.mem_of_find?_eq_some hw, rfl⟩
  have hstep : ∃ db1, WalletAsset.UpsertOne wallet.ID currency amount db = .ok db1 ∧
      db1.wallets = db.wallets ∧ db1.transactions = db.transactions ∧
      ((∃ old ∈ db.assets, old.WalletID = wallet.ID ∧ old.Currency = currency ∧
          db1.assets = replaceAsset old { old with Balance := old.Balance + amount } db.assets) ∨
        ((∀ x ∈ db.assets, ¬ (x.WalletID = wallet.ID ∧ x.Currency = currency)) ∧
          db1.assets = db.assets ++ [
            { ID := genID db.nextID
              WalletID := wallet.ID
              Currency := currency
              Balance := amount }])) := by
    by_cases hex : ∃ old ∈ db.assets, old.WalletID = wallet.ID ∧ old.Currency = currency
    · obtain ⟨old, homem, hokey, hocur⟩ := hex
      exact ⟨_, (WalletAsset.UpsertOne_present_ok_iff db _ wallet.ID currency amount old homem
        hokey hocur hkey).mpr ⟨add_nonneg (hnn old homem) ha, rfl⟩, rfl, rfl,
        Or.inl ⟨old, homem, hokey, hocur, rfl⟩⟩
    · have habs : ∀ x ∈ db.assets, ¬ (x.WalletID = wallet.ID ∧ x.Currency = currency) :=
        fun x hx hk => hex ⟨x, hx, hk.1, hk.2⟩
      exact ⟨_, (WalletAsset.UpsertOne_absent_ok_iff db _ wallet.ID currency amount habs).mpr
        ⟨hwmem, ha, rfl⟩, rfl, rfl, Or.inr ⟨habs, rfl⟩⟩
  obtain ⟨db1, h1, hw1, ht1, ha1⟩ := hstep
  obtain ⟨db2, e2⟩ : ∃ db2 : DB, db2 = { db1 with
      transactions := db1.transactions ++ [
        { ID := genID db1.nextID
          WalletID := wallet.ID
          Amount := amount
          Currency := currency
          TxType := .Deposit
          Status := .Success
          Reference := reference
          GatewayRef := none
          Provider := some provider
          Description := some description }]
      nextID := db1.nextID + 1 } := ⟨_, rfl⟩
  have h2 : Transaction.CreateOne wallet.ID amount currency .Deposit reference .Success none
      (some provider) (some description) db1 = .ok db2 :=
    (Transaction.CreateOne_ok_iff _ _ _ _ _ _ _ _ _ db1 db2).mpr
      ⟨by rw [hw1]; exact hwmem, by rw [ht1]; exact href, e2⟩
  have hres : CreditWalletByEmail db email currency amount reference description provider
      = (none, db2) := by
    simp only [CreditWalletByEmail, hu, hw]
    rw [Prisma.Transaction_of_ok _ _ db2 (by simp only [execOps, h1, h2])]
    simp [isUniqueConstraintError]
  rw [hres]
  refine ⟨rfl, ⟨genID db1.nextID, ?_⟩, ?_⟩
  · rw [e2, ht1]
  · rw [e2]
    exact ha1

/-- C20: for a decodable event, `ProcessPaystackEvent` does the one action that the kind of the
event selects and returns its result. A `charge.success` whose status is `success` is the
call of `CreditWalletByEmail` with the email, the currency, the amount divided by 100, the
reference, the description and the provider `PAYSTACK`, after the two cache keys of the user
with that email, if there is one, have been deleted: when the user has a wallet, the reference
is new, the amount is not negative and the store satisfies its constraints, it returns `nil`,
one success deposit row with the reference and the amount divided by 100 is appended for that
wallet, and (the quotient and the sum being values of a `float64`, which the store computes
without rounding) the asset of the wallet in the currency is increased by that amount or
created with it. A `transfer.success` returns `nil`, gives the status success to every row
whose gateway reference is the transfer code and changes nothing else: it is the call of
`UpdateTransactionStatus`. A `transfer.failed` or `transfer.reversed` is the call of
`RefundWithdrawal` with the transfer code. Every other event returns `nil` and changes nothing.
The last three leave the key/value store as it is. -/
theorem ProcessPaystackEvent_routing (e : PaystackEvent) (db : DB) (redis : RedisStore) :
    (e.Event = "charge.success" → e.Status = "success" →
        ((ProcessPaystackEvent (.Event e) db redis).1, (ProcessPaystackEvent (.Event e) db redis).2.1)
          = CreditWalletByEmail db e.Email e.Currency (e.Amount / 100) e.Reference
              ("Deposit via Paystack (" ++ e.Currency ++ ")") "PAYSTACK" ∧
        (ProcessPaystackEvent (.Event e) db redis).2.2
          = (match FindUserByEmail db e.Email with
            | (some user, none) =>
              (RedisQueue.Delete (RedisQueue.Delete redis ("wallet:" ++ user.ID)).2
                ("tx_history:" ++ user.ID)).2
            | _ => redis)) ∧
      (e.Event = "charge.success" → e.Status = "success" →
        ∀ user wallet, db.users.find? (fun u => u.Email == e.Email) = some user →
        db.wallets.find? (fun w => w.UserID == user.ID) = some wallet →
        (∀ t ∈ db.transactions, t.Reference ≠ e.Reference) →
        NonNegativeBalances db → UniqueWalletIDCurrency db → 0 ≤ e.Amount →
        isFloat64 (e.Amount / 100) = true →
        (∀ x ∈ db.assets, x.WalletID = wallet.ID → x.Currency = e.Currency →
          isFloat64 (x.Balance + e.Amount / 100) = true) →
        (ProcessPaystackEvent (.Event e) db redis).1 = none ∧
          (∃ id, (ProcessPaystackEvent (.Event e) db redis).2.1.transactions
            = db.transactions ++ [
              { ID := id
                WalletID := wallet.ID
                Amount := e.Amount / 100
                Currency := e.Currency
                TxType := .Deposit
                Status := .Success
                Reference := e.Reference
                GatewayRef := none
                Provider := some "PAYSTACK"
                Description := some ("Deposit via Paystack (" ++ e.Currency ++ ")") }]) ∧
          ((∃ old ∈ db.assets, old.WalletID = wallet.ID ∧ old.Currency = e.Currency ∧
              (ProcessPaystackEvent (.Event e) db redis).2.1.assets
                = replaceAsset old { old with Balance := old.Balance + e.Amount / 100 }
                    db.assets) ∨
            ((∀ x ∈ db.assets, ¬ (x.WalletID = wallet.ID ∧ x.Currency = e.Currency)) ∧
              (ProcessPaystackEvent (.Event e) db redis).2.1.assets
                = db.assets ++ [
                  { ID := genID db.nextID
                    WalletID := wallet.ID
                    Currency := e.Currency
                    Balance := e.Amount / 100 }]))) ∧
      (e.Event = "transfer.success" →
        ProcessPaystackEvent (.Event e) db redis
          = ((UpdateTransactionStatus db e.TransferCode .Success).1,
              (UpdateTransactionStatus db e.TransferCode .Success).2, redis)) ∧
      (e.Event = "transfer.success" →
        (ProcessPaystackEvent (.Event e) db redis).1 = none ∧
          (ProcessPaystackEvent (.Event e) db redis).2.1.users = db.users ∧
          (ProcessPaystackEvent (.Event e) db redis).2.1.wallets = db.wallets ∧
          (ProcessPaystackEvent (.Event e) db redis).2.1.assets = db.assets ∧
          (ProcessPaystackEvent (.Event e) db redis).2.1.transactions
            = db.transactions.map (fun t =>
                if t.GatewayRef = some e.TransferCode then { t with Status := .Success }
                else t) ∧
          (∀ t ∈ (ProcessPaystackEvent (.Event e) db redis).2.1.transactions,
            t.GatewayRef = some e.TransferCode → t.Status = .Success)) ∧
      (e.Event = "transfer.failed" ∨ e.Event = "transfer.reversed" →
        ProcessPaystackEvent (.Event e) db redis
          = ((RefundWithdrawal db e.TransferCode).1, (RefundWithdrawal db e.TransferCode).2, redis)) ∧
      (¬ (e.Event = "charge.success" ∧ e.Status = "success") → e.Event ≠ "transfer.success" →
        e.Event ≠ "transfer.failed" → e.Event ≠ "transfer.reversed" →
        ProcessPaystackEvent (.Event e) db redis = (none, db, redis)) := by
  have hcharge : e.Event = "charge.success" → e.Status = "success" →
      ((ProcessPaystackEvent (.Event e) db redis).1, (ProcessPaystackEvent (.Event e) db redis).2.1)
        = CreditWalletByEmail db e.Email e.Currency (e.Amount / 100) e.Reference
            ("Deposit via Paystack (" ++ e.Currency ++ ")") "PAYSTACK" ∧
      (ProcessPaystackEvent (.Event e) db redis).2.2
        = (match FindUserByEmail db e.Email with
          | (some user, none) =>
            (RedisQueue.Delete (RedisQueue.Delete redis ("wallet:" ++ user.ID)).2
              ("tx_history:" ++ user.ID)).2
          | _ => redis) := by
    intro h1 h2
    simp only [ProcessPaystackEvent, WebhookBody.event?, h1, h2, beq_self_eq_true, Bool.and_self,
      if_true, and_self]
  have hsuccess : e.Event = "transfer.success" →
      ProcessPaystackEvent (.Event e) db redis
        = ((UpdateTransactionStatus db e.TransferCode .Success).1,
            (UpdateTransactionStatus db e.TransferCode .Success).2, redis) := by
    intro h1
    simp [ProcessPaystackEvent, WebhookBody.event?, h1]
  refine ⟨hcharge, ?_, hsuccess, ?_, ?_, ?_⟩
  · intro h1 h2 user wallet hu hw href hnn hkey h0 _ _
    have hres := (hcharge h1 h2).1
    have hfresh := CreditWalletByEmail_fresh db e.Email e.Currency (e.Amount / 100) e.Reference
      ("Deposit via Paystack (" ++ e.Currency ++ ")") "PAYSTACK" user wallet hu hw href hnn hkey
      (div_nonneg h0 (by norm_num))
    rw [← hres] at hfresh
    exact hfresh
  · intro h1
    rw [hsuccess h1]
    simp only [UpdateTransactionStatus, beq_iff_eq, true_and]
    intro t ht
    simp only [List.mem_map] at ht
    obtain ⟨t0, _, rfl⟩ := ht
    by_cases hg : t0.GatewayRef = some e.TransferCode
    · simp only [hg, if_true, implies_true]
    · simp only [hg, if_false]
      exact fun h => h.elim
  · intro h1
    rcases h1 with h1 | h1 <;> simp [ProcessPaystackEvent, WebhookBody.event?, h1]
  · intro h1 h2 h3 h4
    have hc : (e.Event == "charge.success" && e.Status == "success") = false := by
      simp only [Bool.and_eq_false_iff, beq_eq_false_iff_ne]
      by_cases hE : e.Event = "charge.success"
      · right
        exact fun hS => h1 ⟨hE, hS⟩
      · left
        exact hE
    simp [ProcessPaystackEvent, WebhookBody.event?, hc, h2, h3, h4]

/-- C20 at the example stores. The charge of 2500 in the unit of the provider credits 25 USD to
the first user, with the reference of the event: the balance goes from 10 to 35 and the row
`PAY_1` is appended. The event `transfer.success` for the transfer `TRF_1` gives the pending
withdrawal `WDR-1` of `withdrawnStore` the status success and leaves the balances as they are.
The event `transfer.failed` for the same transfer is the refund of the withdrawal: the balance
goes from 6 to 10 and the row is marked failed. An event of another kind changes nothing. -/
theorem ProcessPaystackEvent_routing_witness :
    (((ProcessPaystackEvent chargeSuccess exampleStore emptyRedis).1,
        (ProcessPaystackEvent chargeSuccess exampleStore emptyRedis).2.1)
      = CreditWalletByEmail exampleStore "safety_test@mzl.com" "USD" 25 "PAY_1"
          "Deposit via Paystack (USD)" "PAYSTACK" ∧
      (GetAssetByCurrency (ProcessPaystackEvent chargeSuccess exampleStore emptyRedis).2.1
        "u1" "USD").1 = some { exampleUSD with Balance := 35 } ∧
      (ProcessPaystackEvent chargeSuccess exampleStore emptyRedis).2.1.transactions.map
          (fun t => (t.Reference, t.Amount, t.Currency, t.TxType, t.Status))
        = [("SEED_123", 10, "USD", .Deposit, .Success),
            ("PAY_1", 25, "USD", .Deposit, .Success)] ∧
      (∃ id, (ProcessPaystackEvent chargeSuccess exampleStore emptyRedis).2.1.transactions
        = exampleStore.transactions ++ [
          { ID := id
            WalletID := "w1"
            Amount := (2500 : Amount) / 100
            Currency := "USD"
            TxType := .Deposit
            Status := .Success
            Reference := "PAY_1"
            GatewayRef := none
            Provider := some "PAYSTACK"
            Description := some ("Deposit via Paystack (" ++ "USD" ++ ")") }])) ∧
      ((ProcessPaystackEvent transferSuccess withdrawnStore emptyRedis).1 = none ∧
        (ProcessPaystackEvent transferSuccess withdrawnStore emptyRedis).2.1.assets
          = withdrawnStore.assets ∧
        (∀ t ∈ (ProcessPaystackEvent transferSuccess withdrawnStore emptyRedis).2.1.transactions,
          t.GatewayRef = some "TRF_1" → t.Status = .Success) ∧
        withdrawnStore.transactions.map (fun t => (t.Reference, t.GatewayRef, t.Status))
          = [("SEED_123", none, .Success), ("WDR-1", some "TRF_1", .Pending)] ∧
        (ProcessPaystackEvent transferSuccess withdrawnStore emptyRedis).2.1.transactions.map
            (fun t => (t.Reference, t.GatewayRef, t.Status))
          = [("SEED_123", none, .Success), ("WDR-1", some "TRF_1", .Success)]) ∧
      (ProcessPaystackEvent transferFailed withdrawnStore emptyRedis
          = ((RefundWithdrawal withdrawnStore "TRF_1").1,
              (RefundWithdrawal withdrawnStore "TRF_1").2, emptyRedis) ∧
        (ProcessPaystackEvent transferFailed withdrawnStore emptyRedis).2.1.assets.map
            (fun a => (a.WalletID, a.Currency, a.Balance))
          = [("w1", "NGN", 0), ("w2", "NGN", 0), ("w1", "USD", 10)] ∧
        (ProcessPaystackEvent transferFailed withdrawnStore emptyRedis).2.1.transactions.map
            (fun t => (t.Reference, t.Status))
          = [("SEED_123", .Success), ("WDR-1", .Failed)]) ∧
      ProcessPaystackEvent
          (.Event ⟨"charge.failed", "PAY_1", "", 2500, "USD", "failed", "safety_test@mzl.com"⟩)
          exampleStore emptyRedis = (none, exampleStore, emptyRedis) := by
  refine ⟨⟨?_, by decide!, by decide!, ?_⟩, ⟨?_, ?_, ?_, by decide!, by decide!⟩,
    ⟨?_, by decide!, by decide!⟩, ?_⟩
  · have h := ((ProcessPaystackEvent_routing
      ⟨"charge.success", "PAY_1", "", 2500, "USD", "success", "safety_test@mzl.com"⟩
      exampleStore emptyRedis).1 rfl rfl).1
    have hamt : (2500 : Amount) / 100 = 25 := by norm_num
    simp only [hamt] at h
    exact h
  · exact ((ProcessPaystackEvent_routing
      ⟨"charge.success", "PAY_1", "", 2500, "USD", "success", "safety_test@mzl.com"⟩
      exampleStore emptyRedis).2.1 rfl rfl
      ⟨"u1", "safety_test@mzl.com", "hashed_pass", "Safety Test", none⟩
      ⟨"w1", "u1", "1000000001"⟩ (by decide!) (by decide!) (by decide!) (by decide!)
      (by decide!) (by decide!) (by decide!) (by decide!)).2.1
  · exact ((ProcessPaystackEvent_routing
      ⟨"transfer.success", "WD_1", "TRF_1", 400, "USD", "success", "safety_test@mzl.com"⟩
      withdrawnStore emptyRedis).2.2.2.1 rfl).1
  · exact ((ProcessPaystackEvent_routing
      ⟨"transfer.success", "WD_1", "TRF_1", 400, "USD", "success", "safety_test@mzl.com"⟩
      withdrawnStore emptyRedis).2.2.2.1 rfl).2.2.2.1
  · exact ((ProcessPaystackEvent_routing
      ⟨"transfer.success", "WD_1", "TRF_1", 400, "USD", "success", "safety_test@mzl.com"⟩
      withdrawnStore emptyRedis).2.2.2.1 rfl).2.2.2.2.2
  · exact (ProcessPaystackEvent_routing
      ⟨"transfer.failed", "WD_1", "TRF_1", 400, "USD", "failed", "safety_test@mzl.com"⟩
      withdrawnStore emptyRedis).2.2.2.2.1 (Or.inl rfl)
  · exact (ProcessPaystackEvent_routing
      ⟨"charge.failed", "PAY_1", "", 2500, "USD", "failed", "safety_test@mzl.com"⟩
      exampleStore emptyRedis).2.2.2.2.2 (by decide) (by decide) (by decide) (by decide)

/-! ## Account numbers -/

theorem digitChar_isDigit (k : Nat) (h : k < 10) : (Nat.digitChar k).isDigit = true := by
  interval_cases k <;> rfl

theorem digitChar_ne_zero (k : Nat) (h0 : 0 < k) (h : k < 10) : Nat.digitChar k ≠ '0' := by
  interval_cases k <;> decide

theorem toDigitsCore_shape (e : Nat) : ∀ (fuel n : Nat) (ds : List Char), n < fuel →
    10 ^ e ≤ n → n < 10 ^ (e + 1) →
    ∃ rest : List Char, Nat.toDigitsCore 10 fuel n ds = Nat.digitChar (n / 10 ^ e) :: (rest ++ ds) ∧
      rest.length = e ∧ ∀ c ∈ rest, c.isDigit = true := by
  induction e with
  | zero =>
    intro fuel n ds hf hlo hhi
    obtain ⟨f, rfl⟩ : ∃ f, fuel = f + 1 := ⟨fuel - 1, by omega⟩
    have hn : n < 10 := by simpa using hhi
    refine ⟨[], ?_, rfl, by simp⟩
    simp only [Nat.toDigitsCore, Nat.div_eq_of_lt hn, if_true, Nat.mod_eq_of_lt hn, pow_zero,
      Nat.div_one, List.nil_append]
  | succ e ih =>
    intro fuel n ds hf hlo hhi
    obtain ⟨f, rfl⟩ : ∃ f, fuel = f + 1 := ⟨fuel - 1, by omega⟩
    have hpos : 0 < 10 ^ e := Nat.pos_pow_of_pos e (by decide)
    have hlo' : 10 ^ e ≤ n / 10 := by
      rw [Nat.le_div_iff_mul_le (by decide)]
      calc 10 ^ e * 10 = 10 ^ (e + 1) := (pow_succ 10 e).symm
        _ ≤ n := hlo
    have hhi' : n / 10 < 10 ^ (e + 1) := by
      rw [Nat.div_lt_iff_lt_mul (by decide)]
      calc n < 10 ^ (e + 1 + 1) := hhi
        _ = 10 ^ (e + 1) * 10 := pow_succ 10 (e + 1)
    have hne : n / 10 ≠ 0 := by omega
    obtain ⟨rest, hrest, hlen, hdig⟩ := ih f (n / 10) (Nat.digitChar (n % 10) :: ds) (by omega)
      hlo' hhi'
    refine ⟨rest ++ [Nat.digitChar (n % 10)], ?_, by simp [hlen], ?_⟩
    · simp only [Nat.toDigitsCore, hne, if_false, hrest, Nat.div_div_eq_div_mul, List.append_assoc,
        List.singleton_append]
      congr 2
      rw [pow_succ, Nat.mul_comm]
    · intro c hc
      rcases List.mem_append.mp hc with hc | hc
      · exact hdig c hc
      · simp only [List.mem_singleton] at hc
        rw [hc]
        exact digitChar_isDigit _ (Nat.mod_lt n (by decide))

theorem wrapInt64_of_small (x : Int) (h0 : 0 ≤ x) (h1 : x < 2 ^ 62) : wrapInt64 x = x := by
  unfold wrapInt64
  have h63 : (2 : Int) ^ 63 = 9223372036854775808 := by norm_num
  have h64 : (2 : Int) ^ 64 = 18446744073709551616 := by norm_num
  have h62 : (2 : Int) ^ 62 = 4611686018427387904 := by norm_num
  rw [h62] at h1
  rw [h63, h64]
  omega

theorem strconvItoa_shape (m : Nat) (hlo : 10 ^ 9 ≤ m) (hhi : m < 10 ^ 10) :
    ∃ rest : List Char, (strconvItoa (m : Int)).data = Nat.digitChar (m / 10 ^ 9) :: rest ∧
      rest.length = 9 ∧ ∀ c ∈ rest, c.isDigit = true := by
  obtain ⟨rest, hrest, hlen, hdig⟩ := toDigitsCore_shape 9 (m + 1) m [] (Nat.lt_succ_self m) hlo hhi
  refine ⟨rest, ?_, hlen, hdig⟩
  have : strconvItoa (m : Int) = (Nat.toDigits 10 m).asString := rfl
  rw [this]
  simp only [Nat.toDigits, hrest, List.append_nil, List.asString]

/-- C23: for every number `n` with `0 <= n < 9000000000` that the random source returns,
`GenerateAccountNumber` returns `n + 1000000000` without an error; the number lies between
1000000000 and 9999999999, and the account number that `CreateUserWithWallet` makes of it has
exactly 10 characters, all of them decimal digits, the first of which is not `0`. -/
theorem GenerateAccountNumber_range (randInt : Int → Except GoError Int) (n : Int)
    (h0 : 0 ≤ n) (h1 : n < 9000000000) (hr : randInt 9000000000 = .ok n) :
    GenerateAccountNumber randInt = (n + 1000000000, none) ∧
      1000000000 ≤ n + 1000000000 ∧ n + 1000000000 ≤ 9999999999 ∧
      (accountNumberString (n + 1000000000)).length = 10 ∧
      (∀ c ∈ (accountNumberString (n + 1000000000)).data, c.isDigit = true) ∧
      (accountNumberString (n + 1000000000)).data.head? ≠ some '0' := by
  have hw : wrapInt64 (n + 1000000000) = n + 1000000000 :=
    wrapInt64_of_small _ (by omega) (by norm_num; omega)
  obtain ⟨m, hm⟩ : ∃ m : Nat, n + 1000000000 = (m : Int) := ⟨(n + 1000000000).toNat, by omega⟩
  have hlo : 10 ^ 9 ≤ m := by norm_num; omega
  have hhi : m < 10 ^ 10 := by norm_num; omega
  obtain ⟨rest, hdata, hlen, hdig⟩ := strconvItoa_shape m hlo hhi
  have hfirst : 0 < m / 10 ^ 9 ∧ m / 10 ^ 9 < 10 := by
    constructor
    · exact Nat.div_pos hlo (by norm_num)
    · rw [Nat.div_lt_iff_lt_mul (by norm_num)]
      calc m < 10 ^ 10 := hhi
        _ = 10 * 10 ^ 9 := by norm_num
  have hr' : randInt (9999999999 - 1000000000 + 1) = .ok n := by
    have : (9999999999 - 1000000000 + 1 : Int) = 9000000000 := by norm_num
    rw [this]
    exact hr
  have hstr : accountNumberString (n + 1000000000) = strconvItoa (m : Int) := by
    unfold accountNumberString
    rw [hw, hm]
  refine ⟨?_, by omega, by omega, ?_, ?_, ?_⟩
  · simp only [GenerateAccountNumber, hr', hw]
  · rw [hstr, String.length, hdata, List.length_cons, hlen]
  · intro c hc
    rw [hstr, hdata, List.mem_cons] at hc
    rcases hc with rfl | hc
    · exact digitChar_isDigit _ hfirst.2
    · exact hdig c hc
  · rw [hstr, hdata, List.head?_cons]
    intro hz
    exact digitChar_ne_zero _ hfirst.1 hfirst.2 (Option.some.inj hz)

/-- C23 at the smallest and at the largest number that the random source can return. -/
theorem GenerateAccountNumber_range_witness :
    GenerateAccountNumber (fun _ => .ok 0) = (1000000000, none) ∧
      accountNumberString 1000000000 = "1000000000" ∧
      GenerateAccountNumber (fun _ => .ok 8999999999) = (9999999999, none) ∧
      accountNumberString 9999999999 = "9999999999" :=
  ⟨(GenerateAccountNumber_range (fun _ => .ok 0) 0 (by decide) (by decide) rfl).1, by decide,
    (GenerateAccountNumber_range (fun _ => .ok 8999999999) 8999999999 (by decide) (by decide)
      rfl).1, by decide⟩

/-! ## The cache keys after a successful operation -/

/-- C21, evaluated at a cache that holds the wallet and the history of both users: after a
successful `FundWallet` and after a successful `VerifyAndCredit` for the first user the key
`tx_history:u1` is still held; after a successful transfer from the first to the second user
the key `tx_history:u2` of the receiver is still held; after the event `transfer.failed`, which
refunds the withdrawal of the first user, both keys of that user are still held. After a
successful `SwapFunds`, `WithdrawFunds` and `charge.success` event neither key of the first
user is held. -/
theorem cache_keys_after_success :
    ((FundWallet exampleStore cachedRedis "u1" "USD" 5 "K1" "fund").1 = none ∧
        (FundWallet exampleStore cachedRedis "u1" "USD" 5 "K1" "fund").2.2.holds "tx_history:u1"
          = true) ∧
      ((VerifyAndCredit acceptingGateway exampleStore cachedRedis "PAY_9").1.2 = none ∧
        (VerifyAndCredit acceptingGateway exampleStore cachedRedis "PAY_9").2.2.holds
          "tx_history:u1" = true) ∧
      ((walletService.TransferFunds exampleStore cachedRedis "u1" "1000000002" "USD" 5 "rent"
          "K1").1.2 = none ∧
        (walletService.TransferFunds exampleStore cachedRedis "u1" "1000000002" "USD" 5 "rent"
          "K1").2.2.holds "tx_history:u2" = true) ∧
      ((ProcessPaystackEvent transferFailed withdrawnStore cachedRedis).1 = none ∧
        (GetAssetByCurrency withdrawnStore "u1" "USD").1 = some { exampleUSD with Balance := 6 } ∧
        (GetAssetByCurrency (ProcessPaystackEvent transferFailed withdrawnStore cachedRedis).2.1
          "u1" "USD").1 = some { exampleUSD with Balance := 10 } ∧
        (ProcessPaystackEvent transferFailed withdrawnStore cachedRedis).2.2.holds "wallet:u1"
          = true ∧
        (ProcessPaystackEvent transferFailed withdrawnStore cachedRedis).2.2.holds "tx_history:u1"
          = true) ∧
      ((walletService.SwapFunds exampleRates exampleStore cachedRedis "u1" "USD" "NGN" 3
          "K1").1.2 = none ∧
        (walletService.SwapFunds exampleRates exampleStore cachedRedis "u1" "USD" "NGN" 3
          "K1").2.2.holds "wallet:u1" = false ∧
        (walletService.SwapFunds exampleRates exampleStore cachedRedis "u1" "USD" "NGN" 3
          "K1").2.2.holds "tx_history:u1" = false) ∧
      ((walletService.WithdrawFunds acceptingGateway 1000 exampleStore cachedRedis [] "u1"
          exampleWithdrawalRequest).1 = none ∧
        (walletService.WithdrawFunds acceptingGateway 1000 exampleStore cachedRedis [] "u1"
          exampleWithdrawalRequest).2.2.1.holds "wallet:u1" = false ∧
        (walletService.WithdrawFunds acceptingGateway 1000 exampleStore cachedRedis [] "u1"
          exampleWithdrawalRequest).2.2.1.holds "tx_history:u1" = false) ∧
      ((ProcessPaystackEvent chargeSuccess exampleStore cachedRedis).1 = none ∧
        (ProcessPaystackEvent chargeSuccess exampleStore cachedRedis).2.2.holds "wallet:u1"
          = false ∧
        (ProcessPaystackEvent chargeSuccess exampleStore cachedRedis).2.2.holds "tx_history:u1"
          = false) := by
  decide!

/-! ## Registration -/

/-- C22, evaluated at the example store with a random number that gives the account number
`1000000001` of the first wallet: the creation of the wallet fails on the unique account
number and `CreateUserWithWallet` returns the error, yet the user row created by the first
step has been added to the store, without a wallet and without an asset. The same happens when
the random source fails. -/
theorem CreateUserWithWallet_partial :
    (CreateUserWithWallet (fun _ => .ok 1) exampleStore "new@mzl.com" "hash" "New").1
        = (none, some (.Wrapf "failed to create wallet: " (.UniqueConstraint "accountNumber"))) ∧
      (CreateUserWithWallet (fun _ => .ok 1) exampleStore "new@mzl.com" "hash" "New").2.users
        = exampleStore.users ++ [⟨"4", "new@mzl.com", "hash", "New", none⟩] ∧
      (CreateUserWithWallet (fun _ => .ok 1) exampleStore "new@mzl.com" "hash" "New").2.wallets
        = exampleStore.wallets ∧
      (CreateUserWithWallet (fun _ => .ok 1) exampleStore "new@mzl.com" "hash" "New").2.assets
        = exampleStore.assets ∧
      (CreateUserWithWallet (fun _ => .error (.Errorf "no entropy")) exampleStore "new@mzl.com"
          "hash" "New").1 = (none, some (.Errorf "failed to create account number")) ∧
      (CreateUserWithWallet (fun _ => .error (.Errorf "no entropy")) exampleStore "new@mzl.com"
          "hash" "New").2.users
        = exampleStore.users ++ [⟨"4", "new@mzl.com", "hash", "New", none⟩] ∧
      (CreateUserWithWallet (fun _ => .ok 7) exampleStore "new@mzl.com" "hash" "New").1.2 = none ∧
      (CreateUserWithWallet (fun _ => .ok 7) exampleStore "new@mzl.com" "hash" "New").2.wallets
        = exampleStore.wallets ++ [⟨"5", "4", "1000000007"⟩] := by
  decide!

/-! ## Store errors at the boundary of the repository -/

theorem DebitForWithdrawal_no_check_error (db : DB) (userID currency : String) (amount : Amount)
    (reference transferCode description : String) (e : GoError)
    (h : (DebitForWithdrawal db userID currency amount reference transferCode description).1
      = some e) :
    stringsContains e.Error "non_negative_balance" = false := by
  unfold DebitForWithdrawal DebitForWithdrawal.afterRead at h
  split at h
  · split at h
    · simp only [Option.some.injEq] at h
      subst h
      decide
    · simp only at h
      split at h
      · next err db' _ =>
        split at h
        · simp only [Option.some.injEq] at h
          subst h
          decide
        · next hno =>
          simp only [Option.some.injEq] at h
          subst h
          simpa using hno
      · simp at h
  · simp only [Option.some.injEq] at h
    subst h
    decide

theorem TransferFunds_no_check_error (db : DB) (fromUserID toAccountNumber currency : String)
    (amount : Amount) (reference descSender descReceiver : String) (e : GoError)
    (h : (TransferFunds db fromUserID toAccountNumber currency amount reference descSender
      descReceiver).1 = some e) :
    stringsContains e.Error "non_negative_balance" = false := by
  unfold TransferFunds at h
  split at h
  · split at h
    · split at h
      · simp only [Option.some.injEq] at h
        subst h
        decide
      · simp only at h
        split at h
        · next err db' _ =>
          split at h
          · simp only [Option.some.injEq] at h
            subst h
            decide
          · next hno =>
            simp only [Option.some.injEq] at h
            subst h
            simpa using hno
        · simp at h
    · simp only [Option.some.injEq] at h
      subst h
      decide
  · simp only [Option.some.injEq] at h
    subst h
    decide

theorem SwapFunds_no_check_error (db : DB) (userID fromCurrency toCurrency : String)
    (sourceAmount amountOut : Amount) (reference description : String) (e : GoError)
    (h : (SwapFunds db userID fromCurrency toCurrency sourceAmount amountOut reference
      description).1 = some e) :
    stringsContains e.Error "non_negative_balance" = false := by
  unfold SwapFunds at h
  split at h
  · split at h
    · simp only [Option.some.injEq] at h
      subst h
      decide
    · simp only at h
      split at h
      · next err db' _ =>
        split at h
        · simp only [Option.some.injEq] at h
          subst h
          decide
        · next hno =>
          simp only [Option.some.injEq] at h
          subst h
          simpa using hno
      · simp at h
  · simp only [Option.some.injEq] at h
    subst h
    decide

theorem CreditWalletByEmail_no_unique_error (db : DB) (email currency : String) (amount : Amount)
    (reference description provider : String) :
    isUniqueConstraintError
      (CreditWalletByEmail db email currency amount reference description provider).1 = false := by
  have h1 : isUniqueConstraintError (some (.Errorf "user not found")) = false := by decide
  have h2 : isUniqueConstraintError (some (.Errorf "wallet not initialized")) = false := by decide
  unfold CreditWalletByEmail
  split
  · exact h1
  · split
    · exact h2
    · simp only
      split
      · rfl
      · next hno => simpa using hno

theorem FundWallet_no_unique_error (db : DB) (redis : RedisStore) (userID currency : String)
    (amount : Amount) (reference description : String) (e : GoError)
    (h : (FundWallet db redis userID currency amount reference description).1 = some e) :
    IsErrUniqueConstraint e = false := by
  unfold FundWallet at h
  split at h
  split at h
  · simp only [Option.some.injEq] at h
    subst h
    rfl
  · rcases GetAssetByCurrency_cases db userID currency with ⟨a, ha⟩ | hn
    · rw [ha] at h
      simp only at h
      split at h
      · split at h
        · simp only [Option.some.injEq] at h
          subst h
          rfl
        · next hno =>
          simp only [Option.some.injEq] at h
          subst h
          simpa using hno
      · simp at h
    · rw [hn] at h
      simp only [Option.some.injEq] at h
      subst h
      rfl

theorem walletService.SwapFunds_no_unique_error (api : String → RateResponse) (db : DB)
    (redis : RedisStore) (userID fromCurrency toCurrency : String) (amountIn : Amount)
    (reference : String) (e : GoError)
    (h : (walletService.SwapFunds api db redis userID fromCurrency toCurrency amountIn
      reference).1.2 = some e) :
    IsErrUniqueConstraint e = false := by
  unfold walletService.SwapFunds at h
  split at h
  split at h
  · simp only [Option.some.injEq] at h
    subst h
    rfl
  · split at h
    · next err hrate =>
      simp only [Option.some.injEq] at h
      subst h
      unfold fetchExchangeRate at hrate
      split at hrate
      · simp at hrate
      · split at hrate
        · simp only [Prod.mk.injEq, Option.some.injEq] at hrate
          rw [← hrate.2]
          rfl
        · simp only [Prod.mk.injEq, Option.some.injEq] at hrate
          rw [← hrate.2]
          rfl
        · split at hrate
          · simp at hrate
          · simp only [Prod.mk.injEq, Option.some.injEq] at hrate
            rw [← hrate.2]
            rfl
    · simp only at h
      split at h
      · split at h
        · simp only [Option.some.injEq] at h
          subst h
          rfl
        · next hno =>
          simp only [Option.some.injEq] at h
          subst h
          simpa using hno
      · simp at h

theorem walletService.TransferFunds_no_unique_error (db : DB) (redis : RedisStore)
    (userID toAccount currency : String) (amount : Amount) (userDesc reference : String)
    (e : GoError)
    (h : (walletService.TransferFunds db redis userID toAccount currency amount userDesc
      reference).1.2 = some e) :
    IsErrUniqueConstraint e = false := by
  unfold walletService.TransferFunds at h
  split at h
  split at h
  · simp only [Option.some.injEq] at h
    subst h
    rfl
  · simp only at h
    split at h
    · next err huser =>
      simp only [Option.some.injEq] at h
      subst h
      unfold GetUserByID at huser
      split at huser
      · simp at huser
      · simp only [Prod.mk.injEq, Option.some.injEq] at huser
        rw [← huser.2]
        rfl
    · split at h
      · next err hwal =>
        simp only [Option.some.injEq] at h
        subst h
        unfold GetWalletByAccountNumber at hwal
        split at hwal
        · simp at hwal
        · simp only [Prod.mk.injEq, Option.some.injEq] at hwal
          rw [← hwal.2]
          rfl
      · simp only [Option.some.injEq] at h
        subst h
        rfl
      · split at h
        · simp only [Option.some.injEq] at h
          subst h
          rfl
        · split at h
          · split at h
            · simp only [Option.some.injEq] at h
              subst h
              rfl
            · next hno =>
              simp only [Option.some.injEq] at h
              subst h
              simpa using hno
          · simp at h

theorem ServiceCall.exec_no_unique_error (api : String → RateResponse) (reference : String)
    (db : DB) (redis : RedisStore) (c : ServiceCall) (e : GoError)
    (h : (c.exec api reference db redis).1 = some e) : IsErrUniqueConstraint e = false := by
  cases c with
  | FundWallet userID currency amount description =>
    exact FundWallet_no_unique_error db redis userID currency amount reference description e h
  | SwapFunds userID fromCurrency toCurrency amountIn =>
    exact walletService.SwapFunds_no_unique_error api db redis userID fromCurrency toCurrency
      amountIn reference e h
  | TransferFunds userID toAccount currency amount userDesc =>
    exact walletService.TransferFunds_no_unique_error db redis userID toAccount currency amount
      userDesc reference e h

/-- Counterexample to C24: with the reference `SEED_123` of the example log, `CreditWallet` and
`DebitForWithdrawal` return the error of the store's unique constraint as it is, and so do
`TransferFunds` and `SwapFunds` when a reference of their rows is in the log. -/
theorem repository_raw_error_counterexample :
    (∃ t ∈ exampleStore.transactions, t.Reference = "SEED_123") ∧
      CreditWallet exampleStore "w1" "USD" 5 "SEED_123" "deposit" .Deposit
        = (some (.UniqueConstraint "reference"), exampleStore) ∧
      DebitForWithdrawal exampleStore "u1" "USD" 5 "SEED_123" "TRF_9" "withdrawal"
        = (some (.UniqueConstraint "reference"), exampleStore) ∧
      (SwapFunds swappedStore "u1" "USD" "NGN" 3 4500 "S1" "swap").1
        = some (.UniqueConstraint "reference") := by
  decide!

/-- C24, amended: `DebitForWithdrawal`, `TransferFunds` and `SwapFunds` never return an error
whose text names the constraint `non_negative_balance` (a violation raised by their batch is
returned as `insufficient funds (race condition)`); `CreditWalletByEmail` never returns the
error of the unique constraint (a duplicate reference is returned as success); and the
services `FundWallet`, `SwapFunds` and `TransferFunds` never return the error of the unique
constraint, which the repository hands to them as it is and which they return as
`ErrTransactionAlreadyProcessed`. -/
theorem repository_error_translation (db : DB) (e : GoError) :
    (∀ (userID currency : String) (amount : Amount) (reference transferCode description : String),
        (DebitForWithdrawal db userID currency amount reference transferCode description).1
          = some e →
        stringsContains e.Error "non_negative_balance" = false) ∧
      (∀ (fromUserID toAccountNumber currency : String) (amount : Amount)
          (reference descSender descReceiver : String),
        (TransferFunds db fromUserID toAccountNumber currency amount reference descSender
          descReceiver).1 = some e →
        stringsContains e.Error "non_negative_balance" = false) ∧
      (∀ (userID fromCurrency toCurrency : String) (sourceAmount amountOut : Amount)
          (reference description : String),
        (SwapFunds db userID fromCurrency toCurrency sourceAmount amountOut reference
          description).1 = some e →
        stringsContains e.Error "non_negative_balance" = false) ∧
      (∀ (email currency : String) (amount : Amount) (reference description provider : String),
        isUniqueConstraintError
          (CreditWalletByEmail db email currency amount reference description provider).1
          = false) ∧
      (∀ (api : String → RateResponse) (reference : String) (redis : RedisStore)
          (c : ServiceCall),
        (c.exec api reference db redis).1 = some e → IsErrUniqueConstraint e = false) := by
  refine ⟨?_, ?_, ?_, ?_, ?_⟩
  · intro userID currency amount reference transferCode description h
    exact DebitForWithdrawal_no_check_error db userID currency amount reference transferCode
      description e h
  · intro fromUserID toAccountNumber currency amount reference descSender descReceiver h
    exact TransferFunds_no_check_error db fromUserID toAccountNumber currency amount reference
      descSender descReceiver e h
  · intro userID fromCurrency toCurrency sourceAmount amountOut reference description h
    exact SwapFunds_no_check_error db userID fromCurrency toCurrency sourceAmount amountOut
      reference description e h
  · intro email currency amount reference description provider
    exact CreditWalletByEmail_no_unique_error db email currency amount reference description
      provider
  · intro api reference redis c h
    exact ServiceCall.exec_no_unique_error api reference db redis c e h

/-- C24 as amended, at the example store: a transfer of 50 USD from a balance of 10 USD, which
the store's check constraint refuses, returns `insufficient funds (race condition)`, a text that
does not name the constraint. -/
theorem repository_error_translation_witness :
    (TransferFunds exampleStore "u1" "1000000002" "USD" 50 "T1" "to B" "from A").1
        = some (.Errorf "insufficient funds (race condition)") ∧
      stringsContains (GoError.Errorf "insufficient funds (race condition)").Error
        "non_negative_balance" = false :=
  ⟨by decide!,
    (repository_error_translation exampleStore (.Errorf "insufficient funds (race condition)")).2.1
      "u1" "1000000002" "USD" 50 "T1" "to B" "from A" (by decide!)⟩

/-! ## The answers of the transfer endpoint -/

/-- C25 at the store `pinStore`: a valid transfer of 50 USD by the first user, whose balance is
10 USD, fails in the repository with `insufficient funds (race condition)`, and a valid transfer
of 5 EUR, an asset the user does not have, fails with `insufficient funds`; the handler compares
the text with `insufficient balance` and answers both with status 500 and the generic message
`transfer processing failed`, leaving the ledger as it was. A repeated key is answered with
status 200 and `transfer already processed`. -/
theorem TransferFundsHandlerV1_insufficient_funds :
    (walletService.TransferFunds pinStore emptyRedis "u1" "1000000002" "USD" 50 "rent" "K1").1.2
        = some (.Errorf "insufficient funds (race condition)") ∧
      (TransferFundsHandlerV1 exampleBcrypt pinStore emptyRedis "K1"
          (some ⟨"1000000002", "USD", 50, "1234", "rent"⟩) (some "u1")).1
        = { status := 500, message := "transfer processing failed" } ∧
      (TransferFundsHandlerV1 exampleBcrypt pinStore emptyRedis "K1"
          (some ⟨"1000000002", "USD", 50, "1234", "rent"⟩) (some "u1")).2.1 = pinStore ∧
      (walletService.TransferFunds pinStore emptyRedis "u1" "1000000002" "EUR" 5 "rent" "K1").1.2
        = some (.Errorf "insufficient funds") ∧
      (TransferFundsHandlerV1 exampleBcrypt pinStore emptyRedis "K1"
          (some ⟨"1000000002", "EUR", 5, "1234", "rent"⟩) (some "u1")).1
        = { status := 500, message := "transfer processing failed" } ∧
      (TransferFundsHandlerV1 exampleBcrypt pinStore emptyRedis "K1"
          (some ⟨"1000000002", "USD", 5, "1234", "rent"⟩) (some "u1")).1
        = { status := 200, message := "transfer successful" } ∧
      (TransferFundsHandlerV1 exampleBcrypt
          (TransferFundsHandlerV1 exampleBcrypt pinStore emptyRedis "K1"
            (some ⟨"1000000002", "USD", 5, "1234", "rent"⟩) (some "u1")).2.1
          (TransferFundsHandlerV1 exampleBcrypt pinStore emptyRedis "K1"
            (some ⟨"1000000002", "USD", 5, "1234", "rent"⟩) (some "u1")).2.2
          "K1" (some ⟨"1000000002", "USD", 5, "1234", "rent"⟩) (some "u1")).1
        = { status := 200, message := "transfer already processed" } := by
  decide!

/-! ## Withdrawals -/

/-- C26 at the store `pinStore`: the withdrawal of 4 USD is answered with status 200 after two
orders were sent to the gateway, one by the handler with reference `WDR-1000` and one by
`WithdrawFunds` with reference `WDR-2000`; the single new row of the log stores the transfer
code of the second order, and the response carries the transfer code of the first. -/
theorem WithdrawalHandler_two_transfers :
    (WithdrawalHandler acceptingGateway exampleBcrypt 1000 2000 pinStore cachedRedis []
        (some exampleWithdrawalRequest) "u1").1
        = { status := 200, message := "Withdrawal processing",
            transfer := some ⟨"TRF_WDR-1000", "WDR-1000", "pending"⟩ } ∧
      (WithdrawalHandler acceptingGateway exampleBcrypt 1000 2000 pinStore cachedRedis []
        (some exampleWithdrawalRequest) "u1").2.2.2
        = [⟨400, "RCP_0123456789", "WDR-1000", "rent"⟩,
            ⟨400, "RCP_0123456789", "WDR-2000", "rent"⟩] ∧
      (WithdrawalHandler acceptingGateway exampleBcrypt 1000 2000 pinStore cachedRedis []
        (some exampleWithdrawalRequest) "u1").2.1.transactions
        = pinStore.transactions ++
          [{ ID := "4", WalletID := "w1", Amount := 4, Currency := "USD", TxType := .Withdrawal,
             Status := .Pending, Reference := "WDR-2000", GatewayRef := some "TRF_WDR-2000",
             Provider := some "PAYSTACK", Description := some "rent" }] ∧
      (WithdrawalHandler acceptingGateway exampleBcrypt 1000 2000 pinStore cachedRedis []
        (some exampleWithdrawalRequest) "u1").2.1.assets
        = [{ ID := "0", WalletID := "w1", Currency := "NGN", Balance := 0 },
           { ID := "1", WalletID := "w2", Currency := "NGN", Balance := 0 },
           { ID := "3", WalletID := "w1", Currency := "USD", Balance := 6 }] := by
  decide!

/-- C28 at the example store: `DebitForWithdrawal` with the amount -5 returns success and the
USD balance of the first user goes from 10 to 15; `WithdrawalHandler`, which does not check
the sign of the amount, answers the same request with status 200 and the same balance. -/
theorem DebitForWithdrawal_negative_amount :
    GetAssetByCurrency exampleStore "u1" "USD"
        = (some { ID := "3", WalletID := "w1", Currency := "USD", Balance := 10 }, none) ∧
      (DebitForWithdrawal exampleStore "u1" "USD" (-5) "WDR-1" "TRF_1" "rent").1 = none ∧
      GetAssetByCurrency (DebitForWithdrawal exampleStore "u1" "USD" (-5) "WDR-1" "TRF_1" "rent").2
          "u1" "USD"
        = (some { ID := "3", WalletID := "w1", Currency := "USD", Balance := 15 }, none) ∧
      (WithdrawalHandler acceptingGateway exampleBcrypt 1000 2000 pinStore cachedRedis []
        (some { exampleWithdrawalRequest with Amount := -5 }) "u1").1.status = 200 ∧
      GetAssetByCurrency
          (WithdrawalHandler acceptingGateway exampleBcrypt 1000 2000 pinStore cachedRedis []
            (some { exampleWithdrawalRequest with Amount := -5 }) "u1").2.1 "u1" "USD"
        = (some { ID := "3", WalletID := "w1", Currency := "USD", Balance := 15 }, none) := by
  decide!

/-! ## Withdrawals of money the user does not have -/

theorem DebitForWithdrawal_short (db : DB) (userID currency : String) (amount : Amount)
    (reference transferCode description : String)
    (h : ∀ a, (GetAssetByCurrency db userID currency).1 = some a → a.Balance < amount) :
    DebitForWithdrawal db userID currency amount reference transferCode description
      = (some (.Errorf "insufficient funds"), db) := by
  unfold DebitForWithdrawal
  rcases GetAssetByCurrency_cases db userID currency with ⟨a, ha⟩ | hnone
  · have hlt : a.Balance < amount := h a (by rw [ha])
    rw [ha]
    simp only [DebitForWithdrawal.afterRead, hlt, if_true]
  · rw [hnone]
    simp only [DebitForWithdrawal.afterRead]

/-- Counterexample to C27: the first user of the example store holds 10 USD; a withdrawal of
50 USD through a gateway that accepts the order returns an error after the order was sent to
the gateway. -/
theorem WithdrawFunds_transfer_counterexample :
    (GetAssetByCurrency exampleStore "u1" "USD").1.map (fun a => a.Balance) = some 10 ∧
      walletService.WithdrawFunds acceptingGateway 1000 exampleStore cachedRedis [] "u1"
          { exampleWithdrawalRequest with Amount := 50 }
        = (some (.Wrapf "withdrawal successful but db update failed: "
              (.Errorf "insufficient funds")),
            exampleStore, cachedRedis, [⟨5000, "RCP_0123456789", "WDR-1000", "rent"⟩]) := by
  decide!

/-- C27, amended: when the user's asset in the requested currency is missing or its balance is
below the requested amount, `WithdrawFunds` returns an error and leaves the ledger and the
key/value store as they were. It has not invoked `InitiateTransfer` when the creation of the
recipient failed; otherwise it has invoked it exactly once, with the requested amount in minor
units, before the balance was examined, and when the gateway accepted that order the error is
`withdrawal successful but db update failed: insufficient funds`. -/
theorem WithdrawFunds_insufficient (api : PaystackAPI) (now : Int) (db : DB) (redis : RedisStore)
    (sent : List TransferOrder) (userID : String) (req : WithdrawalRequest)
    (h : ∀ a, (GetAssetByCurrency db userID req.Currency).1 = some a → a.Balance < req.Amount) :
    (∃ err, (walletService.WithdrawFunds api now db redis sent userID req).1 = some err) ∧
      (walletService.WithdrawFunds api now db redis sent userID req).2.1 = db ∧
      (walletService.WithdrawFunds api now db redis sent userID req).2.2.1 = redis ∧
      (∀ err, CreateTransferRecipient api req.AccountName req.AccountNumber req.BankCode
            req.Currency = .error err →
          (walletService.WithdrawFunds api now db redis sent userID req).2.2.2 = sent) ∧
      (∀ code, CreateTransferRecipient api req.AccountName req.AccountNumber req.BankCode
            req.Currency = .ok code →
          (walletService.WithdrawFunds api now db redis sent userID req).2.2.2
              = sent ++ [⟨req.Amount * 100, code, "WDR-" ++ toString now, req.Reason⟩] ∧
            ∀ data, api.transfer ⟨req.Amount * 100, code, "WDR-" ++ toString now, req.Reason⟩
                = .Accepted data →
              (walletService.WithdrawFunds api now db redis sent userID req).1
                = some (.Wrapf "withdrawal successful but db update failed: "
                    (.Errorf "insufficient funds"))) := by
  unfold walletService.WithdrawFunds
  simp only
  cases hc : CreateTransferRecipient api req.AccountName req.AccountNumber req.BankCode
      req.Currency with
  | error e =>
    simp only
    refine ⟨⟨_, rfl⟩, trivial, trivial, fun _ _ => trivial, ?_⟩
    intro code hcode
    cases hcode
  | ok recipientCode =>
    simp only [InitiateTransfer]
    cases ht : api.transfer ⟨req.Amount * 100, recipientCode, "WDR-" ++ toString now,
        req.Reason⟩ with
    | Failed e =>
      simp only
      refine ⟨⟨_, rfl⟩, trivial, trivial, ?_, ?_⟩
      · intro err herr
        cases herr
      · intro code hcode
        cases hcode
        refine ⟨rfl, ?_⟩
        intro data hdata
        rw [ht] at hdata
        cases hdata
    | Refused m =>
      simp only
      refine ⟨⟨_, rfl⟩, trivial, trivial, ?_, ?_⟩
      · intro err herr
        cases herr
      · intro code hcode
        cases hcode
        refine ⟨rfl, ?_⟩
        intro data hdata
        rw [ht] at hdata
        cases hdata
    | Accepted d =>
      simp only [DebitForWithdrawal_short db userID req.Currency req.Amount _ _ _ h]
      refine ⟨⟨_, rfl⟩, trivial, trivial, ?_, ?_⟩
      · intro err herr
        cases herr
      · intro code hcode
        cases hcode
        exact ⟨rfl, fun _ _ => trivial⟩

/-- C27 as amended, at the example store: the withdrawal of 50 USD from a balance of 10 USD
returns an error, changes neither store, and has sent exactly one order to the gateway. -/
theorem WithdrawFunds_insufficient_witness :
    (∃ err, (walletService.WithdrawFunds acceptingGateway 1000 exampleStore cachedRedis [] "u1"
        { exampleWithdrawalRequest with Amount := 50 }).1 = some err) ∧
      (walletService.WithdrawFunds acceptingGateway 1000 exampleStore cachedRedis [] "u1"
        { exampleWithdrawalRequest with Amount := 50 }).2.1 = exampleStore ∧
      (walletService.WithdrawFunds acceptingGateway 1000 exampleStore cachedRedis [] "u1"
        { exampleWithdrawalRequest with Amount := 50 }).2.2.2
        = [] ++ [⟨(50 : Amount) * 100, "RCP_0123456789", "WDR-" ++ toString (1000 : Int),
            "rent"⟩] :=
  have h := WithdrawFunds_insufficient acceptingGateway 1000 exampleStore cachedRedis [] "u1"
    { exampleWithdrawalRequest with Amount := 50 } (by decide!)
  ⟨h.1, h.2.1, (h.2.2.2.2 "RCP_0123456789" rfl).1⟩

/-! ## The idempotency key of a reference is shared by all principals -/

theorem TryLockIdempotencyKey_free (r : RedisStore) (key : String) (ttl : Nat)
    (hav : r.available = true) (hfree : r.holds ("idemp:" ++ key) = false) :
    TryLockIdempotencyKey r key ttl = ((true, none),
      { r with entries := r.entries ++ [⟨"idemp:" ++ key, "processing", ttl⟩] }) := by
  rcases TryLockIdempotencyKey_cases r key ttl with ⟨hb, _, _⟩ | ⟨_, _, hT⟩
  · rcases hb with h | h
    · rw [hav] at h
      exact absurd h (by decide)
    · rw [hfree] at h
      exact absurd h (by decide)
  · exact hT

theorem FundWallet_ledger_congr (db : DB) (r1 r2 : RedisStore) (userID currency : String)
    (amount : Amount) (reference description : String)
    (hav1 : r1.available = true) (hfree1 : r1.holds ("idemp:" ++ reference) = false)
    (hav2 : r2.available = true) (hfree2 : r2.holds ("idemp:" ++ reference) = false) :
    (FundWallet db r1 userID currency amount reference description).1
        = (FundWallet db r2 userID currency amount reference description).1 ∧
      (FundWallet db r1 userID currency amount reference description).2.1
        = (FundWallet db r2 userID currency amount reference description).2.1 := by
  unfold FundWallet
  rw [TryLockIdempotencyKey_free r1 reference 300 hav1 hfree1,
    TryLockIdempotencyKey_free r2 reference 300 hav2 hfree2]
  simp only [Bool.not_true, Bool.false_eq_true, if_false]
  split
  · exact ⟨rfl, rfl⟩
  · exact ⟨rfl, rfl⟩
  · split
    · split
      · exact ⟨rfl, rfl⟩
      · exact ⟨rfl, rfl⟩
    · exact ⟨rfl, rfl⟩

theorem walletService.SwapFunds_ledger_congr (api : String → RateResponse) (db : DB)
    (r1 r2 : RedisStore) (userID fromCurrency toCurrency : String) (amountIn : Amount)
    (reference : String)
    (hav1 : r1.available = true) (hfree1 : r1.holds ("idemp:" ++ reference) = false)
    (hav2 : r2.available = true) (hfree2 : r2.holds ("idemp:" ++ reference) = false) :
    (walletService.SwapFunds api db r1 userID fromCurrency toCurrency amountIn reference).1
        = (walletService.SwapFunds api db r2 userID fromCurrency toCurrency amountIn reference).1 ∧
      (walletService.SwapFunds api db r1 userID fromCurrency toCurrency amountIn reference).2.1
        = (walletService.SwapFunds api db r2 userID fromCurrency toCurrency amountIn
            reference).2.1 := by
  unfold walletService.SwapFunds
  rw [TryLockIdempotencyKey_free r1 reference 300 hav1 hfree1,
    TryLockIdempotencyKey_free r2 reference 300 hav2 hfree2]
  simp only [Bool.not_true, Bool.false_eq_true, if_false]
  split
  · exact ⟨rfl, rfl⟩
  · split
    · split
      · exact ⟨rfl, rfl⟩
      · exact ⟨rfl, rfl⟩
    · exact ⟨rfl, rfl⟩

theorem walletService.TransferFunds_ledger_congr (db : DB) (r1 r2 : RedisStore)
    (userID toAccount currency : String) (amount : Amount) (userDesc reference : String)
    (hav1 : r1.available = true) (hfree1 : r1.holds ("idemp:" ++ reference) = false)
    (hav2 : r2.available = true) (hfree2 : r2.holds ("idemp:" ++ reference) = false) :
    (walletService.TransferFunds db r1 userID toAccount currency amount userDesc reference).1
        = (walletService.TransferFunds db r2 userID toAccount currency amount userDesc
            reference).1 ∧
      (walletService.TransferFunds db r1 userID toAccount currency amount userDesc reference).2.1
        = (walletService.TransferFunds db r2 userID toAccount currency amount userDesc
            reference).2.1 := by
  unfold walletService.TransferFunds
  rw [TryLockIdempotencyKey_free r1 reference 300 hav1 hfree1,
    TryLockIdempotencyKey_free r2 reference 300 hav2 hfree2]
  simp only [Bool.not_true, Bool.false_eq_true, if_false]
  split
  · exact ⟨rfl, rfl⟩
  · split
    · exact ⟨rfl, rfl⟩
    · exact ⟨rfl, rfl⟩
    · split
      · exact ⟨rfl, rfl⟩
      · split
        · split
          · exact ⟨rfl, rfl⟩
          · exact ⟨rfl, rfl⟩
        · exact ⟨rfl, rfl⟩

theorem ServiceCall.exec_ledger_congr (api : String → RateResponse) (reference : String)
    (db : DB) (r1 r2 : RedisStore) (c : ServiceCall)
    (hav1 : r1.available = true) (hfree1 : r1.holds ("idemp:" ++ reference) = false)
    (hav2 : r2.available = true) (hfree2 : r2.holds ("idemp:" ++ reference) = false) :
    (c.exec api reference db r1).1 = (c.exec api reference db r2).1 ∧
      (c.exec api reference db r1).2.1 = (c.exec api reference db r2).2.1 := by
  cases c with
  | FundWallet userID currency amount description =>
    exact FundWallet_ledger_congr db r1 r2 userID currency amount reference description
      hav1 hfree1 hav2 hfree2
  | SwapFunds userID fromCurrency toCurrency amountIn =>
    have h := walletService.SwapFunds_ledger_congr api db r1 r2 userID fromCurrency toCurrency
      amountIn reference hav1 hfree1 hav2 hfree2
    simp only [ServiceCall.exec]
    exact ⟨congrArg Prod.snd h.1, h.2⟩
  | TransferFunds userID toAccount currency amount userDesc =>
    have h := walletService.TransferFunds_ledger_congr db r1 r2 userID toAccount currency amount
      userDesc reference hav1 hfree1 hav2 hfree2
    simp only [ServiceCall.exec]
    exact ⟨congrArg Prod.snd h.1, h.2⟩

/-- Counterexample to C29: on the example store the second user's `FundWallet` with the
reference `K1` succeeds when nobody has used the reference. After the provider's webhook for
the reference `K1`, or after the first user's swap with the reference `K1`, the same call on
the same ledger returns `ErrTransactionAlreadyProcessed` and leaves the ledger as it was. -/
theorem idempotency_key_counterexample :
    (FundWallet exampleStore emptyRedis "u2" "NGN" 5 "K1" "fund").1 = none ∧
      FundWallet exampleStore
          (PaystackWebhookHandler emptyRedis
            (some (.Event ⟨"charge.success", "K1", "", 2500, "USD", "success",
              "safety_test@mzl.com"⟩)) "sig" true).2 "u2" "NGN" 5 "K1" "fund"
        = (some .ErrTransactionAlreadyProcessed, exampleStore,
            (PaystackWebhookHandler emptyRedis
              (some (.Event ⟨"charge.success", "K1", "", 2500, "USD", "success",
                "safety_test@mzl.com"⟩)) "sig" true).2) ∧
      (ServiceCall.exec exampleRates "K1" exampleStore emptyRedis
          (.SwapFunds "u1" "USD" "NGN" 3)).1 = none ∧
      (FundWallet
          (ServiceCall.exec exampleRates "K1" exampleStore emptyRedis
            (.SwapFunds "u1" "USD" "NGN" 3)).2.1
          emptyRedis "u2" "NGN" 5 "K1" "fund").1 = none ∧
      FundWallet
          (ServiceCall.exec exampleRates "K1" exampleStore emptyRedis
            (.SwapFunds "u1" "USD" "NGN" 3)).2.1
          (ServiceCall.exec exampleRates "K1" exampleStore emptyRedis
            (.SwapFunds "u1" "USD" "NGN" 3)).2.2 "u2" "NGN" 5 "K1" "fund"
        = (some .ErrTransactionAlreadyProcessed,
            (ServiceCall.exec exampleRates "K1" exampleStore emptyRedis
              (.SwapFunds "u1" "USD" "NGN" 3)).2.1,
            (ServiceCall.exec exampleRates "K1" exampleStore emptyRedis
              (.SwapFunds "u1" "USD" "NGN" 3)).2.2) := by
  decide!

/-- C29, amended: the result and the ledger effect of a call of `FundWallet`, `SwapFunds` or
`TransferFunds` with a reference depend on the key/value store only through whether it answers
and whether it holds the key `idemp:` followed by the reference, a key that carries no
principal: two key/value stores that agree on both give the same result and the same ledger.
When the key is held, whoever took it, the call returns `ErrTransactionAlreadyProcessed` and
changes neither store. -/
theorem idempotency_key_shared (api : String → RateResponse) (reference : String) (db : DB)
    (r1 r2 : RedisStore) (c : ServiceCall)
    (hav : r1.available = r2.available)
    (hkey : r1.holds ("idemp:" ++ reference) = r2.holds ("idemp:" ++ reference)) :
    (c.exec api reference db r1).1 = (c.exec api reference db r2).1 ∧
      (c.exec api reference db r1).2.1 = (c.exec api reference db r2).2.1 ∧
      (r1.holds ("idemp:" ++ reference) = true →
        c.exec api reference db r1 = (some .ErrTransactionAlreadyProcessed, db, r1)) := by
  have hlast : r1.holds ("idemp:" ++ reference) = true →
      c.exec api reference db r1 = (some .ErrTransactionAlreadyProcessed, db, r1) :=
    fun h => ServiceCall.exec_blocked api reference db r1 c (Or.inr h)
  cases hav1 : r1.available
  · have hav2 : r2.available = false := by rw [← hav, hav1]
    rw [ServiceCall.exec_blocked api reference db r1 c (Or.inl hav1),
      ServiceCall.exec_blocked api reference db r2 c (Or.inl hav2)]
    exact ⟨rfl, rfl, fun _ => rfl⟩
  · have hav2 : r2.available = true := by rw [← hav, hav1]
    cases hk1 : r1.holds ("idemp:" ++ reference)
    · have hk2 : r2.holds ("idemp:" ++ reference) = false := by rw [← hkey, hk1]
      have h := ServiceCall.exec_ledger_congr api reference db r1 r2 c hav1 hk1 hav2 hk2
      exact ⟨h.1, h.2, fun hf => absurd hf (by decide)⟩
    · have hk2 : r2.holds ("idemp:" ++ reference) = true := by rw [← hkey, hk1]
      rw [ServiceCall.exec_blocked api reference db r1 c (Or.inr hk1),
        ServiceCall.exec_blocked api reference db r2 c (Or.inr hk2)]
      exact ⟨rfl, rfl, fun _ => rfl⟩

/-- C29 as amended, at the example store: the second user's `FundWallet` with the reference
`K1` has the same result and the same ledger effect on the empty key/value store and on the
store that caches the wallets and histories of both users, neither of which holds
`idemp:K1`. -/
theorem idempotency_key_shared_witness :
    emptyRedis.holds ("idemp:" ++ "K1") = cachedRedis.holds ("idemp:" ++ "K1") ∧
      ((ServiceCall.FundWallet "u2" "NGN" 5 "fund").exec exampleRates "K1" exampleStore
          emptyRedis).1
        = ((ServiceCall.FundWallet "u2" "NGN" 5 "fund").exec exampleRates "K1" exampleStore
          cachedRedis).1 ∧
      ((ServiceCall.FundWallet "u2" "NGN" 5 "fund").exec exampleRates "K1" exampleStore
          emptyRedis).2.1
        = ((ServiceCall.FundWallet "u2" "NGN" 5 "fund").exec exampleRates "K1" exampleStore
          cachedRedis).2.1 :=
  have h := idempotency_key_shared exampleRates "K1" exampleStore emptyRedis cachedRedis
    (.FundWallet "u2" "NGN" 5 "fund") (by decide) (by decide)
  ⟨by decide, h.1, h.2.1⟩

/-! ## What `ErrTransactionAlreadyProcessed` reports -/

theorem execOps_cons_error (op : TxOp) (ops : List TxOp) (db : DB) (e : GoError)
    (h : execOps (op :: ops) db = .error e) :
    op db = .error e ∨ ∃ db1, op db = .ok db1 ∧ execOps ops db1 = .error e := by
  simp only [execOps] at h
  cases hop : op db with
  | error e1 =>
    rw [hop] at h
    simp only [Except.error.injEq] at h
    subst h
    exact Or.inl rfl
  | ok db1 =>
    rw [hop] at h
    exact Or.inr ⟨db1, rfl, h⟩

theorem DuplicateExplained.of_store (db : DB) (refs : List String) (e : GoError)
    (h : e = .RecordNotFound ∨ e = .CheckConstraint "non_negative_balance") :
    DuplicateExplained db refs e := by
  rcases h with h | h
  · subst h
    exact ⟨by simp, by simp [IsErrUniqueConstraint]⟩
  · subst h
    exact ⟨by simp, by simp [IsErrUniqueConstraint]⟩

theorem DuplicateExplained.of_errorf (db : DB) (refs : List String) (m : String) :
    DuplicateExplained db refs (.Errorf m) :=
  ⟨by simp, by simp [IsErrUniqueConstraint]⟩

theorem DuplicateExplained.of_log (db db1 : DB) (refs : List String) (e : GoError)
    (hlog : db1.transactions = db.transactions) (h : DuplicateExplained db1 refs e) :
    DuplicateExplained db refs e := by
  refine ⟨h.1, fun hu => ?_⟩
  rw [← hlog]
  exact h.2 hu

theorem WalletAsset.Update_error (sel : WalletAssetModel → Bool) (f : Amount → Amount)
    (db : DB) (e : GoError) (h : WalletAsset.Update sel f db = .error e) :
    e = .RecordNotFound ∨ e = .CheckConstraint "non_negative_balance" := by
  unfold WalletAsset.Update at h
  split at h
  · simp only [Except.error.injEq] at h
    exact Or.inl h.symm
  · split at h
    · simp only [Except.error.injEq] at h
      exact Or.inr h.symm
    · simp at h

theorem WalletAsset.UpsertOne_error (walletID currency : String) (amount : Amount)
    (db : DB) (e : GoError) (h : WalletAsset.UpsertOne walletID currency amount db = .error e) :
    e = .RecordNotFound ∨ e = .CheckConstraint "non_negative_balance" := by
  unfold WalletAsset.UpsertOne at h
  split at h
  · exact WalletAsset.Update_error _ _ db e h
  · split at h
    · simp only [Except.error.injEq] at h
      exact Or.inl h.symm
    · split at h
      · simp only [Except.error.injEq] at h
        exact Or.inr h.symm
      · simp at h

theorem Transaction.CreateOne_error (walletID : String) (amount : Amount) (currency : String)
    (txType : TransactionType) (reference : String) (status : TransactionStatus)
    (gatewayRef provider description : Option String) (db : DB) (refs : List String)
    (e : GoError) (hmem : reference ∈ refs)
    (h : Transaction.CreateOne walletID amount currency txType reference status gatewayRef
      provider description db = .error e) :
    DuplicateExplained db refs e := by
  unfold Transaction.CreateOne at h
  split at h
  · simp only [Except.error.injEq] at h
    exact DuplicateExplained.of_store db refs e (Or.inl h.symm)
  · split at h
    · next hv =>
      simp only [Except.error.injEq] at h
      subst h
      refine ⟨by simp, fun _ => ?_⟩
      simp only [violatesUniqueReference, List.any_eq_true, beq_iff_eq] at hv
      obtain ⟨t, ht, hr⟩ := hv
      exact ⟨t, ht, by rw [hr]; exact hmem⟩
    · simp at h

theorem Transaction.CreateOne_log (walletID : String) (amount : Amount) (currency : String)
    (txType : TransactionType) (reference : String) (status : TransactionStatus)
    (gatewayRef provider description : Option String) (db db1 : DB)
    (h : Transaction.CreateOne walletID amount currency txType reference status gatewayRef
      provider description db = .ok db1) :
    ∀ t ∈ db1.transactions, t ∈ db.transactions ∨ t.Reference = reference := by
  rw [((Transaction.CreateOne_ok_iff walletID amount currency txType reference status gatewayRef
    provider description db db1).mp h).2.2]
  intro t ht
  simp only [List.mem_append, List.mem_singleton] at ht
  rcases ht with ht | ht
  · exact Or.inl ht
  · exact Or.inr (by rw [ht])

theorem Prisma.Transaction_error (ops : List TxOp) (db : DB) (e : GoError)
    (h : (Prisma.Transaction ops db).1 = some e) : execOps ops db = .error e := by
  unfold Prisma.Transaction at h
  split at h
  · simp at h
  · next e1 he =>
    simp only [Option.some.injEq] at h
    subst h
    exact he

theorem execOps_nil_error (db : DB) (e : GoError) (h : execOps [] db = .error e) : False := by
  simp [execOps] at h

theorem CreditWallet_explained (db : DB) (walletID currency : String) (amount : Amount)
    (reference description : String) (txType : TransactionType) (e : GoError)
    (h : (CreditWallet db walletID currency amount reference description txType).1 = some e) :
    DuplicateExplained db [reference] e := by
  unfold CreditWallet at h
  simp only at h
  rcases execOps_cons_error _ _ db e (Prisma.Transaction_error _ db e h) with h1 | ⟨db1, _, h1⟩
  · exact Transaction.CreateOne_error _ _ _ _ _ _ _ _ _ db _ e (List.mem_singleton.mpr rfl) h1
  · rcases execOps_cons_error _ _ db1 e h1 with h2 | ⟨db2, _, h2⟩
    · exact DuplicateExplained.of_store db _ e (WalletAsset.UpsertOne_error _ _ _ db1 e h2)
    · exact (execOps_nil_error db2 e h2).elim

theorem execOps_two_rows_explained (db : DB) (opDebit opCredit : TxOp)
    (walletA walletB : String) (amountA amountB : Amount) (currencyA currencyB : String)
    (txType : TransactionType) (reference sa sb : String) (hne : sa ≠ sb)
    (descA descB : Option String) (e : GoError)
    (hD : ∀ d e1, opDebit d = .error e1 →
      e1 = .RecordNotFound ∨ e1 = .CheckConstraint "non_negative_balance")
    (hDlog : ∀ d d1, opDebit d = .ok d1 → d1.transactions = d.transactions)
    (hC : ∀ d e1, opCredit d = .error e1 →
      e1 = .RecordNotFound ∨ e1 = .CheckConstraint "non_negative_balance")
    (hClog : ∀ d d1, opCredit d = .ok d1 → d1.transactions = d.transactions)
    (h : execOps [opDebit, opCredit,
      Transaction.CreateOne walletA amountA currencyA txType (reference ++ sa) .Success none none
        descA,
      Transaction.CreateOne walletB amountB currencyB txType (reference ++ sb) .Success none none
        descB] db = .error e) :
    DuplicateExplained db [reference ++ sa, reference ++ sb] e := by
  rcases execOps_cons_error _ _ db e h with h1 | ⟨db1, hok1, h1⟩
  · exact DuplicateExplained.of_store db _ e (hD db e h1)
  have hlog1 := hDlog db db1 hok1
  rcases execOps_cons_error _ _ db1 e h1 with h2 | ⟨db2, hok2, h2⟩
  · exact DuplicateExplained.of_store db _ e (hC db1 e h2)
  have hlog2 := hClog db1 db2 hok2
  rcases execOps_cons_error _ _ db2 e h2 with h3 | ⟨db3, hok3, h3⟩
  · refine DuplicateExplained.of_log db db2 _ e (by rw [hlog2, hlog1]) ?_
    exact Transaction.CreateOne_error _ _ _ _ _ _ _ _ _ db2 _ e (List.mem_cons_self _ _) h3
  rcases execOps_cons_error _ _ db3 e h3 with h4 | ⟨db4, _, h4⟩
  · have hx := Transaction.CreateOne_error _ _ _ _ _ _ _ _ _ db3 [reference ++ sb] e
      (List.mem_singleton.mpr rfl) h4
    refine ⟨hx.1, fun hu => ?_⟩
    obtain ⟨t, ht, hr⟩ := hx.2 hu
    have hr' : t.Reference = reference ++ sb := List.mem_singleton.mp hr
    rcases Transaction.CreateOne_log _ _ _ _ _ _ _ _ _ db2 db3 hok3 t ht with hin | hnew
    · refine ⟨t, ?_, ?_⟩
      · rw [← hlog1, ← hlog2]
        exact hin
      · rw [hr']
        exact List.mem_cons_of_mem _ (List.mem_singleton.mpr rfl)
    · rw [hr'] at hnew
      exact absurd hnew.symm (append_suffix_ne reference sa sb hne)
  · exact (execOps_nil_error db4 e h4).elim

theorem SwapFunds_explained (db : DB) (userID fromCurrency toCurrency : String)
    (sourceAmount amountOut : Amount) (reference description : String) (e : GoError)
    (h : (SwapFunds db userID fromCurrency toCurrency sourceAmount amountOut reference
      description).1 = some e) :
    DuplicateExplained db [reference ++ "-OUT", reference ++ "-IN"] e := by
  unfold SwapFunds at h
  split at h
  · split at h
    · simp only [Option.some.injEq] at h
      subst h
      exact DuplicateExplained.of_errorf db _ _
    · simp only at h
      split at h
      · next err db' hP =>
        have hx : DuplicateExplained db [reference ++ "-OUT", reference ++ "-IN"] err := by
          refine execOps_two_rows_explained db _ _ _ _ _ _ _ _ _ reference "-OUT" "-IN"
            (by decide) _ _ err ?_ ?_ ?_ ?_ (Prisma.Transaction_error _ db err (by rw [hP]))
          · exact fun d e1 h1 => WalletAsset.Update_error _ _ d e1 h1
          · exact fun d d1 h1 => WalletAsset.Update_transactions _ _ d d1 h1
          · exact fun d e1 h1 => WalletAsset.UpsertOne_error _ _ _ d e1 h1
          · exact fun d d1 h1 => WalletAsset.UpsertOne_transactions _ _ _ d d1 h1
        split at h
        · simp only [Option.some.injEq] at h
          subst h
          exact DuplicateExplained.of_errorf db _ _
        · simp only [Option.some.injEq] at h
          subst h
          exact hx
      · simp at h
  · simp only [Option.some.injEq] at h
    subst h
    exact DuplicateExplained.of_errorf db _ _

theorem TransferFunds_explained (db : DB) (fromUserID toAccountNumber currency : String)
    (amount : Amount) (reference descSender descReceiver : String) (e : GoError)
    (h : (TransferFunds db fromUserID toAccountNumber currency amount reference descSender
      descReceiver).1 = some e) :
    DuplicateExplained db [reference ++ "-DEBIT", reference ++ "-CREDIT"] e := by
  unfold TransferFunds at h
  split at h
  · split at h
    · split at h
      · simp only [Option.some.injEq] at h
        subst h
        exact DuplicateExplained.of_errorf db _ _
      · simp only at h
        split at h
        · next err db' hP =>
          have hx : DuplicateExplained db [reference ++ "-DEBIT", reference ++ "-CREDIT"] err := by
            refine execOps_two_rows_explained db _ _ _ _ _ _ _ _ _ reference "-DEBIT" "-CREDIT"
              (by decide) _ _ err ?_ ?_ ?_ ?_ (Prisma.Transaction_error _ db err (by rw [hP]))
            · exact fun d e1 h1 => WalletAsset.Update_error _ _ d e1 h1
            · exact fun d d1 h1 => WalletAsset.Update_transactions _ _ d d1 h1
            · exact fun d e1 h1 => WalletAsset.UpsertOne_error _ _ _ d e1 h1
            · exact fun d d1 h1 => WalletAsset.UpsertOne_transactions _ _ _ d d1 h1
          split at h
          · simp only [Option.some.injEq] at h
            subst h
            exact DuplicateExplained.of_errorf db _ _
          · simp only [Option.some.injEq] at h
            subst h
            exact hx
        · simp at h
    · simp only [Option.some.injEq] at h
      subst h
      exact DuplicateExplained.of_errorf db _ _
  · simp only [Option.some.injEq] at h
    subst h
    exact DuplicateExplained.of_errorf db _ _

theorem fetchExchangeRate_error (api : String → RateResponse) (fromCurrency toCurrency : String)
    (rate : Amount) (e : GoError)
    (h : fetchExchangeRate api fromCurrency toCurrency = (rate, some e)) :
    e ≠ .ErrTransactionAlreadyProcessed := by
  unfold fetchExchangeRate at h
  split at h
  · simp at h
  · split at h
    · simp only [Prod.mk.injEq, Option.some.injEq] at h
      rw [← h.2]
      simp
    · simp only [Prod.mk.injEq, Option.some.injEq] at h
      rw [← h.2]
      simp
    · split at h
      · simp at h
      · simp only [Prod.mk.injEq, Option.some.injEq] at h
        rw [← h.2]
        simp

theorem FundWallet_reported (db : DB) (redis : RedisStore) (userID currency : String)
    (amount : Amount) (reference description : String)
    (hav : redis.available = true) (hfree : redis.holds ("idemp:" ++ reference) = false)
    (h : (FundWallet db redis userID currency amount reference description).1
      = some .ErrTransactionAlreadyProcessed) :
    ∃ t ∈ db.transactions, t.Reference ∈ [reference] := by
  unfold FundWallet at h
  rw [TryLockIdempotencyKey_free redis reference 300 hav hfree] at h
  simp only [Bool.not_true, Bool.false_eq_true, if_false] at h
  rcases GetAssetByCurrency_cases db userID currency with ⟨a, ha⟩ | hn
  · rw [ha] at h
    simp only at h
    split at h
    · next err db' hC =>
      have hx := CreditWallet_explained db a.WalletID currency amount reference description
        .Deposit err (by rw [hC])
      split at h
      · next hu => exact hx.2 hu
      · simp only [Option.some.injEq] at h
        exact absurd h hx.1
    · simp at h
  · rw [hn] at h
    simp at h

theorem walletService.SwapFunds_reported (api : String → RateResponse) (db : DB)
    (redis : RedisStore) (userID fromCurrency toCurrency : String) (amountIn : Amount)
    (reference : String)
    (hav : redis.available = true) (hfree : redis.holds ("idemp:" ++ reference) = false)
    (h : (walletService.SwapFunds api db redis userID fromCurrency toCurrency amountIn
      reference).1.2 = some .ErrTransactionAlreadyProcessed) :
    ∃ t ∈ db.transactions, t.Reference ∈ [reference ++ "-OUT", reference ++ "-IN"] := by
  unfold walletService.SwapFunds at h
  rw [TryLockIdempotencyKey_free redis reference 300 hav hfree] at h
  simp only [Bool.not_true, Bool.false_eq_true, if_false] at h
  split at h
  · next rate err hrate =>
    simp only [Option.some.injEq] at h
    exact absurd h (fetchExchangeRate_error api fromCurrency toCurrency rate err hrate)
  · split at h
    · next err db1 hS =>
      have hx := SwapFunds_explained db userID fromCurrency toCurrency amountIn _ reference _ err
        (by rw [hS])
      split at h
      · next hu => exact hx.2 hu
      · simp only [Option.some.injEq] at h
        exact absurd h hx.1
    · simp at h

theorem walletService.TransferFunds_reported (db : DB) (redis : RedisStore)
    (userID toAccount currency : String) (amount : Amount) (userDesc reference : String)
    (hav : redis.available = true) (hfree : redis.holds ("idemp:" ++ reference) = false)
    (h : (walletService.TransferFunds db redis userID toAccount currency amount userDesc
      reference).1.2 = some .ErrTransactionAlreadyProcessed) :
    ∃ t ∈ db.transactions, t.Reference ∈ [reference ++ "-DEBIT", reference ++ "-CREDIT"] := by
  unfold walletService.TransferFunds at h
  rw [TryLockIdempotencyKey_free redis reference 300 hav hfree] at h
  simp only [Bool.not_true, Bool.false_eq_true, if_false] at h
  split at h
  · simp at h
  · split at h
    · next err hwal =>
      simp only [Option.some.injEq] at h
      subst h
      unfold GetWalletByAccountNumber at hwal
      split at hwal
      · simp at hwal
      · simp at hwal
    · simp at h
    · split at h
      · simp at h
      · split at h
        · next err db1 hT =>
          have hx := TransferFunds_explained db userID toAccount currency amount reference _ _
            err (by rw [hT])
          split at h
          · next hu => exact hx.2 hu
          · simp only [Option.some.injEq] at h
            exact absurd h hx.1
        · simp at h

/-- Counterexample to C30: the key/value store does not answer, it holds no key and the log
of the example store has no row with the reference `K1`; `FundWallet`, `SwapFunds` and
`TransferFunds` with the reference `K1` return `ErrTransactionAlreadyProcessed`. -/
theorem already_processed_counterexample :
    RedisStore.holds { emptyRedis with available := false } ("idemp:" ++ "K1") = false ∧
      (∀ t ∈ exampleStore.transactions,
        t.Reference ∉ ["K1", "K1" ++ "-OUT", "K1" ++ "-IN", "K1" ++ "-DEBIT", "K1" ++ "-CREDIT"]) ∧
      FundWallet exampleStore { emptyRedis with available := false } "u1" "USD" 5 "K1" "fund"
        = (some .ErrTransactionAlreadyProcessed, exampleStore,
            { emptyRedis with available := false }) ∧
      (ServiceCall.exec exampleRates "K1" exampleStore { emptyRedis with available := false }
          (.SwapFunds "u1" "USD" "NGN" 3)).1 = some .ErrTransactionAlreadyProcessed ∧
      (ServiceCall.exec exampleRates "K1" exampleStore { emptyRedis with available := false }
          (.TransferFunds "u1" "1000000002" "USD" 5 "rent")).1
        = some .ErrTransactionAlreadyProcessed := by
  decide!

/-- C30, amended: when a call of `FundWallet`, `SwapFunds` or `TransferFunds` returns
`ErrTransactionAlreadyProcessed`, the key/value store did not answer when the lock was taken,
or it already held the key `idemp:` followed by the reference, or the log already held a row
with a reference that the call writes (the reference itself for `FundWallet`, the reference
with the suffix `-OUT` or `-IN` for `SwapFunds`, with `-DEBIT` or `-CREDIT` for
`TransferFunds`). A key/value store that does not answer is reported as
`ErrTransactionAlreadyProcessed`, with both stores unchanged. -/
theorem already_processed_reported (api : String → RateResponse) (reference : String) (db : DB)
    (redis : RedisStore) (c : ServiceCall) :
    ((c.exec api reference db redis).1 = some .ErrTransactionAlreadyProcessed →
        redis.available = false ∨ redis.holds ("idemp:" ++ reference) = true ∨
          ∃ t ∈ db.transactions, t.Reference ∈ c.references reference) ∧
      (redis.available = false →
        c.exec api reference db redis = (some .ErrTransactionAlreadyProcessed, db, redis)) := by
  refine ⟨fun h => ?_, fun hdown => ServiceCall.exec_blocked api reference db redis c
    (Or.inl hdown)⟩
  cases hav : redis.available
  · exact Or.inl rfl
  cases hfree : redis.holds ("idemp:" ++ reference)
  swap
  · exact Or.inr (Or.inl rfl)
  refine Or.inr (Or.inr ?_)
  cases c with
  | FundWallet userID currency amount description =>
    exact FundWallet_reported db redis userID currency amount reference description hav hfree h
  | SwapFunds userID fromCurrency toCurrency amountIn =>
    exact walletService.SwapFunds_reported api db redis userID fromCurrency toCurrency amountIn
      reference hav hfree (by simpa only [ServiceCall.exec] using h)
  | TransferFunds userID toAccount currency amount userDesc =>
    exact walletService.TransferFunds_reported db redis userID toAccount currency amount userDesc
      reference hav hfree (by simpa only [ServiceCall.exec] using h)

/-- C30 as amended, at the example store, whose log holds a row with the reference `SEED_123`:
on a key/value store that answers and holds no key, `FundWallet` with that reference returns
`ErrTransactionAlreadyProcessed`, and the row is the reason. -/
theorem already_processed_reported_witness :
    ((ServiceCall.FundWallet "u1" "USD" 5 "fund").exec exampleRates "SEED_123" exampleStore
        emptyRedis).1 = some .ErrTransactionAlreadyProcessed ∧
      (emptyRedis.available = false ∨ emptyRedis.holds ("idemp:" ++ "SEED_123") = true ∨
        ∃ t ∈ exampleStore.transactions,
          t.Reference ∈ (ServiceCall.FundWallet "u1" "USD" 5 "fund").references "SEED_123") :=
  ⟨by decide!,
    (already_processed_reported exampleRates "SEED_123" exampleStore emptyRedis
      (.FundWallet "u1" "USD" 5 "fund")).1 (by decide!)⟩


/-! ## The lock of a delivery that could not be enqueued -/

theorem PaystackWebhookHandler.interleaved_id (redis : RedisStore) (body : Option WebhookBody)
    (signature : String) (signatureValid : Bool) :
    PaystackWebhookHandler.interleaved id id redis body signature signatureValid
      = PaystackWebhookHandler redis body signature signatureValid := by
  unfold PaystackWebhookHandler.interleaved PaystackWebhookHandler
  simp only [id]

theorem Enqueue_failed (r : RedisStore) (queueName : String) (payload : WebhookBody)
    (h : (Enqueue r queueName payload).1 ≠ none) : (Enqueue r queueName payload).2 = r := by
  unfold Enqueue RedisStore.RPush at h ⊢
  split
  · rfl
  · split
    · rfl
    · next h1 h2 =>
      simp only [h1, h2, if_false] at h
      exact absurd rfl h

theorem PaystackWebhookHandler.interleaved_failed (afterLock afterPush : RedisStore → RedisStore)
    (redis : RedisStore) (body : WebhookBody) (reference signature : String)
    (href : reference ≠ "") (hb : body.reference? = (reference, true)) (hs : signature ≠ "")
    (hlock : (TryLockIdempotencyKey redis reference 86400).1.1 = true)
    (hfail : (Enqueue (afterLock (TryLockIdempotencyKey redis reference 86400).2)
      "payment_webhooks" body).1 ≠ none) :
    PaystackWebhookHandler.interleaved afterLock afterPush redis (some body) signature true
      = (500, (RedisQueue.Delete
          (afterPush (afterLock (TryLockIdempotencyKey redis reference 86400).2))
          ("idemp:" ++ reference)).2) := by
  have hs' : (signature == "") = false := by simpa using hs
  have href' : (reference != "") = true := by simpa using href
  have hsame := Enqueue_failed _ _ _ hfail
  rcases hT : TryLockIdempotencyKey redis reference 86400 with ⟨⟨locked, e⟩, r1⟩
  rw [hT] at hlock hfail hsame
  simp only at hlock hfail hsame
  subst hlock
  rcases hE : Enqueue (afterLock r1) "payment_webhooks" body with ⟨_ | err, r2⟩
  · rw [hE] at hfail
    exact absurd rfl hfail
  · rw [hE] at hsame
    simp only at hsame
    subst hsame
    simp [PaystackWebhookHandler.interleaved, hs', hb, href', hT, hE]

/-- Counterexample to C19: the delivery of the charge `PAY_1` to the empty key/value store
acquires the lock, and then the service stops answering. `Enqueue` fails, the handler answers
with status 500, and the `Delete` it sends fails as well: the key `idemp:PAY_1` is still held,
for 24 hours. When the service answers again, a later delivery with the same reference does
not acquire the lock: it is answered with status 200 and is not enqueued. -/
theorem webhook_enqueue_failure_counterexample :
    (TryLockIdempotencyKey emptyRedis "PAY_1" 86400).1.1 = true ∧
      (Enqueue (serviceOutage (TryLockIdempotencyKey emptyRedis "PAY_1" 86400).2)
        "payment_webhooks" chargeSuccess).1 ≠ none ∧
      (PaystackWebhookHandler.interleaved serviceOutage id emptyRedis (some chargeSuccess) "sig"
        true).1 = 500 ∧
      (PaystackWebhookHandler.interleaved serviceOutage id emptyRedis (some chargeSuccess) "sig"
        true).2.entries = [webhookLock "PAY_1"] ∧
      (PaystackWebhookHandler.interleaved serviceOutage id emptyRedis (some chargeSuccess) "sig"
        true).2.holds ("idemp:" ++ "PAY_1") = true ∧
      PaystackWebhookHandler
          (serviceRecovery (PaystackWebhookHandler.interleaved serviceOutage id emptyRedis
            (some chargeSuccess) "sig" true).2) (some chargeSuccess) "sig" true
        = (200, serviceRecovery (PaystackWebhookHandler.interleaved serviceOutage id emptyRedis
            (some chargeSuccess) "sig" true).2) ∧
      (serviceRecovery (PaystackWebhookHandler.interleaved serviceOutage id emptyRedis
        (some chargeSuccess) "sig" true).2).list "payment_webhooks" = [] := by
  decide

/-- C19, amended: when a delivery has acquired the lock of its reference and `Enqueue` fails,
the handler sends the `Delete` of the key and answers with status 500, whatever becomes of the
service between its commands, as long as nobody else writes the keys. When the service answers
the `Delete`, the key of the reference is absent afterwards, the keys being those before the
delivery, and a later delivery with the same reference to a store with these keys that answers
and accepts pushes acquires the lock and is enqueued. When the service does not answer the
`Delete`, whose error the handler drops, the lock stays among the keys with its 24 hours, and
a later delivery with the same reference to a store with these keys is answered with status
200 and changes nothing. -/
theorem webhook_lock_release (afterLock afterPush : RedisStore → RedisStore)
    (redis : RedisStore) (body : WebhookBody) (reference signature : String)
    (href : reference ≠ "") (hb : body.reference? = (reference, true)) (hs : signature ≠ "")
    (hL : ∀ r, (afterLock r).entries = r.entries) (hP : ∀ r, (afterPush r).entries = r.entries)
    (hlock : (TryLockIdempotencyKey redis reference 86400).1.1 = true)
    (hfail : (Enqueue (afterLock (TryLockIdempotencyKey redis reference 86400).2)
      "payment_webhooks" body).1 ≠ none) :
    (PaystackWebhookHandler.interleaved afterLock afterPush redis (some body) signature true).1
        = 500 ∧
      ((afterPush (afterLock (TryLockIdempotencyKey redis reference 86400).2)).available = true →
        (PaystackWebhookHandler.interleaved afterLock afterPush redis (some body) signature
          true).2.holds ("idemp:" ++ reference) = false ∧
        (PaystackWebhookHandler.interleaved afterLock afterPush redis (some body) signature
          true).2.entries = redis.entries ∧
        (∀ (later : RedisStore) (body2 : WebhookBody) (signature2 : String),
          later.entries = (PaystackWebhookHandler.interleaved afterLock afterPush redis
            (some body) signature true).2.entries →
          later.available = true → later.pushesRefused = false →
          body2.reference? = (reference, true) → signature2 ≠ "" →
          (PaystackWebhookHandler later (some body2) signature2 true).1 = 200 ∧
            (PaystackWebhookHandler later (some body2) signature2 true).2.holds
              ("idemp:" ++ reference) = true ∧
            (PaystackWebhookHandler later (some body2) signature2 true).2.list "payment_webhooks"
              = later.list "payment_webhooks" ++ [QueueItem.Job ⟨body2, 0⟩])) ∧
      ((afterPush (afterLock (TryLockIdempotencyKey redis reference 86400).2)).available = false →
        (PaystackWebhookHandler.interleaved afterLock afterPush redis (some body) signature
          true).2.entries = redis.entries ++ [webhookLock reference] ∧
        (∀ (later : RedisStore) (body2 : WebhookBody) (signature2 : String),
          later.entries = (PaystackWebhookHandler.interleaved afterLock afterPush redis
            (some body) signature true).2.entries →
          body2.reference? = (reference, true) → signature2 ≠ "" →
          PaystackWebhookHandler later (some body2) signature2 true = (200, later))) := by
  have hres := PaystackWebhookHandler.interleaved_failed afterLock afterPush redis body reference
    signature href hb hs hlock hfail
  rcases TryLockIdempotencyKey_cases redis reference 86400 with ⟨_, h1, _⟩ | ⟨_, hfree, hT⟩
  · rw [h1] at hlock
    exact absurd hlock (by decide)
  have hent : (afterPush (afterLock (TryLockIdempotencyKey redis reference 86400).2)).entries
      = redis.entries ++ [webhookLock reference] := by
    rw [hP, hL, hT]
    rfl
  have hne : ∀ e ∈ redis.entries, e.key ≠ "idemp:" ++ reference := by
    simpa [RedisStore.holds] using hfree
  have hfilter : (redis.entries ++ [webhookLock reference]).filter
      (fun e => !(e.key == "idemp:" ++ reference)) = redis.entries := by
    rw [List.filter_append, filter_key_ne_self _ _ hne]
    simp [webhookLock]
  rw [hres]
  refine ⟨rfl, ?_, ?_⟩
  · intro hav
    have hkeys : (RedisQueue.Delete
        (afterPush (afterLock (TryLockIdempotencyKey redis reference 86400).2))
        ("idemp:" ++ reference)).2.entries = redis.entries := by
      simp only [RedisQueue.Delete, RedisStore.Del, hav, Bool.not_true, Bool.false_eq_true,
        if_false, hent, hfilter]
    refine ⟨?_, hkeys, ?_⟩
    · simp only [RedisStore.holds, hkeys]
      exact hfree
    · intro later body2 signature2 hlater hav2 hpush2 hb2 hs2
      simp only [hkeys] at hlater
      have hfree2 : later.holds ("idemp:" ++ reference) = false := by
        simp only [RedisStore.holds, hlater]
        exact hfree
      have hnew := (PaystackWebhookHandler_fresh later body2 reference signature2 href hb2 hs2
        hav2 hfree2).1 hpush2
      have hflags := RedisStore.setList_flags
        { later with entries := later.entries ++ [webhookLock reference] } "payment_webhooks"
        (later.list "payment_webhooks" ++ [QueueItem.Job ⟨body2, 0⟩])
      refine ⟨by rw [hnew], ?_, by rw [hnew, RedisStore.list_setList]⟩
      rw [hnew]
      simp only [RedisStore.holds, hflags.2.2.1]
      simp [webhookLock]
  · intro hdown
    have hkeys : (RedisQueue.Delete
        (afterPush (afterLock (TryLockIdempotencyKey redis reference 86400).2))
        ("idemp:" ++ reference)).2.entries = redis.entries ++ [webhookLock reference] := by
      simp only [RedisQueue.Delete, RedisStore.Del, hdown, Bool.not_false, if_true, hent]
    refine ⟨hkeys, ?_⟩
    intro later body2 signature2 hlater hb2 hs2
    simp only [hkeys] at hlater
    have hheld : later.holds ("idemp:" ++ reference) = true := by
      simp [RedisStore.holds, hlater, webhookLock]
    exact PaystackWebhookHandler_duplicate later body2 reference signature2 href hb2 hs2
      (Or.inr hheld)

/-- C19 as amended, at the empty store for the charge `PAY_1`. When the service refuses the
push and answers the `Delete`, the delivery is answered with status 500 and leaves no key
behind. When the service stops answering after the lock was taken, the delivery is answered
with status 500 and leaves the lock behind. -/
theorem webhook_lock_release_witness :
    ((PaystackWebhookHandler.interleaved id id refusingRedis (some chargeSuccess) "sig" true).1
        = 500 ∧
      (PaystackWebhookHandler.interleaved id id refusingRedis (some chargeSuccess) "sig"
        true).2.holds ("idemp:" ++ "PAY_1") = false) ∧
      ((PaystackWebhookHandler.interleaved serviceOutage id emptyRedis (some chargeSuccess) "sig"
        true).1 = 500 ∧
      (PaystackWebhookHandler.interleaved serviceOutage id emptyRedis (some chargeSuccess) "sig"
        true).2.entries = emptyRedis.entries ++ [webhookLock "PAY_1"]) :=
  ⟨⟨(webhook_lock_release id id refusingRedis chargeSuccess "PAY_1" "sig" (by decide)
        (by decide) (by decide) (fun _ => rfl) (fun _ => rfl) (by decide) (by decide)).1,
      ((webhook_lock_release id id refusingRedis chargeSuccess "PAY_1" "sig" (by decide)
        (by decide) (by decide) (fun _ => rfl) (fun _ => rfl) (by decide) (by decide)).2.1
        (by decide)).1⟩,
    ⟨(webhook_lock_release serviceOutage id emptyRedis chargeSuccess "PAY_1" "sig" (by decide)
        (by decide) (by decide) (fun _ => rfl) (fun _ => rfl) (by decide) (by decide)).1,
      ((webhook_lock_release serviceOutage id emptyRedis chargeSuccess "PAY_1" "sig" (by decide)
        (by decide) (by decide) (fun _ => rfl) (fun _ => rfl) (by decide) (by decide)).2.2
        (by decide)).1⟩⟩


end MZL
